import Mathlib

/-!
# Rodent III evaluation parameters (`src/params.cpp`)

A shallow embedding of `cParam` and of the table builders of `params.cpp`.

Conventions of the embedding.

* A C `int` is an `Int`.  Signed overflow is undefined behaviour in C, so the
  embedding describes the runs in which no arithmetic overflows; every value the
  two profiles store is below 25000 in absolute value and the products formed
  by the builders stay far inside 32 bits.  C division of `int`s truncates
  towards zero: it is `Int.tdiv`.
* A C array is a total function of its index (`Nat → Int`); a store `a[i] = v`
  is `upd a i v`.  Out-of-bounds indices (undefined behaviour in C) do not occur
  in the functions embedded here.
* `Par` is the one process-wide `cParam` instance and the member functions are
  called on it, so `Par.values` and `values` are the same array.
* Standard output is the list of the strings written by the `printf` calls.
* `rodent.h` and `eval.h` are not part of the sources at hand.  What the
  functions use from them (the numbering of the `enum` of parameter slots, the
  name table, the piece-square templates, `adj`, `imbalance_data`, the indices
  `DEF_MG` ...) is collected in the structure `Decls` and taken as a parameter.
-/

namespace Rodent

/-! ## Declarations taken from the missing headers -/

/-- The parameter slots named in `params.cpp` (enumerators of the slot `enum` of
`rodent.h`), in the order in which `DefaultWeights` first mentions them.  The
numbering of the enumerators is the field `Decls.idx`. -/
inductive ParamName where
  | P_MID | N_MID | B_MID | R_MID | Q_MID | P_END | N_END | B_END | R_END | Q_END | B_PAIR
  | N_PAIR | R_PAIR | ELEPH | A_EXC | A_MIN | A_MAJ | A_TWO | A_ALL | N_CL | R_OP | N_ATT1
  | N_ATT2 | B_ATT1 | B_ATT2 | R_ATT1 | R_ATT2 | Q_ATT1 | Q_ATT2 | N_CHK | B_CHK | R_CHK
  | Q_CHK | R_CONTACT | Q_CONTACT | NTR_MG | NTR_EG | BTR_MG | BTR_EG | RTR_MG | RTR_EG
  | QTR_MG | QTR_EG | W_MATERIAL | W_PST | W_OWN_ATT | W_OPP_ATT | W_OWN_MOB | W_OPP_MOB
  | W_THREATS | W_TROPISM | W_FWD | W_PASSERS | W_MASS | W_CHAINS | W_OUTPOSTS | W_LINES
  | W_STRUCT | W_SHIELD | W_STORM | W_CENTER | DB_MID | DB_END | ISO_MG | ISO_EG | ISO_OF
  | BK_MID | BK_END | BK_OPE | P_BIND | P_BADBIND | P_ISL | P_THR | P_BIGCHAIN | P_SMALLCHAIN
  | P_CS1 | P_CS2 | P_CSFAIL | PMG2 | PMG3 | PMG4 | PMG5 | PMG6 | PMG7 | PEG2 | PEG3 | PEG4
  | PEG5 | PEG6 | PEG7 | P_BL_MUL | P_OURSTOP_MUL | P_OPPSTOP_MUL | P_DEFMUL | P_STOPMUL
  | P_SH_NONE | P_SH_2 | P_SH_3 | P_SH_4 | P_SH_5 | P_SH_6 | P_SH_7 | P_ST_OPEN | P_ST_3
  | P_ST_4 | P_ST_5 | N_TRAP | N_BLOCK | N_OWH | N_REACH | BN_SHIELD | B_FIANCH | B_KING
  | B_BADF | B_TRAP_A2 | B_TRAP_A3 | B_BLOCK | B_BF_MG | B_BF_EG | B_WING | B_OVH | B_REACH
  | B_TOUCH | B_OWN_P | B_OPP_P | B_RETURN | RSR_MG | RSR_EG | RS2_MG | RS2_EG | ROF_MG
  | ROF_EG | RGH_MG | RGH_EG | RBH_MG | RBH_EG | ROQ_MG | ROQ_EG | R_BLOCK | QSR_MG | QSR_EG
  | K_NO_LUFT | K_CASTLE | N_FWD | B_FWD | R_FWD | Q_FWD | NMG0 | NMG1 | NMG2 | NMG3 | NMG4
  | NMG5 | NMG6 | NMG7 | NMG8 | NEG0 | NEG1 | NEG2 | NEG3 | NEG4 | NEG5 | NEG6 | NEG7 | NEG8
  | BMG0 | BMG1 | BMG2 | BMG3 | BMG4 | BMG5 | BMG6 | BMG7 | BMG8 | BMG9 | BMG10 | BMG11 | BMG12
  | BMG13 | BEG0 | BEG1 | BEG2 | BEG3 | BEG4 | BEG5 | BEG6 | BEG7 | BEG8 | BEG9 | BEG10 | BEG11
  | BEG12 | BEG13 | RMG0 | RMG1 | RMG2 | RMG3 | RMG4 | RMG5 | RMG6 | RMG7 | RMG8 | RMG9 | RMG10
  | RMG11 | RMG12 | RMG13 | RMG14 | REG0 | REG1 | REG2 | REG3 | REG4 | REG5 | REG6 | REG7
  | REG8 | REG9 | REG10 | REG11 | REG12 | REG13 | REG14
  deriving DecidableEq, Repr

/-- What `params.cpp` uses from `rodent.h` and `eval.h`, taken as a parameter. -/
structure Decls where
  /-- value of each enumerator of the slot `enum` -/
  idx : ParamName → Nat
  /-- number of slots, the last enumerator `N_OF_VAL` -/
  N_OF_VAL : Nat
  /-- the table `paramNames` -/
  paramNames : Nat → String
  pstPawnMg : Nat → Nat → Int
  pstPawnEg : Nat → Nat → Int
  pstKnightMg : Nat → Nat → Int
  pstKnightEg : Nat → Nat → Int
  pstBishopMg : Nat → Nat → Int
  pstBishopEg : Nat → Nat → Int
  pstRookMg : Nat → Nat → Int
  pstRookEg : Nat → Nat → Int
  pstQueenMg : Nat → Nat → Int
  pstQueenEg : Nat → Nat → Int
  pstKingMg : Nat → Nat → Int
  pstKingEg : Nat → Nat → Int
  pstKnightOutpost : Nat → Int
  pstBishopOutpost : Nat → Int
  pstDefendedPawnMg : Nat → Int
  pstPhalanxPawnMg : Nat → Int
  pstDefendedPawnEg : Nat → Int
  pstPhalanxPawnEg : Nat → Int
  DEF_MG : Nat
  PHA_MG : Nat
  DEF_EG : Nat
  PHA_EG : Nat
  adj : Nat → Int
  imbalance_data : Nat → Nat → Int

/-- Modelled from the spec: the side indices of `rodent.h`; `InitPst` runs its
side loop over `0` and `1` and the spec calls them white and black. -/
def WC : Nat := 0
/-- Modelled from the spec: side index of black, see `WC`. -/
def BC : Nat := 1

/-- Modelled from the spec: the piece kinds pawn, knight, bishop, rook, queen,
king of `rodent.h`, numbered in this order (`keep_pc[K + 1]` is the entry after
the king). -/
def P : Nat := 0
/-- Modelled from the spec: knight, see `P`. -/
def N : Nat := 1
/-- Modelled from the spec: bishop, see `P`. -/
def B : Nat := 2
/-- Modelled from the spec: rook, see `P`. -/
def R : Nat := 3
/-- Modelled from the spec: queen, see `P`. -/
def Q : Nat := 4
/-- Modelled from the spec: king, see `P`. -/
def K : Nat := 5

/-- Modelled from the spec: the macro `REL_SQ(sq, cl)` of `rodent.h`, the square
seen from side `cl`: the identity for white, the rank flip `sq XOR 56` for
black. -/
def REL_SQ (sq cl : Nat) : Nat := sq ^^^ (cl * 56)

/-! ## The parameter store -/

/-- Array store `a[i] = v`. -/
def upd {α : Type} (a : Nat → α) (i : Nat) (v : α) : Nat → α :=
  fun j => if j = i then v else a j

/-- Store into a two-dimensional array, `a[i][j] = v`. -/
def upd2 {α : Type} (a : Nat → Nat → α) (i j : Nat) (v : α) : Nat → Nat → α :=
  fun i2 j2 => if i2 = i ∧ j2 = j then v else a i2 j2

/-- Store into a three-dimensional array, `a[i][j][k] = v`. -/
def upd3 {α : Type} (a : Nat → Nat → Nat → α) (i j k : Nat) (v : α) :
    Nat → Nat → Nat → α :=
  fun i2 j2 k2 => if i2 = i ∧ j2 = j ∧ k2 = k then v else a i2 j2 k2

/-- The members of `cParam` that `params.cpp` reads or writes, and standard
output (`out`). -/
structure cParam where
  values : Nat → Int
  min_val : Nat → Int
  max_val : Nat → Int
  tunable : Nat → Bool
  search_skill : Int
  nps_limit : Int
  fl_weakening : Bool
  elo : Int
  eval_blur : Int
  book_depth : Int
  use_book : Bool
  verbose_book : Bool
  book_filter : Int
  time_percentage : Int
  keep_pc : Nat → Int
  pst_style : Nat
  mob_style : Nat
  draw_score : Int
  shut_up : Bool
  hist_perc : Int
  hist_limit : Int
  mg_pst : Nat → Nat → Nat → Int
  eg_pst : Nat → Nat → Nat → Int
  sp_pst : Nat → Nat → Nat → Int
  n_mob_mg : Nat → Int
  n_mob_eg : Nat → Int
  b_mob_mg : Nat → Int
  b_mob_eg : Nat → Int
  r_mob_mg : Nat → Int
  r_mob_eg : Nat → Int
  q_mob_mg : Nat → Int
  q_mob_eg : Nat → Int
  np_table : Nat → Int
  rp_table : Nat → Int
  imbalance : Nat → Nat → Int
  backward_malus_mg : Nat → Int
  passed_bonus_mg : Nat → Nat → Int
  passed_bonus_eg : Nat → Nat → Int
  danger : Nat → Int
  out : List String

/-- The store `mg_pst[sd][pc][sq] = v`. -/
def set_mg_pst (s : cParam) (sd pc sq : Nat) (v : Int) : cParam :=
  { s with mg_pst := upd3 s.mg_pst sd pc sq v }

/-- The store `eg_pst[sd][pc][sq] = v`. -/
def set_eg_pst (s : cParam) (sd pc sq : Nat) (v : Int) : cParam :=
  { s with eg_pst := upd3 s.eg_pst sd pc sq v }

/-- The store `sp_pst[sd][pc][sq] = v`. -/
def set_sp_pst (s : cParam) (sd pc sq : Nat) (v : Int) : cParam :=
  { s with sp_pst := upd3 s.sp_pst sd pc sq v }

/-- The store `imbalance[i][j] = v`. -/
def set_imbalance (s : cParam) (i j : Nat) (v : Int) : cParam :=
  { s with imbalance := upd2 s.imbalance i j v }

/-- The store `backward_malus_mg[f] = v`. -/
def set_backward_malus_mg (s : cParam) (f : Nat) (v : Int) : cParam :=
  { s with backward_malus_mg := upd s.backward_malus_mg f v }

/-- The store `passed_bonus_mg[sd][r] = v`. -/
def set_passed_bonus_mg (s : cParam) (sd r : Nat) (v : Int) : cParam :=
  { s with passed_bonus_mg := upd2 s.passed_bonus_mg sd r v }

/-- The store `passed_bonus_eg[sd][r] = v`. -/
def set_passed_bonus_eg (s : cParam) (sd r : Nat) (v : Int) : cParam :=
  { s with passed_bonus_eg := upd2 s.passed_bonus_eg sd r v }

/-- The conversion `%14s` of `printf`: the string, right-justified in a field of
width 14. -/
def fmt14s (s : String) : String :=
  String.mk (List.replicate (14 - s.length) ' ') ++ s

/-- The line `SetVal` prints for a value outside its bounds:
`printf("%14s ERROR\n", paramNames[slot])`. -/
def errorLine (D : Decls) (slot : Nat) : String :=
  fmt14s (D.paramNames slot) ++ " ERROR\n"

/-- Function `cParam::SetVal` (params.cpp:843). -/
def SetVal (D : Decls) (s : cParam) (slot : Nat) (val min max : Int) (tune : Bool) :
    cParam :=
  let s := { s with values := upd s.values slot val }
  let s := { s with min_val := upd s.min_val slot min }
  let s := { s with max_val := upd s.max_val slot max }
  let s := { s with tunable := upd s.tunable slot tune }
  if val < min ∨ val > max then
    { s with out := s.out ++ [errorLine D slot] }
  else s

/-! ## Piece-square tables -/

/-- The body of the two loops of `cParam::InitPst` (params.cpp:698-716) for the
square `sq` and the side `sd`.  None of its stores touches `values` or
`pst_style`, which are read once. -/
def InitPst_body (D : Decls) (s : cParam) (sq sd : Nat) : cParam :=
  let v := s.values
  let style := s.pst_style
  let s := set_mg_pst s sd P (REL_SQ sq sd) (
      (v (D.idx .P_MID) * v (D.idx .W_MATERIAL)).tdiv 100
      + (D.pstPawnMg style sq * v (D.idx .W_PST)).tdiv 100)
  let s := set_eg_pst s sd P (REL_SQ sq sd) (
      (v (D.idx .P_END) * v (D.idx .W_MATERIAL)).tdiv 100
      + (D.pstPawnEg style sq * v (D.idx .W_PST)).tdiv 100)
  let s := set_mg_pst s sd N (REL_SQ sq sd) (
      (v (D.idx .N_MID) * v (D.idx .W_MATERIAL)).tdiv 100
      + (D.pstKnightMg style sq * v (D.idx .W_PST)).tdiv 100)
  let s := set_eg_pst s sd N (REL_SQ sq sd) (
      (v (D.idx .N_END) * v (D.idx .W_MATERIAL)).tdiv 100
      + (D.pstKnightEg style sq * v (D.idx .W_PST)).tdiv 100)
  let s := set_mg_pst s sd B (REL_SQ sq sd) (
      (v (D.idx .B_MID) * v (D.idx .W_MATERIAL)).tdiv 100
      + (D.pstBishopMg style sq * v (D.idx .W_PST)).tdiv 100)
  let s := set_eg_pst s sd B (REL_SQ sq sd) (
      (v (D.idx .B_END) * v (D.idx .W_MATERIAL)).tdiv 100
      + (D.pstBishopEg style sq * v (D.idx .W_PST)).tdiv 100)
  let s := set_mg_pst s sd R (REL_SQ sq sd) (
      (v (D.idx .R_MID) * v (D.idx .W_MATERIAL)).tdiv 100
      + (D.pstRookMg style sq * v (D.idx .W_PST)).tdiv 100)
  let s := set_eg_pst s sd R (REL_SQ sq sd) (
      (v (D.idx .R_END) * v (D.idx .W_MATERIAL)).tdiv 100
      + (D.pstRookEg style sq * v (D.idx .W_PST)).tdiv 100)
  let s := set_mg_pst s sd Q (REL_SQ sq sd) (
      (v (D.idx .Q_MID) * v (D.idx .W_MATERIAL)).tdiv 100
      + (D.pstQueenMg style sq * v (D.idx .W_PST)).tdiv 100)
  let s := set_eg_pst s sd Q (REL_SQ sq sd) (
      (v (D.idx .Q_END) * v (D.idx .W_MATERIAL)).tdiv 100
      + (D.pstQueenEg style sq * v (D.idx .W_PST)).tdiv 100)
  let s := set_mg_pst s sd K (REL_SQ sq sd) (
      (D.pstKingMg style sq * v (D.idx .W_PST)).tdiv 100)
  let s := set_eg_pst s sd K (REL_SQ sq sd) (
      (D.pstKingEg style sq * v (D.idx .W_PST)).tdiv 100)
  let s := set_sp_pst s sd N (REL_SQ sq sd) (D.pstKnightOutpost sq)
  let s := set_sp_pst s sd B (REL_SQ sq sd) (D.pstBishopOutpost sq)
  let s := set_sp_pst s sd D.DEF_MG (REL_SQ sq sd) (D.pstDefendedPawnMg sq)
  let s := set_sp_pst s sd D.PHA_MG (REL_SQ sq sd) (D.pstPhalanxPawnMg sq)
  let s := set_sp_pst s sd D.DEF_EG (REL_SQ sq sd) (D.pstDefendedPawnEg sq)
  let s := set_sp_pst s sd D.PHA_EG (REL_SQ sq sd) (D.pstPhalanxPawnEg sq)
  s

/-- The first `n` rounds of the outer loop of `cParam::InitPst`. -/
def InitPst_upto (D : Decls) (s : cParam) (n : Nat) : cParam :=
  (List.range n).foldl
    (fun s sq => (List.range 2).foldl (fun s sd => InitPst_body D s sq sd) s) s

/-- Function `cParam::InitPst` (params.cpp:693): `for sq in 0..63, for sd in 0..1`. -/
def InitPst (D : Decls) (s : cParam) : cParam := InitPst_upto D s 64

/-- The midgame value `InitPst` computes for the piece kind `pc` from the
template square `sq` (right-hand sides of params.cpp:698-708). -/
def mgEntry (D : Decls) (s : cParam) (pc sq : Nat) : Int :=
  match pc with
  | 0 => (s.values (D.idx .P_MID) * s.values (D.idx .W_MATERIAL)).tdiv 100
      + (D.pstPawnMg s.pst_style sq * s.values (D.idx .W_PST)).tdiv 100
  | 1 => (s.values (D.idx .N_MID) * s.values (D.idx .W_MATERIAL)).tdiv 100
      + (D.pstKnightMg s.pst_style sq * s.values (D.idx .W_PST)).tdiv 100
  | 2 => (s.values (D.idx .B_MID) * s.values (D.idx .W_MATERIAL)).tdiv 100
      + (D.pstBishopMg s.pst_style sq * s.values (D.idx .W_PST)).tdiv 100
  | 3 => (s.values (D.idx .R_MID) * s.values (D.idx .W_MATERIAL)).tdiv 100
      + (D.pstRookMg s.pst_style sq * s.values (D.idx .W_PST)).tdiv 100
  | 4 => (s.values (D.idx .Q_MID) * s.values (D.idx .W_MATERIAL)).tdiv 100
      + (D.pstQueenMg s.pst_style sq * s.values (D.idx .W_PST)).tdiv 100
  | _ => (D.pstKingMg s.pst_style sq * s.values (D.idx .W_PST)).tdiv 100

/-- The endgame value `InitPst` computes for the piece kind `pc` from the
template square `sq` (right-hand sides of params.cpp:699-709). -/
def egEntry (D : Decls) (s : cParam) (pc sq : Nat) : Int :=
  match pc with
  | 0 => (s.values (D.idx .P_END) * s.values (D.idx .W_MATERIAL)).tdiv 100
      + (D.pstPawnEg s.pst_style sq * s.values (D.idx .W_PST)).tdiv 100
  | 1 => (s.values (D.idx .N_END) * s.values (D.idx .W_MATERIAL)).tdiv 100
      + (D.pstKnightEg s.pst_style sq * s.values (D.idx .W_PST)).tdiv 100
  | 2 => (s.values (D.idx .B_END) * s.values (D.idx .W_MATERIAL)).tdiv 100
      + (D.pstBishopEg s.pst_style sq * s.values (D.idx .W_PST)).tdiv 100
  | 3 => (s.values (D.idx .R_END) * s.values (D.idx .W_MATERIAL)).tdiv 100
      + (D.pstRookEg s.pst_style sq * s.values (D.idx .W_PST)).tdiv 100
  | 4 => (s.values (D.idx .Q_END) * s.values (D.idx .W_MATERIAL)).tdiv 100
      + (D.pstQueenEg s.pst_style sq * s.values (D.idx .W_PST)).tdiv 100
  | _ => (D.pstKingEg s.pst_style sq * s.values (D.idx .W_PST)).tdiv 100

/-- What the code computes for one non-king entry: each of the two products is
divided by 100 with C integer division, which truncates towards zero. -/
def truncPst (base wMaterial templ wPst : Int) : Int :=
  (base * wMaterial).tdiv 100 + (templ * wPst).tdiv 100

/-- The formula of the specification for one non-king entry,
`round(base * materialWeight / 100) + round(template * pstWeight / 100)`, with
`round` rounding to the nearest integer. -/
def roundPst (base wMaterial templ wPst : Int) : Int :=
  round ((base * wMaterial : ℚ) / 100) + round ((templ * wPst : ℚ) / 100)

/-! ## Mobility, material, pawn tables -/

/-- Body of the knight loop of `cParam::InitMobility` (params.cpp:724-725). -/
def mob_n_body (D : Decls) (s : cParam) (i : Nat) : cParam :=
  let s := { s with n_mob_mg := upd s.n_mob_mg i (
    if s.mob_style = 0 then 4 * ((i : Int) - 4) else s.values (D.idx .NMG0 + i)) }
  let s := { s with n_mob_eg := upd s.n_mob_eg i (
    if s.mob_style = 0 then 4 * ((i : Int) - 4) else s.values (D.idx .NEG0 + i)) }
  s

/-- Body of the bishop loop of `cParam::InitMobility` (params.cpp:729-730). -/
def mob_b_body (D : Decls) (s : cParam) (i : Nat) : cParam :=
  let s := { s with b_mob_mg := upd s.b_mob_mg i (
    if s.mob_style = 0 then 5 * ((i : Int) - 6) else s.values (D.idx .BMG0 + i)) }
  let s := { s with b_mob_eg := upd s.b_mob_eg i (
    if s.mob_style = 0 then 5 * ((i : Int) - 6) else s.values (D.idx .BEG0 + i)) }
  s

/-- Body of the rook loop of `cParam::InitMobility` (params.cpp:734-735). -/
def mob_r_body (D : Decls) (s : cParam) (i : Nat) : cParam :=
  let s := { s with r_mob_mg := upd s.r_mob_mg i (
    if s.mob_style = 0 then 2 * ((i : Int) - 7) else s.values (D.idx .RMG0 + i)) }
  let s := { s with r_mob_eg := upd s.r_mob_eg i (
    if s.mob_style = 0 then 4 * ((i : Int) - 7) else s.values (D.idx .REG0 + i)) }
  s

/-- Body of the queen loop of `cParam::InitMobility` (params.cpp:739-740); the
two branches of each conditional are the same expression in the source. -/
def mob_q_body (s : cParam) (i : Nat) : cParam :=
  let s := { s with q_mob_mg := upd s.q_mob_mg i (
    if s.mob_style = 0 then 1 * ((i : Int) - 14) else 1 * ((i : Int) - 14)) }
  let s := { s with q_mob_eg := upd s.q_mob_eg i (
    if s.mob_style = 0 then 2 * ((i : Int) - 14) else 2 * ((i : Int) - 14)) }
  s

/-- Function `cParam::InitMobility` (params.cpp:721): four loops, over the counts
`0..8`, `0..13`, `0..14` and `0..27`. -/
def InitMobility (D : Decls) (s : cParam) : cParam :=
  let s := (List.range 9).foldl (mob_n_body D) s
  let s := (List.range 14).foldl (mob_b_body D) s
  let s := (List.range 15).foldl (mob_r_body D) s
  let s := (List.range 28).foldl mob_q_body s
  s

/-- The body of the imbalance loops of `cParam::InitMaterialTweaks`
(params.cpp:761-774) for the cell `(i, j)`: the store of the template value and
the ten conditional stores; `values` is not written, it is read once. -/
def imbalance_cell (D : Decls) (s : cParam) (i j : Nat) : cParam :=
  let d := D.imbalance_data i j
  let v := s.values
  let s := set_imbalance s i j d
  let s := if d = (D.idx .A_EXC : Int) then
    set_imbalance s i j (v (D.idx .A_EXC)) else s
  let s := if d = -(D.idx .A_EXC : Int) then
    set_imbalance s i j (-v (D.idx .A_EXC)) else s
  let s := if d = (D.idx .A_MIN : Int) then
    set_imbalance s i j (v (D.idx .A_MIN)) else s
  let s := if d = -(D.idx .A_MIN : Int) then
    set_imbalance s i j (-v (D.idx .A_MIN)) else s
  let s := if d = (D.idx .A_MAJ : Int) then
    set_imbalance s i j (v (D.idx .A_MAJ)) else s
  let s := if d = -(D.idx .A_MAJ : Int) then
    set_imbalance s i j (-v (D.idx .A_MAJ)) else s
  let s := if d = (D.idx .A_TWO : Int) then
    set_imbalance s i j (v (D.idx .A_TWO)) else s
  let s := if d = -(D.idx .A_TWO : Int) then
    set_imbalance s i j (-v (D.idx .A_TWO)) else s
  let s := if d = (D.idx .A_ALL : Int) then
    set_imbalance s i j (v (D.idx .A_ALL)) else s
  let s := if d = -(D.idx .A_ALL : Int) then
    set_imbalance s i j (-v (D.idx .A_ALL)) else s
  s

/-- Body of the first loop of `cParam::InitMaterialTweaks` (params.cpp:751-752). -/
def pawn_adj_body (D : Decls) (s : cParam) (i : Nat) : cParam :=
  let s := { s with np_table := upd s.np_table i (D.adj i * s.values (D.idx .N_CL)) }
  let s := { s with rp_table := upd s.rp_table i (D.adj i * s.values (D.idx .R_OP)) }
  s

/-- Function `cParam::InitMaterialTweaks` (params.cpp:745). -/
def InitMaterialTweaks (D : Decls) (s : cParam) : cParam :=
  let s := (List.range 9).foldl (pawn_adj_body D) s
  let s := (List.range 9).foldl (fun s i =>
    (List.range 9).foldl (fun s j => imbalance_cell D s i j) s) s
  s

/-- Modelled from the spec: the file indices `FILE_A .. FILE_H` of `rodent.h`,
files A-H in this order. -/
def FILE_A : Nat := 0
/-- Modelled from the spec: file B, see `FILE_A`. -/
def FILE_B : Nat := 1
/-- Modelled from the spec: file C, see `FILE_A`. -/
def FILE_C : Nat := 2
/-- Modelled from the spec: file D, see `FILE_A`. -/
def FILE_D : Nat := 3
/-- Modelled from the spec: file E, see `FILE_A`. -/
def FILE_E : Nat := 4
/-- Modelled from the spec: file F, see `FILE_A`. -/
def FILE_F : Nat := 5
/-- Modelled from the spec: file G, see `FILE_A`. -/
def FILE_G : Nat := 6
/-- Modelled from the spec: file H, see `FILE_A`. -/
def FILE_H : Nat := 7

/-- Function `cParam::InitBackward` (params.cpp:678); `values` is not written,
it is read once. -/
def InitBackward (D : Decls) (s : cParam) : cParam :=
  let v := s.values
  let s := set_backward_malus_mg s FILE_A (v (D.idx .BK_MID) + 3)
  let s := set_backward_malus_mg s FILE_B (v (D.idx .BK_MID) + 1)
  let s := set_backward_malus_mg s FILE_C (v (D.idx .BK_MID) - 1)
  let s := set_backward_malus_mg s FILE_D (v (D.idx .BK_MID) - 3)
  let s := set_backward_malus_mg s FILE_E (v (D.idx .BK_MID) - 3)
  let s := set_backward_malus_mg s FILE_F (v (D.idx .BK_MID) - 1)
  let s := set_backward_malus_mg s FILE_G (v (D.idx .BK_MID) + 1)
  let s := set_backward_malus_mg s FILE_H (v (D.idx .BK_MID) + 3)
  s

/-- Function `cParam::InitPassers` (params.cpp:657), the stores in source order
(white then black on each line); `values` is not written, it is read once. -/
def InitPassers (D : Decls) (s : cParam) : cParam :=
  let v := s.values
  let s := set_passed_bonus_mg s WC 0 0
  let s := set_passed_bonus_mg s BC 7 0
  let s := set_passed_bonus_mg s WC 1 (v (D.idx .PMG2))
  let s := set_passed_bonus_mg s BC 6 (v (D.idx .PMG2))
  let s := set_passed_bonus_mg s WC 2 (v (D.idx .PMG3))
  let s := set_passed_bonus_mg s BC 5 (v (D.idx .PMG3))
  let s := set_passed_bonus_mg s WC 3 (v (D.idx .PMG4))
  let s := set_passed_bonus_mg s BC 4 (v (D.idx .PMG4))
  let s := set_passed_bonus_mg s WC 4 (v (D.idx .PMG5))
  let s := set_passed_bonus_mg s BC 3 (v (D.idx .PMG5))
  let s := set_passed_bonus_mg s WC 5 (v (D.idx .PMG6))
  let s := set_passed_bonus_mg s BC 2 (v (D.idx .PMG6))
  let s := set_passed_bonus_mg s WC 6 (v (D.idx .PMG7))
  let s := set_passed_bonus_mg s BC 1 (v (D.idx .PMG7))
  let s := set_passed_bonus_mg s WC 7 0
  let s := set_passed_bonus_mg s BC 0 0
  let s := set_passed_bonus_eg s WC 0 0
  let s := set_passed_bonus_eg s BC 7 0
  let s := set_passed_bonus_eg s WC 1 (v (D.idx .PEG2))
  let s := set_passed_bonus_eg s BC 6 (v (D.idx .PEG2))
  let s := set_passed_bonus_eg s WC 2 (v (D.idx .PEG3))
  let s := set_passed_bonus_eg s BC 5 (v (D.idx .PEG3))
  let s := set_passed_bonus_eg s WC 3 (v (D.idx .PEG4))
  let s := set_passed_bonus_eg s BC 4 (v (D.idx .PEG4))
  let s := set_passed_bonus_eg s WC 4 (v (D.idx .PEG5))
  let s := set_passed_bonus_eg s BC 3 (v (D.idx .PEG5))
  let s := set_passed_bonus_eg s WC 5 (v (D.idx .PEG6))
  let s := set_passed_bonus_eg s BC 2 (v (D.idx .PEG6))
  let s := set_passed_bonus_eg s WC 6 (v (D.idx .PEG7))
  let s := set_passed_bonus_eg s BC 1 (v (D.idx .PEG7))
  let s := set_passed_bonus_eg s WC 7 0
  let s := set_passed_bonus_eg s BC 0 0
  s

/-! ## King-danger table

The loop of `InitTables` computes in `double`.  The embedding follows IEEE-754
binary64 with round-to-nearest-even, every product rounded to double precision.
All the doubles that occur are non-negative multiples of `2^-58`; such a double
is represented by its numerator, the natural number `x` standing for
`x / 2^58`. -/

/-- The position of the leading bit of `n`, searched from `k` downwards: the
largest `j ≤ k` with `2^j ≤ n`, and 0 if there is none. -/
def leadingBit (n : Nat) : Nat → Nat
  | 0 => 0
  | k + 1 => if 2 ^ (k + 1) ≤ n then k + 1 else leadingBit n k

/-- Rounding of the non-negative real `n / 2^58`, `n < 2^129`, to the nearest
double, ties to even: a number of at most 53 significant bits is kept, otherwise
the low bits are dropped and the 53-bit significand is rounded. -/
def roundDouble (n : Nat) : Nat :=
  let e := leadingBit n 128
  if e < 53 then n
  else
    let sh := e - 52
    let q := n / 2 ^ sh
    let r := n % 2 ^ sh
    let half := 2 ^ (sh - 1)
    let q1 := if half < r ∨ (r = half ∧ q % 2 = 1) then q + 1 else q
    q1 * 2 ^ sh

/-- The double literal `0.027`: the double nearest to `27/1000` is
`7782220156096217 / 2^58` (`0x1.ba5e353f7ced9p-6`). -/
def d0_027 : Nat := 7782220156096217

/-- The double `(double) n` of an `int` `n ≥ 0`, exact below `2^53`. -/
def ofInt (n : Nat) : Nat := n * 2 ^ 58

/-- The product of a double and an `int` converted to double, rounded. -/
def dmul (x : Nat) (i : Nat) : Nat := roundDouble (x * i)

/-- Modelled from the spec: the macro `Min(x, y)` of `rodent.h`,
`((x) < (y) ? (x) : (y))`, here on doubles. -/
def Min (x y : Nat) : Nat := if x < y then x else y

/-- The conversion `(int) x` of a non-negative double: truncation. -/
def toInt (x : Nat) : Nat := x / 2 ^ 58

/-- The new value of the accumulator `t` in round `i` of the loop of
`cParam::InitTables` (params.cpp:784):
`(int)Min(1280.0, Min((0.027 * i * i), t + 8.0))`.  The accumulator starts at 0
and is never negative, so it is a natural number. -/
def danger_step (t i : Nat) : Nat :=
  toInt (Min (ofInt 1280) (Min (dmul (dmul d0_027 i) i) (ofInt (t + 8))))

/-- Round `i` of the loop of `cParam::InitTables` (params.cpp:784-785) on the
pair of the accumulator `t` and the store. -/
def InitTables_body (p : Nat × cParam) (i : Nat) : Nat × cParam :=
  let t := danger_step p.1 i
  (t, { p.2 with danger := upd p.2.danger i (((t : Int) * 100).tdiv 256) })

/-- The first `n` rounds, `i = 1 .. n`, of the loop of `cParam::InitTables`,
started with `t = 0`. -/
def InitTables_upto (s : cParam) (n : Nat) : Nat × cParam :=
  (List.range' 1 n).foldl InitTables_body (0, s)

/-- Function `cParam::InitTables` (params.cpp:779): `for (t = 0, i = 1; i < 511; ++i)`. -/
def InitTables (s : cParam) : cParam := (InitTables_upto s 510).2

/-- The accumulator `t` after round `i` of the loop of `InitTables`. -/
def danger_t : Nat → Nat
  | 0 => 0
  | i + 1 => danger_step (danger_t i) (i + 1)

/-- The accumulator of the recurrence as the specification words it:
`t = min(1280, max(0.027*i², t+8))`, starting at 0, with `0.027 = 27/1000`. -/
def spec_t : Nat → ℚ
  | 0 => 0
  | i + 1 => min 1280 (max ((27 / 1000 : ℚ) * (i + 1 : ℕ) * (i + 1 : ℕ)) (spec_t i + 8))

/-- The table entry of the recurrence as the specification words it:
`table[i] = round(t * 100 / 256)`. -/
def spec_danger (i : Nat) : Int := round (spec_t i * 100 / 256)

/-- The accumulator of the recurrence of the code in exact arithmetic: the
minimum instead of the maximum, truncated to an integer in every round. -/
def trunc_t : Nat → Int
  | 0 => 0
  | i + 1 => ⌊min (1280 : ℚ) (min ((27 / 1000 : ℚ) * (i + 1 : ℕ) * (i + 1 : ℕ)) (trunc_t i + 8))⌋

/-- The recurrence of the code in integer arithmetic:
`t = min(1280, min(27*i*i / 1000, t + 8))` with the quotient rounded down. -/
def exact_t : Nat → Nat
  | 0 => 0
  | i + 1 => min 1280 (min (27 * (i + 1) * (i + 1) / 1000) (exact_t i + 8))

/-- The test `p i t t2` holds in each of the `n` rounds after round `i` of the
loop of `InitTables`, where `t` is the accumulator before round `i + 1` and `t2`
the accumulator after it. -/
def steps_ok (p : Nat → Nat → Nat → Bool) : Nat → Nat → Nat → Bool
  | 0, _, _ => true
  | n + 1, i, t =>
    p (i + 1) t (danger_step t (i + 1)) && steps_ok p n (i + 1) (danger_step t (i + 1))

/-! ## The default profile -/

/-- The arguments of one call `SetVal(slot, val, min, max, tune)` whose slot is
named by an enumerator. -/
structure SetValCall where
  slot : ParamName
  val : Int
  min : Int
  max : Int
  tune : Bool

/-- A sequence of `SetVal` calls, performed in order. -/
def SetVals (D : Decls) (s : cParam) (l : List SetValCall) : cParam :=
  l.foldl (fun s c => SetVal D s (D.idx c.slot) c.val c.min c.max c.tune) s

/-- The value the last call for the slot `p` in `l` assigns, `d` if there is no
such call. -/
def lastVal (l : List SetValCall) (p : ParamName) (d : Int) : Int :=
  l.foldl (fun acc c => if c.slot = p then c.val else acc) d

/-- The `SetVal` calls of `DefaultWeights` for the piece values (params.cpp:47-57),
in source order. -/
def DefaultWeights_piece_values : List SetValCall :=
  [
    ⟨.P_MID, 91, 50, 150, true⟩,
    ⟨.N_MID, 305, 200, 400, true⟩,
    ⟨.B_MID, 334, 200, 400, true⟩,
    ⟨.R_MID, 501, 400, 600, true⟩,
    ⟨.Q_MID, 1001, 800, 1200, true⟩,
    ⟨.P_END, 105, 50, 150, true⟩,
    ⟨.N_END, 301, 200, 400, true⟩,
    ⟨.B_END, 315, 200, 400, true⟩,
    ⟨.R_END, 543, 400, 600, true⟩,
    ⟨.Q_END, 1014, 800, 1200, true⟩
  ]

/-- The `SetVal` calls of `DefaultWeights` from the material adjustments to
`W_PST` (params.cpp:71-124), in source order. -/
def DefaultWeights_material : List SetValCall :=
  [
    ⟨.B_PAIR, 51, 0, 100, true⟩,
    ⟨.N_PAIR, 0, -50, 50, true⟩,
    ⟨.R_PAIR, -22, -50, 50, true⟩,
    ⟨.ELEPH, 10, -50, 50, true⟩,
    ⟨.A_EXC, 31, -50, 50, true⟩,
    ⟨.A_MIN, 58, 0, 100, true⟩,
    ⟨.A_MAJ, 55, 0, 100, true⟩,
    ⟨.A_TWO, 29, 0, 100, true⟩,
    ⟨.A_ALL, 65, 0, 100, true⟩,
    ⟨.N_CL, 6, -50, 50, true⟩,
    ⟨.R_OP, 0, -50, 50, true⟩,
    ⟨.N_ATT1, 6, 0, 50, false⟩,
    ⟨.N_ATT2, 4, 0, 50, false⟩,
    ⟨.B_ATT1, 7, 0, 50, false⟩,
    ⟨.B_ATT2, 2, 0, 50, false⟩,
    ⟨.R_ATT1, 10, 0, 50, false⟩,
    ⟨.R_ATT2, 4, 0, 50, false⟩,
    ⟨.Q_ATT1, 16, 0, 50, false⟩,
    ⟨.Q_ATT2, 5, 0, 50, false⟩,
    ⟨.N_CHK, 11, 0, 50, false⟩,
    ⟨.B_CHK, 18, 0, 50, false⟩,
    ⟨.R_CHK, 16, 0, 50, false⟩,
    ⟨.Q_CHK, 12, 0, 50, false⟩,
    ⟨.R_CONTACT, 29, 0, 50, false⟩,
    ⟨.Q_CONTACT, 36, 0, 50, false⟩,
    ⟨.NTR_MG, 13, -50, 50, true⟩,
    ⟨.NTR_EG, -11, -50, 50, true⟩,
    ⟨.BTR_MG, 2, -50, 50, true⟩,
    ⟨.BTR_EG, -9, -50, 50, true⟩,
    ⟨.RTR_MG, -1, -50, 50, true⟩,
    ⟨.RTR_EG, -7, -50, 50, true⟩,
    ⟨.QTR_MG, 7, -50, 50, true⟩,
    ⟨.QTR_EG, 14, -50, 50, true⟩,
    ⟨.W_MATERIAL, 98, 0, 200, true⟩,
    ⟨.W_PST, 73, 0, 200, true⟩
  ]

/-- The `SetVal` calls of `DefaultWeights` for the attack, mobility and positional
weights (params.cpp:131-149), in source order. -/
def DefaultWeights_weights : List SetValCall :=
  [
    ⟨.W_OWN_ATT, 100, 0, 500, false⟩,
    ⟨.W_OPP_ATT, 100, 0, 500, false⟩,
    ⟨.W_OWN_MOB, 103, 0, 500, false⟩,
    ⟨.W_OPP_MOB, 103, 0, 500, false⟩,
    ⟨.W_THREATS, 109, 0, 500, true⟩,
    ⟨.W_TROPISM, 25, 0, 500, true⟩,
    ⟨.W_FWD, 0, 0, 500, false⟩,
    ⟨.W_PASSERS, 102, 0, 500, true⟩,
    ⟨.W_MASS, 98, 0, 500, true⟩,
    ⟨.W_CHAINS, 100, 0, 500, true⟩,
    ⟨.W_OUTPOSTS, 73, 0, 500, true⟩,
    ⟨.W_LINES, 109, 0, 500, true⟩,
    ⟨.W_STRUCT, 113, 0, 500, true⟩,
    ⟨.W_SHIELD, 120, 0, 500, true⟩,
    ⟨.W_STORM, 95, 0, 500, true⟩,
    ⟨.W_CENTER, 48, 0, 500, true⟩
  ]

/-- The `SetVal` calls of `DefaultWeights` for pawn structure, chains, passed
pawns, shield and storm (params.cpp:153-217), in source order. -/
def DefaultWeights_pawns : List SetValCall :=
  [
    ⟨.DB_MID, -8, -50, 0, true⟩,
    ⟨.DB_END, -21, -50, 0, true⟩,
    ⟨.ISO_MG, -7, -50, 0, true⟩,
    ⟨.ISO_EG, -7, -50, 0, true⟩,
    ⟨.ISO_OF, -13, -50, 0, true⟩,
    ⟨.BK_MID, -2, -50, 0, true⟩,
    ⟨.BK_END, -1, -50, 0, true⟩,
    ⟨.BK_OPE, -10, -50, 0, true⟩,
    ⟨.P_BIND, 2, 0, 50, true⟩,
    ⟨.P_BADBIND, 13, 0, 50, true⟩,
    ⟨.P_ISL, 5, 0, 50, true⟩,
    ⟨.P_THR, 3, 0, 50, true⟩,
    ⟨.P_BIGCHAIN, 38, 0, 50, true⟩,
    ⟨.P_SMALLCHAIN, 27, 0, 50, true⟩,
    ⟨.P_CS1, 12, 0, 50, true⟩,
    ⟨.P_CS2, 3, 0, 50, true⟩,
    ⟨.P_CSFAIL, 32, 0, 50, true⟩,
    ⟨.PMG2, 2, 0, 300, true⟩,
    ⟨.PMG3, 2, 0, 300, true⟩,
    ⟨.PMG4, 11, 0, 300, true⟩,
    ⟨.PMG5, 33, 0, 300, true⟩,
    ⟨.PMG6, 71, 0, 300, true⟩,
    ⟨.PMG7, 135, 0, 300, true⟩,
    ⟨.PEG2, 12, 0, 300, true⟩,
    ⟨.PEG3, 21, 0, 300, true⟩,
    ⟨.PEG4, 48, 0, 300, true⟩,
    ⟨.PEG5, 93, 0, 300, true⟩,
    ⟨.PEG6, 161, 0, 300, true⟩,
    ⟨.PEG7, 266, 0, 300, true⟩,
    ⟨.P_BL_MUL, 42, 0, 50, true⟩,
    ⟨.P_OURSTOP_MUL, 27, 0, 50, true⟩,
    ⟨.P_OPPSTOP_MUL, 29, 0, 50, true⟩,
    ⟨.P_DEFMUL, 6, 0, 50, true⟩,
    ⟨.P_STOPMUL, 6, 0, 50, true⟩,
    ⟨.P_SH_NONE, -40, -50, 50, true⟩,
    ⟨.P_SH_2, 2, -50, 50, true⟩,
    ⟨.P_SH_3, -6, -50, 50, true⟩,
    ⟨.P_SH_4, -15, -50, 50, true⟩,
    ⟨.P_SH_5, -23, -50, 50, true⟩,
    ⟨.P_SH_6, -24, -50, 50, true⟩,
    ⟨.P_SH_7, -35, -50, 50, true⟩,
    ⟨.P_ST_OPEN, -6, -50, 50, true⟩,
    ⟨.P_ST_3, -16, -50, 50, true⟩,
    ⟨.P_ST_4, -16, -50, 50, true⟩,
    ⟨.P_ST_5, -3, -50, 50, true⟩
  ]

/-- The `SetVal` calls of `DefaultWeights` for the knight, bishop, rook, queen,
king and forwardness parameters (params.cpp:221-276), in source order. -/
def DefaultWeights_pieces : List SetValCall :=
  [
    ⟨.N_TRAP, -168, -300, 0, true⟩,
    ⟨.N_BLOCK, -17, -50, 0, true⟩,
    ⟨.N_OWH, -1, -50, 0, true⟩,
    ⟨.N_REACH, 11, 0, 50, true⟩,
    ⟨.BN_SHIELD, 5, 0, 50, true⟩,
    ⟨.B_FIANCH, 13, 0, 50, true⟩,
    ⟨.B_KING, 20, 0, 50, true⟩,
    ⟨.B_BADF, -27, -50, 0, true⟩,
    ⟨.B_TRAP_A2, -138, -300, 0, true⟩,
    ⟨.B_TRAP_A3, -45, -300, 0, true⟩,
    ⟨.B_BLOCK, -45, -100, 0, true⟩,
    ⟨.B_BF_MG, -12, -50, 0, true⟩,
    ⟨.B_BF_EG, -20, -50, 0, true⟩,
    ⟨.B_WING, 3, 0, 50, true⟩,
    ⟨.B_OVH, -7, -50, 0, true⟩,
    ⟨.B_REACH, 2, 0, 50, true⟩,
    ⟨.B_TOUCH, 5, 0, 50, true⟩,
    ⟨.B_OWN_P, -3, -50, 0, false⟩,
    ⟨.B_OPP_P, -1, -50, 0, false⟩,
    ⟨.B_RETURN, 7, 0, 50, true⟩,
    ⟨.RSR_MG, 16, 0, 50, true⟩,
    ⟨.RSR_EG, 32, 0, 50, true⟩,
    ⟨.RS2_MG, 20, 0, 50, true⟩,
    ⟨.RS2_EG, 31, 0, 50, true⟩,
    ⟨.ROF_MG, 30, 0, 50, true⟩,
    ⟨.ROF_EG, 2, 0, 50, true⟩,
    ⟨.RGH_MG, 15, 0, 50, true⟩,
    ⟨.RGH_EG, 20, 0, 50, true⟩,
    ⟨.RBH_MG, 0, 0, 50, true⟩,
    ⟨.RBH_EG, 0, 0, 50, true⟩,
    ⟨.ROQ_MG, 9, 0, 50, true⟩,
    ⟨.ROQ_EG, 18, 0, 50, true⟩,
    ⟨.R_BLOCK, -50, -100, 0, true⟩,
    ⟨.QSR_MG, 0, 0, 50, true⟩,
    ⟨.QSR_EG, 2, 0, 50, true⟩,
    ⟨.K_NO_LUFT, -11, -50, 0, true⟩,
    ⟨.K_CASTLE, 32, 0, 50, true⟩,
    ⟨.N_FWD, 1, 0, 50, false⟩,
    ⟨.B_FWD, 1, 0, 50, false⟩,
    ⟨.R_FWD, 2, 0, 50, false⟩,
    ⟨.Q_FWD, 4, 0, 50, false⟩
  ]

/-- The `SetVal` calls of `DefaultWeights` for knight and bishop mobility
(params.cpp:280-328), in source order. -/
def DefaultWeights_minor_mobility : List SetValCall :=
  [
    ⟨.NMG0, -32, -50, 50, true⟩,
    ⟨.NMG1, -14, -50, 50, true⟩,
    ⟨.NMG2, -7, -50, 50, true⟩,
    ⟨.NMG3, -7, -50, 50, true⟩,
    ⟨.NMG4, 2, -50, 50, true⟩,
    ⟨.NMG5, 7, -50, 50, true⟩,
    ⟨.NMG6, 13, -50, 50, true⟩,
    ⟨.NMG7, 13, -50, 50, true⟩,
    ⟨.NMG8, 25, -50, 50, true⟩,
    ⟨.NEG0, -41, -50, 50, true⟩,
    ⟨.NEG1, -20, -50, 50, true⟩,
    ⟨.NEG2, -7, -50, 50, true⟩,
    ⟨.NEG3, 0, -50, 50, true⟩,
    ⟨.NEG4, 3, -50, 50, true⟩,
    ⟨.NEG5, 12, -50, 50, true⟩,
    ⟨.NEG6, 9, -50, 50, true⟩,
    ⟨.NEG7, 11, -50, 50, true⟩,
    ⟨.NEG8, 2, -50, 50, true⟩,
    ⟨.BMG0, -41, -50, 50, true⟩,
    ⟨.BMG1, -24, -50, 50, true⟩,
    ⟨.BMG2, -16, -50, 50, true⟩,
    ⟨.BMG3, -9, -50, 50, true⟩,
    ⟨.BMG4, -7, -50, 50, true⟩,
    ⟨.BMG5, 0, -50, 50, true⟩,
    ⟨.BMG6, 4, -50, 50, true⟩,
    ⟨.BMG7, 6, -50, 50, true⟩,
    ⟨.BMG8, 8, -50, 50, true⟩,
    ⟨.BMG9, 10, -50, 50, true⟩,
    ⟨.BMG10, 16, -50, 50, true⟩,
    ⟨.BMG11, 24, -50, 50, true⟩,
    ⟨.BMG12, 17, -50, 50, true⟩,
    ⟨.BMG13, 22, -50, 50, true⟩,
    ⟨.BEG0, -43, -50, 50, true⟩,
    ⟨.BEG1, -40, -50, 50, true⟩,
    ⟨.BEG2, -19, -50, 50, true⟩,
    ⟨.BEG3, -6, -50, 50, true⟩,
    ⟨.BEG4, 1, -50, 50, true⟩,
    ⟨.BEG5, 3, -50, 50, true⟩,
    ⟨.BEG6, 5, -50, 50, true⟩,
    ⟨.BEG7, 8, -50, 50, true⟩,
    ⟨.BEG8, 15, -50, 50, true⟩,
    ⟨.BEG9, 11, -50, 50, true⟩,
    ⟨.BEG10, 10, -50, 50, true⟩,
    ⟨.BEG11, 13, -50, 50, true⟩,
    ⟨.BEG12, 22, -50, 50, true⟩,
    ⟨.BEG13, 19, -50, 50, true⟩
  ]

/-- The `SetVal` calls of `DefaultWeights` for rook mobility (params.cpp:330-360),
in source order. -/
def DefaultWeights_rook_mobility : List SetValCall :=
  [
    ⟨.RMG0, -14, -50, 50, true⟩,
    ⟨.RMG1, -16, -50, 50, true⟩,
    ⟨.RMG2, -14, -50, 50, true⟩,
    ⟨.RMG3, -9, -50, 50, true⟩,
    ⟨.RMG4, -9, -50, 50, true⟩,
    ⟨.RMG5, -10, -50, 50, true⟩,
    ⟨.RMG6, -5, -50, 50, true⟩,
    ⟨.RMG7, -2, -50, 50, true⟩,
    ⟨.RMG8, -3, -50, 50, true⟩,
    ⟨.RMG9, -2, -50, 50, true⟩,
    ⟨.RMG10, 5, -50, 50, true⟩,
    ⟨.RMG11, 7, -50, 50, true⟩,
    ⟨.RMG12, 9, -50, 50, true⟩,
    ⟨.RMG13, 23, -50, 50, true⟩,
    ⟨.RMG14, 24, -50, 50, true⟩,
    ⟨.REG0, -28, -50, 50, true⟩,
    ⟨.REG1, -50, -50, 50, true⟩,
    ⟨.REG2, -38, -50, 50, true⟩,
    ⟨.REG3, -14, -50, 50, true⟩,
    ⟨.REG4, -9, -50, 50, true⟩,
    ⟨.REG5, 1, -50, 50, true⟩,
    ⟨.REG6, 2, -50, 50, true⟩,
    ⟨.REG7, 8, -50, 50, true⟩,
    ⟨.REG8, 9, -50, 50, true⟩,
    ⟨.REG9, 15, -50, 50, true⟩,
    ⟨.REG10, 18, -50, 50, true⟩,
    ⟨.REG11, 22, -50, 50, true⟩,
    ⟨.REG12, 22, -50, 50, true⟩,
    ⟨.REG13, 24, -50, 50, true⟩,
    ⟨.REG14, 29, -50, 50, true⟩
  ]

/-- The assignments that open both profiles (params.cpp:28-43): weakening
switched off, opening book, timing. -/
def profile_head (s : cParam) : cParam :=
  { s with search_skill := 10, nps_limit := 0, fl_weakening := false, elo := 2800,
           eval_blur := 0, book_depth := 256,
           use_book := true, verbose_book := true, book_filter := 20,
           time_percentage := 100 }

/-- The assignments `keep_pc[P] = 0; ...; keep_pc[K + 1] = 0` (params.cpp:61-67). -/
def profile_keep_pc (s : cParam) : cParam :=
  { s with keep_pc := upd (upd (upd (upd (upd (upd (upd s.keep_pc
      P 0) N 0) B 0) R 0) Q 0) K 0) (K + 1) 0 }

/-- The assignments `pst_style = a; mob_style = b`. -/
def set_styles (s : cParam) (a b : Nat) : cParam :=
  { s with pst_style := a, mob_style := b }

/-- The assignments `draw_score = 0; shut_up = false` (params.cpp:366-367). -/
def profile_draw (s : cParam) : cParam :=
  { s with draw_score := 0, shut_up := false }

/-- The assignments `hist_perc = 175; hist_limit = 24576` (params.cpp:379-380). -/
def profile_hist (s : cParam) : cParam :=
  { s with hist_perc := 175, hist_limit := 24576 }

/-- The table builders both profiles call (params.cpp:371-375), in order. -/
def profile_builders (D : Decls) (s : cParam) : cParam :=
  InitPassers D (InitBackward D (InitMaterialTweaks D (InitMobility D (InitPst D s))))

/-- The store of `DefaultWeights` when it reaches the builders
(params.cpp:28-367). -/
def DefaultWeights_params (D : Decls) (s : cParam) : cParam :=
  let s := profile_head s
  let s := SetVals D s DefaultWeights_piece_values
  let s := profile_keep_pc s
  let s := SetVals D s DefaultWeights_material
  let s := set_styles s 0 1
  let s := SetVals D s DefaultWeights_weights
  let s := SetVals D s DefaultWeights_pawns
  let s := SetVals D s DefaultWeights_pieces
  let s := SetVals D s DefaultWeights_minor_mobility
  let s := SetVals D s DefaultWeights_rook_mobility
  let s := profile_draw s
  s

/-- Function `cParam::DefaultWeights` (params.cpp:24), without the member `riskydepth`
that exists only under `USE_RISKY_PARAMETER`. -/
def DefaultWeights (D : Decls) (s : cParam) : cParam :=
  profile_hist (profile_builders D (DefaultWeights_params D s))

/-! ## Frames of the builders -/

/-- The store `t` with the eight mobility tables of `s`. -/
def restore_mobility (t s : cParam) : cParam :=
  { t with n_mob_mg := s.n_mob_mg, n_mob_eg := s.n_mob_eg, b_mob_mg := s.b_mob_mg,
           b_mob_eg := s.b_mob_eg, r_mob_mg := s.r_mob_mg, r_mob_eg := s.r_mob_eg,
           q_mob_mg := s.q_mob_mg, q_mob_eg := s.q_mob_eg }

/-- The store `t` with the tables `np_table`, `rp_table`, `imbalance` of `s`. -/
def restore_material (t s : cParam) : cParam :=
  { t with np_table := s.np_table, rp_table := s.rp_table, imbalance := s.imbalance }

/-- The store `t` with the table `backward_malus_mg` of `s`. -/
def restore_backward (t s : cParam) : cParam :=
  { t with backward_malus_mg := s.backward_malus_mg }

/-- The store `t` with the tables `passed_bonus_mg`, `passed_bonus_eg` of `s`. -/
def restore_passers (t s : cParam) : cParam :=
  { t with passed_bonus_mg := s.passed_bonus_mg, passed_bonus_eg := s.passed_bonus_eg }

/-! ## Sample declarations and stores -/

/-- A sample of the missing declarations: the slots numbered in their order of
appearance, empty names, all templates and tables zero. -/
def sampleDecls : Decls where
  idx := fun p => p.toCtorIdx
  N_OF_VAL := 223
  paramNames := fun _ => ""
  pstPawnMg := fun _ _ => 0
  pstPawnEg := fun _ _ => 0
  pstKnightMg := fun _ _ => 0
  pstKnightEg := fun _ _ => 0
  pstBishopMg := fun _ _ => 0
  pstBishopEg := fun _ _ => 0
  pstRookMg := fun _ _ => 0
  pstRookEg := fun _ _ => 0
  pstQueenMg := fun _ _ => 0
  pstQueenEg := fun _ _ => 0
  pstKingMg := fun _ _ => 0
  pstKingEg := fun _ _ => 0
  pstKnightOutpost := fun _ => 0
  pstBishopOutpost := fun _ => 0
  pstDefendedPawnMg := fun _ => 0
  pstPhalanxPawnMg := fun _ => 0
  pstDefendedPawnEg := fun _ => 0
  pstPhalanxPawnEg := fun _ => 0
  DEF_MG := 6
  PHA_MG := 7
  DEF_EG := 8
  PHA_EG := 9
  adj := fun _ => 0
  imbalance_data := fun _ _ => 0

/-- A store with every member zero, false or empty. -/
def zeroParam : cParam where
  values := fun _ => 0
  min_val := fun _ => 0
  max_val := fun _ => 0
  tunable := fun _ => false
  search_skill := 0
  nps_limit := 0
  fl_weakening := false
  elo := 0
  eval_blur := 0
  book_depth := 0
  use_book := false
  verbose_book := false
  book_filter := 0
  time_percentage := 0
  keep_pc := fun _ => 0
  pst_style := 0
  mob_style := 0
  draw_score := 0
  shut_up := false
  hist_perc := 0
  hist_limit := 0
  mg_pst := fun _ _ _ => 0
  eg_pst := fun _ _ _ => 0
  sp_pst := fun _ _ _ => 0
  n_mob_mg := fun _ => 0
  n_mob_eg := fun _ => 0
  b_mob_mg := fun _ => 0
  b_mob_eg := fun _ => 0
  r_mob_mg := fun _ => 0
  r_mob_eg := fun _ => 0
  q_mob_mg := fun _ => 0
  q_mob_eg := fun _ => 0
  np_table := fun _ => 0
  rp_table := fun _ => 0
  imbalance := fun _ _ => 0
  backward_malus_mg := fun _ => 0
  passed_bonus_mg := fun _ _ => 0
  passed_bonus_eg := fun _ _ => 0
  danger := fun _ => 0
  out := []

/-- The zero store after the three calls `SetVal(N_MID, 305, 200, 400, true)`,
`SetVal(W_MATERIAL, 98, 0, 200, true)`, `SetVal(W_PST, 73, 0, 200, true)` of the
default profile (params.cpp:48, 123, 124). -/
def knightParam : cParam :=
  SetVal sampleDecls
    (SetVal sampleDecls
      (SetVal sampleDecls zeroParam (sampleDecls.idx .N_MID) 305 200 400 true)
      (sampleDecls.idx .W_MATERIAL) 98 0 200 true)
    (sampleDecls.idx .W_PST) 73 0 200 true

/-- The zero store after `SetVal(NMG0, -32, -50, 50, true)` (params.cpp:280)
and `mob_style = 1` (params.cpp:126). -/
def tunedParam : cParam :=
  { SetVal sampleDecls zeroParam (sampleDecls.idx .NMG0) (-32) (-50) 50 true with
    mob_style := 1 }

/-! ## Distance tables -/

/-- Modelled from the spec: the macro `Rank(sq)` of `rodent.h`, the rank index
`sq >> 3` of a square. -/
def Rank (sq : Nat) : Int := ((sq >>> 3 : Nat) : Int)

/-- Modelled from the spec: the macro `File(sq)` of `rodent.h`, the file index
`sq & 7` of a square. -/
def File (sq : Nat) : Int := ((sq &&& 7 : Nat) : Int)

/-- Modelled from the spec: the macro `Abs(x)` of `rodent.h`,
`((x) > 0 ? (x) : -(x))`. -/
def Abs (x : Int) : Int := if x > 0 then x else -x

/-- Modelled from the spec: the macro `Max(x, y)` of `rodent.h`,
`((x) > (y) ? (x) : (y))`. -/
def Max (x y : Int) : Int := if x > y then x else y

/-- The two tables of `cDistance`. -/
structure cDistance where
  bonus : Nat → Nat → Int
  metric : Nat → Nat → Int

/-- The body of the two loops of `cDistance::Init` (params.cpp:835-838) for the
squares `sq1` and `sq2`. -/
def cDistance.Init_body (d : cDistance) (sq1 sq2 : Nat) : cDistance :=
  let r_delta := Abs (Rank sq1 - Rank sq2)
  let f_delta := Abs (File sq1 - File sq2)
  let d := { d with bonus := upd2 d.bonus sq1 sq2 (14 - (r_delta + f_delta)) }
  let d := { d with metric := upd2 d.metric sq1 sq2 (Max r_delta f_delta) }
  d

/-- Function `cDistance::Init` (params.cpp:829): `for sq1 in 0..63, for sq2 in 0..63`. -/
def cDistance.Init (d : cDistance) : cDistance :=
  (List.range 64).foldl (fun d sq1 =>
    (List.range 64).foldl (fun d sq2 => cDistance.Init_body d sq1 sq2) d) d

/-- Distance tables with every entry zero. -/
def zeroDistance : cDistance where
  bonus := fun _ _ => 0
  metric := fun _ _ => 0

/-! ## Strength scaling -/

/-- Function `cParam::EloToBlur` (params.cpp:816). -/
def EloToBlur (elo_in : Int) : Int :=
  if elo_in < 1500 then (1500 - elo_in).tdiv 4 else 0

/-- Function `cParam::EloToBookDepth` (params.cpp:824). -/
def EloToBookDepth (elo_in : Int) : Int :=
  if elo_in < 2000 then (elo_in - 700).tdiv 100 else 256

/-- Function `cParam::EloToSpeed` (params.cpp:800).  The value `rand()` returns
is the argument `r`.  The library function `pow` is not code of the repository:
the double computation `(int)(pow(1.0069555500567, e) * 128)`, a function of the
`int` exponent `e`, is the argument `pow128`.  The operator `%` of C is
`Int.tmod`. -/
def EloToSpeed (pow128 : Int → Int) (r : Nat) (elo_in : Int) : Int :=
  let lower_elo := elo_in - 25
  let upper_elo := elo_in + 25
  let use_rating := (r : Int).tmod (upper_elo - lower_elo + 1) + lower_elo
  let search_nodes := pow128 ((use_rating.tdiv 1200 - 1) + (use_rating - 1200))
  search_nodes.tdiv 7

/-- Function `cParam::SetSpeed` (params.cpp:789); `pow128` and `r` are passed on
to `EloToSpeed`. -/
def SetSpeed (pow128 : Int → Int) (r : Nat) (s : cParam) (elo_in : Int) : cParam :=
  let s := { s with nps_limit := 0 }
  let s := { s with eval_blur := 0 }
  if s.fl_weakening then
    let s := { s with nps_limit := EloToSpeed pow128 r elo_in }
    let s := { s with eval_blur := EloToBlur elo_in }
    let s := { s with book_depth := EloToBookDepth elo_in }
    s
  else s

/-- The zero store with weakening enabled. -/
def weakParam : cParam := { zeroParam with fl_weakening := true }

/-- The store left by `SetSpeed(1000)` under weakening (random draw 0, `pow128`
constantly 0) with weakening then switched off, `fl_weakening = false`. -/
def staleParam : cParam :=
  { SetSpeed (fun _ => 0) 0 weakParam 1000 with fl_weakening := false }

/-! ## Closed forms and invariants used by the theorems -/

/-- The value `InitMaterialTweaks` leaves in the cell `(i, j)` of the imbalance
table: the template value, overwritten by each of the ten conditional stores
of params.cpp:765-774 whose test succeeds, in source order. -/
def imbalance_value (D : Decls) (s : cParam) (i j : Nat) : Int :=
  let d := D.imbalance_data i j
  let v := s.values
  let x := d
  let x := if d = (D.idx .A_EXC : Int) then v (D.idx .A_EXC) else x
  let x := if d = -(D.idx .A_EXC : Int) then -v (D.idx .A_EXC) else x
  let x := if d = (D.idx .A_MIN : Int) then v (D.idx .A_MIN) else x
  let x := if d = -(D.idx .A_MIN : Int) then -v (D.idx .A_MIN) else x
  let x := if d = (D.idx .A_MAJ : Int) then v (D.idx .A_MAJ) else x
  let x := if d = -(D.idx .A_MAJ : Int) then -v (D.idx .A_MAJ) else x
  let x := if d = (D.idx .A_TWO : Int) then v (D.idx .A_TWO) else x
  let x := if d = -(D.idx .A_TWO : Int) then -v (D.idx .A_TWO) else x
  let x := if d = (D.idx .A_ALL : Int) then v (D.idx .A_ALL) else x
  let x := if d = -(D.idx .A_ALL : Int) then -v (D.idx .A_ALL) else x
  x

/-- The five imbalance categories whose enumerators serve as sentinels in the
template `imbalance_data`. -/
def sentinels : List ParamName := [.A_EXC, .A_MIN, .A_MAJ, .A_TWO, .A_ALL]

/-- The invariant of the Parameter Store: every slot marked tunable holds a
value within its recorded bounds. -/
def boundsInv (D : Decls) (s : cParam) : Prop :=
  ∀ slot, slot < D.N_OF_VAL → s.tunable slot = true →
    s.min_val slot ≤ s.values slot ∧ s.values slot ≤ s.max_val slot

/-- The sample declarations with two sentinel cells in the imbalance template:
`A_EXC` at `(1, 0)` and `-A_EXC` at `(0, 1)`. -/
def sentinelDecls : Decls :=
  { sampleDecls with
    imbalance_data := fun i j =>
      if i = 1 ∧ j = 0 then (sampleDecls.idx .A_EXC : Int)
      else if i = 0 ∧ j = 1 then -(sampleDecls.idx .A_EXC : Int) else 0 }

/-- The store `t` with the piece-square tables `mg_pst`, `eg_pst`, `sp_pst` of `s`. -/
def restore_pst (t s : cParam) : cParam :=
  { t with mg_pst := s.mg_pst, eg_pst := s.eg_pst, sp_pst := s.sp_pst }

/-- The store `t` with the table `danger` of `s`. -/
def restore_danger (t s : cParam) : cParam :=
  { t with danger := s.danger }

/-- The stores `t` and `s` hold the same parameters: `values`, the bounds, the
tunable flags and the two style selectors. -/
def sameParams (t s : cParam) : Prop :=
  t.values = s.values ∧ t.min_val = s.min_val ∧ t.max_val = s.max_val ∧
  t.tunable = s.tunable ∧ t.pst_style = s.pst_style ∧ t.mob_style = s.mob_style

/-- The keys of the special tables `sp_pst` that `InitPst` writes
(params.cpp:711-716), in source order. -/
def spKeys (D : Decls) : List Nat := [N, B, D.DEF_MG, D.PHA_MG, D.DEF_EG, D.PHA_EG]

/-- The value `InitPst` leaves in `sp_pst` under the key `key` for the template
square `sq`: the template of the last of the six stores of params.cpp:711-716
whose key is `key`. -/
def spEntry (D : Decls) (key sq : Nat) : Int :=
  if key = D.PHA_EG then D.pstPhalanxPawnEg sq
  else if key = D.DEF_EG then D.pstDefendedPawnEg sq
  else if key = D.PHA_MG then D.pstPhalanxPawnMg sq
  else if key = D.DEF_MG then D.pstDefendedPawnMg sq
  else if key = B then D.pstBishopOutpost sq
  else D.pstKnightOutpost sq

/-- The stores `t` and `s` agree on what the builders read: `values` and the two
style selectors. -/
def sameInputs (t s : cParam) : Prop :=
  t.values = s.values ∧ t.pst_style = s.pst_style ∧ t.mob_style = s.mob_style

/-- The midgame passed-pawn bonus `InitPassers` stores for the side `sd` and the
rank index `r`: white reads the rank as it is, black mirrored. -/
def passed_mg_value (D : Decls) (s : cParam) (sd r : Nat) : Int :=
  match (if sd = 0 then r else 7 - r) with
  | 1 => s.values (D.idx .PMG2)
  | 2 => s.values (D.idx .PMG3)
  | 3 => s.values (D.idx .PMG4)
  | 4 => s.values (D.idx .PMG5)
  | 5 => s.values (D.idx .PMG6)
  | 6 => s.values (D.idx .PMG7)
  | _ => 0

/-- The endgame passed-pawn bonus `InitPassers` stores for the side `sd` and the
rank index `r`. -/
def passed_eg_value (D : Decls) (s : cParam) (sd r : Nat) : Int :=
  match (if sd = 0 then r else 7 - r) with
  | 1 => s.values (D.idx .PEG2)
  | 2 => s.values (D.idx .PEG3)
  | 3 => s.values (D.idx .PEG4)
  | 4 => s.values (D.idx .PEG5)
  | 5 => s.values (D.idx .PEG6)
  | 6 => s.values (D.idx .PEG7)
  | _ => 0

/-- The store `knightParam` with other contents in the derived tables: the same
`values` and style selectors, every table entry 7. -/
def scribbledParam : cParam :=
  { knightParam with
    mg_pst := fun _ _ _ => 7, eg_pst := fun _ _ _ => 7, sp_pst := fun _ _ _ => 7,
    n_mob_mg := fun _ => 7, n_mob_eg := fun _ => 7, b_mob_mg := fun _ => 7,
    b_mob_eg := fun _ => 7, r_mob_mg := fun _ => 7, r_mob_eg := fun _ => 7,
    q_mob_mg := fun _ => 7, q_mob_eg := fun _ => 7, np_table := fun _ => 7,
    rp_table := fun _ => 7, imbalance := fun _ _ => 7, backward_malus_mg := fun _ => 7,
    passed_bonus_mg := fun _ _ => 7, passed_bonus_eg := fun _ _ => 7 }

/-! ## Printing the tunable values -/

/-- The conversion `%4d` of `printf`: the decimal numeral of the `int`,
right-justified in a field of width 4. -/
def fmt4d (v : Int) : String :=
  String.mk (List.replicate (4 - (toString v).length) ' ') ++ toString v

/-- The entry `PrintValues` prints for the slot `i`:
`printf("%14s : %4d     ", paramNames[i], Par.values[i])`. -/
def valueEntry (D : Decls) (s : cParam) (i : Nat) : String :=
  fmt14s (D.paramNames i) ++ " : " ++ fmt4d (s.values i) ++ "     "

/-- The body of the loop of `cParam::PrintValues` (params.cpp:859-863) on the
pair of the counter `iter` and the store. -/
def PrintValues_body (D : Decls) (p : Int × cParam) (i : Nat) : Int × cParam :=
  if p.2.tunable i = true then
    let s := { p.2 with out := p.2.out ++ [valueEntry D p.2 i] }
    let iter := p.1 + 1
    if iter.tmod 4 = 0 then (iter, { s with out := s.out ++ ["\n"] }) else (iter, s)
  else p

/-- Function `cParam::PrintValues` (params.cpp:853). -/
def PrintValues (D : Decls) (s : cParam) : cParam :=
  let s := { s with out := s.out ++ ["\n\n"] }
  let p := (List.range D.N_OF_VAL).foldl (PrintValues_body D) (0, s)
  { p.2 with out := p.2.out ++ ["\n\n"] }

/-- The tunable slots below `n`, in increasing order. -/
def tunableSlots (s : cParam) (n : Nat) : List Nat :=
  (List.range n).filter (fun i => s.tunable i)

/-- What `PrintValues` prints for the tunable slot `i`: its entry, followed by a
line break when the number of tunable slots up to `i` is a multiple of 4. -/
def printedFor (D : Decls) (s : cParam) (i : Nat) : List String :=
  valueEntry D s i :: (if (tunableSlots s (i + 1)).length % 4 = 0 then ["\n"] else [])

/-- The store `t` with the standard output of `s`. -/
def restore_out (t s : cParam) : cParam :=
  { t with out := s.out }

/-- A store with three slots of which slots 0 and 2 are tunable. -/
def printParam : cParam :=
  SetVal sampleDecls (SetVal sampleDecls (SetVal sampleDecls zeroParam 0 91 50 150 true)
    1 6 0 50 false) 2 334 200 400 true

/-! ## The personality profile -/

/-- A sequence of assignments `values[slot] = val`, performed in order. -/
def assignVals (D : Decls) (s : cParam) (l : List (ParamName × Int)) : cParam :=
  l.foldl (fun s a => { s with values := upd s.values (D.idx a.1) a.2 }) s

/-- The assignments `values[..] = ..` of `InitialPersonalityWeights` for the piece
values (params.cpp:406-416), in source order. -/
def Personality_piece_values : List (ParamName × Int) :=
  [
    (.P_MID, 95),
    (.N_MID, 310),
    (.B_MID, 322),
    (.R_MID, 514),
    (.Q_MID, 1000),
    (.P_END, 110),
    (.N_END, 305),
    (.B_END, 320),
    (.R_END, 529),
    (.Q_END, 1013)
  ]

/-- The assignments of `InitialPersonalityWeights` from the material adjustments to
`W_PST` (params.cpp:430-483), in source order. -/
def Personality_material : List (ParamName × Int) :=
  [
    (.B_PAIR, 51),
    (.N_PAIR, -9),
    (.R_PAIR, -9),
    (.ELEPH, 4),
    (.A_EXC, 30),
    (.A_MIN, 53),
    (.A_MAJ, 60),
    (.A_TWO, 44),
    (.A_ALL, 80),
    (.N_CL, 6),
    (.R_OP, 3),
    (.N_ATT1, 6),
    (.N_ATT2, 3),
    (.B_ATT1, 6),
    (.B_ATT2, 2),
    (.R_ATT1, 9),
    (.R_ATT2, 4),
    (.Q_ATT1, 16),
    (.Q_ATT2, 5),
    (.N_CHK, 4),
    (.B_CHK, 6),
    (.R_CHK, 11),
    (.Q_CHK, 12),
    (.R_CONTACT, 24),
    (.Q_CONTACT, 36),
    (.NTR_MG, 3),
    (.NTR_EG, 3),
    (.BTR_MG, 2),
    (.BTR_EG, 1),
    (.RTR_MG, 2),
    (.RTR_EG, 1),
    (.QTR_MG, 2),
    (.QTR_EG, 4),
    (.W_MATERIAL, 100),
    (.W_PST, 75)
  ]

/-- The assignments of `InitialPersonalityWeights` for the attack, mobility and
positional weights (params.cpp:496-514), in source order. -/
def Personality_weights : List (ParamName × Int) :=
  [
    (.W_OWN_ATT, 100),
    (.W_OPP_ATT, 100),
    (.W_OWN_MOB, 100),
    (.W_OPP_MOB, 100),
    (.W_THREATS, 109),
    (.W_TROPISM, 20),
    (.W_FWD, 0),
    (.W_PASSERS, 100),
    (.W_MASS, 100),
    (.W_CHAINS, 100),
    (.W_OUTPOSTS, 78),
    (.W_LINES, 100),
    (.W_STRUCT, 100),
    (.W_SHIELD, 119),
    (.W_STORM, 99),
    (.W_CENTER, 50)
  ]

/-- The assignments of `InitialPersonalityWeights` for pawn structure, chains,
passed pawns, shield and storm (params.cpp:518-579), in source order. -/
def Personality_pawns : List (ParamName × Int) :=
  [
    (.DB_MID, -12),
    (.DB_END, -23),
    (.ISO_MG, -10),
    (.ISO_EG, -20),
    (.ISO_OF, -10),
    (.BK_MID, -8),
    (.BK_END, -8),
    (.BK_OPE, -10),
    (.P_BIND, 5),
    (.P_BADBIND, 10),
    (.P_ISL, 7),
    (.P_THR, 4),
    (.P_BIGCHAIN, 18),
    (.P_SMALLCHAIN, 13),
    (.P_CS1, 4),
    (.P_CS2, 12),
    (.P_CSFAIL, 10),
    (.PMG2, 11),
    (.PMG3, 12),
    (.PMG4, 24),
    (.PMG5, 45),
    (.PMG6, 78),
    (.PMG7, 130),
    (.PEG2, 22),
    (.PEG3, 23),
    (.PEG4, 57),
    (.PEG5, 96),
    (.PEG6, 161),
    (.PEG7, 260),
    (.P_BL_MUL, 24),
    (.P_OURSTOP_MUL, 14),
    (.P_OPPSTOP_MUL, 10),
    (.P_DEFMUL, 4),
    (.P_STOPMUL, 4),
    (.P_SH_NONE, -36),
    (.P_SH_2, 2),
    (.P_SH_3, -11),
    (.P_SH_4, -20),
    (.P_SH_5, -27),
    (.P_SH_6, -32),
    (.P_SH_7, -35),
    (.P_ST_OPEN, -16),
    (.P_ST_3, -32),
    (.P_ST_4, -16),
    (.P_ST_5, -8)
  ]

/-- The assignments of `InitialPersonalityWeights` for the knight, bishop, rook,
queen, king and forwardness parameters (params.cpp:583-638), in source order. -/
def Personality_pieces : List (ParamName × Int) :=
  [
    (.N_TRAP, -150),
    (.N_BLOCK, -20),
    (.N_OWH, -5),
    (.N_REACH, 4),
    (.BN_SHIELD, 5),
    (.B_FIANCH, 4),
    (.B_KING, 6),
    (.B_BADF, -20),
    (.B_TRAP_A2, -150),
    (.B_TRAP_A3, -50),
    (.B_BLOCK, -50),
    (.B_BF_MG, -10),
    (.B_BF_EG, -20),
    (.B_WING, 10),
    (.B_OVH, -5),
    (.B_REACH, 2),
    (.B_TOUCH, 4),
    (.B_OWN_P, -3),
    (.B_OPP_P, -1),
    (.B_RETURN, 10),
    (.RSR_MG, 16),
    (.RSR_EG, 32),
    (.RS2_MG, 8),
    (.RS2_EG, 16),
    (.ROF_MG, 14),
    (.ROF_EG, 14),
    (.RGH_MG, 7),
    (.RGH_EG, 7),
    (.RBH_MG, 5),
    (.RBH_EG, 5),
    (.ROQ_MG, 5),
    (.ROQ_EG, 5),
    (.R_BLOCK, -50),
    (.QSR_MG, 4),
    (.QSR_EG, 8),
    (.K_NO_LUFT, -15),
    (.K_CASTLE, 10),
    (.N_FWD, 1),
    (.B_FWD, 1),
    (.R_FWD, 2),
    (.Q_FWD, 4)
  ]

/-- The store of `InitialPersonalityWeights` when it reaches the builders
(params.cpp:387-638), without the member `riskydepth` that exists only under
`USE_RISKY_PARAMETER`. -/
def InitialPersonalityWeights_params (D : Decls) (s : cParam) : cParam :=
  let s := profile_head s
  let s := assignVals D s Personality_piece_values
  let s := profile_keep_pc s
  let s := assignVals D s Personality_material
  let s := set_styles s 0 0
  let s := profile_draw s
  let s := assignVals D s Personality_weights
  let s := assignVals D s Personality_pawns
  let s := assignVals D s Personality_pieces
  s

/-- Function `cParam::InitialPersonalityWeights` (params.cpp:383). -/
def InitialPersonalityWeights (D : Decls) (s : cParam) : cParam :=
  profile_hist (profile_builders D (InitialPersonalityWeights_params D s))

/-- All the `SetVal` calls of `DefaultWeights`, in source order. -/
def DefaultWeights_calls : List SetValCall :=
  DefaultWeights_piece_values ++ DefaultWeights_material ++ DefaultWeights_weights ++
  DefaultWeights_pawns ++ DefaultWeights_pieces ++ DefaultWeights_minor_mobility ++
  DefaultWeights_rook_mobility

/-- The slot `k` holds a value within its recorded bounds. -/
def okAt (s : cParam) (k : Nat) : Prop :=
  s.min_val k ≤ s.values k ∧ s.values k ≤ s.max_val k


/-- The stores `t` and `s` hold the same values, bounds and tunable flags and
have printed the same output. -/
def sameBounds (t s : cParam) : Prop :=
  t.values = s.values ∧ t.min_val = s.min_val ∧ t.max_val = s.max_val ∧
  t.tunable = s.tunable ∧ t.out = s.out

/-! ## Theorems -/

/-- C1: `SetVal(slot, v, lo, hi, tune)` leaves `values[slot] = v`,
`min_val[slot] = lo`, `max_val[slot] = hi`, `tunable[slot] = tune` whether or
not `v` lies in `[lo, hi]`, and it prints the error line exactly when `v < lo`
or `v > hi` (otherwise standard output is unchanged). -/
theorem SetVal_assigns_and_reports (D : Decls) (s : cParam) (slot : Nat)
    (v lo hi : Int) (tune : Bool) :
    (SetVal D s slot v lo hi tune).values slot = v ∧
    (SetVal D s slot v lo hi tune).min_val slot = lo ∧
    (SetVal D s slot v lo hi tune).max_val slot = hi ∧
    (SetVal D s slot v lo hi tune).tunable slot = tune ∧
    (SetVal D s slot v lo hi tune).out =
      (if v < lo ∨ v > hi then s.out ++ [errorLine D slot] else s.out) ∧
    ((SetVal D s slot v lo hi tune).out ≠ s.out ↔ (v < lo ∨ v > hi)) := by
  unfold SetVal
  by_cases h : v < lo ∨ v > hi
  · simp [h, upd]
  · simp [h, upd]

/-! ### Piece-square tables -/

theorem InitPst_body_values (D : Decls) (s : cParam) (sq sd : Nat) :
    (InitPst_body D s sq sd).values = s.values ∧
    (InitPst_body D s sq sd).pst_style = s.pst_style := by
  constructor <;> simp only [InitPst_body, set_mg_pst, set_eg_pst, set_sp_pst]

theorem InitPst_body_mg (D : Decls) (s : cParam) (sq sd sd2 pc k : Nat) :
    (InitPst_body D s sq sd).mg_pst sd2 pc k =
      if sd2 = sd ∧ k = REL_SQ sq sd ∧ pc ≤ 5 then mgEntry D s pc sq
      else s.mg_pst sd2 pc k := by
  simp only [InitPst_body, set_mg_pst, set_eg_pst, set_sp_pst, upd3, P, N, B, R, Q, K]
  by_cases h1 : sd2 = sd <;> by_cases h2 : k = REL_SQ sq sd <;> simp [h1, h2]
  rcases pc with _ | _ | _ | _ | _ | _ | pc <;> simp [mgEntry]

theorem InitPst_body_eg (D : Decls) (s : cParam) (sq sd sd2 pc k : Nat) :
    (InitPst_body D s sq sd).eg_pst sd2 pc k =
      if sd2 = sd ∧ k = REL_SQ sq sd ∧ pc ≤ 5 then egEntry D s pc sq
      else s.eg_pst sd2 pc k := by
  simp only [InitPst_body, set_mg_pst, set_eg_pst, set_sp_pst, upd3, P, N, B, R, Q, K]
  by_cases h1 : sd2 = sd <;> by_cases h2 : k = REL_SQ sq sd <;> simp [h1, h2]
  rcases pc with _ | _ | _ | _ | _ | _ | pc <;> simp [egEntry]

theorem mgEntry_congr (D : Decls) (s t : cParam) (hv : t.values = s.values)
    (hp : t.pst_style = s.pst_style) (pc sq : Nat) :
    mgEntry D t pc sq = mgEntry D s pc sq := by
  unfold mgEntry; rw [hv, hp]

theorem egEntry_congr (D : Decls) (s t : cParam) (hv : t.values = s.values)
    (hp : t.pst_style = s.pst_style) (pc sq : Nat) :
    egEntry D t pc sq = egEntry D s pc sq := by
  unfold egEntry; rw [hv, hp]

theorem REL_SQ_inj (a b sd : Nat) (h : REL_SQ a sd = REL_SQ b sd) : a = b := by
  unfold REL_SQ at h
  exact Nat.xor_left_injective h

theorem InitPst_upto_succ (D : Decls) (s : cParam) (n : Nat) :
    InitPst_upto D s (n + 1) =
      InitPst_body D (InitPst_body D (InitPst_upto D s n) n 0) n 1 := by
  simp [InitPst_upto, List.range_succ, List.foldl_append]

/-- Loop invariant of `InitPst`: after `n` rounds the parameters are untouched
and the entries of the squares `0 .. n-1` hold their final values. -/
theorem InitPst_upto_spec (D : Decls) (s : cParam) (n : Nat) :
    (InitPst_upto D s n).values = s.values ∧
    (InitPst_upto D s n).pst_style = s.pst_style ∧
    ∀ sd, sd < 2 → ∀ pc, pc ≤ 5 → ∀ sq, sq < n →
      (InitPst_upto D s n).mg_pst sd pc (REL_SQ sq sd) = mgEntry D s pc sq ∧
      (InitPst_upto D s n).eg_pst sd pc (REL_SQ sq sd) = egEntry D s pc sq := by
  induction n with
  | zero => exact ⟨rfl, rfl, fun _ _ _ _ sq h => absurd h (Nat.not_lt_zero sq)⟩
  | succ n ih =>
    obtain ⟨hv, hp, hT⟩ := ih
    rw [InitPst_upto_succ]
    have hv1 := (InitPst_body_values D (InitPst_upto D s n) n 0).1.trans hv
    have hp1 := (InitPst_body_values D (InitPst_upto D s n) n 0).2.trans hp
    refine ⟨(InitPst_body_values D _ n 1).1.trans hv1,
      (InitPst_body_values D _ n 1).2.trans hp1, ?_⟩
    intro sd hsd pc hpc sq hsq
    have e1 : ∀ q, mgEntry D (InitPst_body D (InitPst_upto D s n) n 0) pc q
        = mgEntry D s pc q := mgEntry_congr D s _ hv1 hp1 pc
    have e2 : ∀ q, mgEntry D (InitPst_upto D s n) pc q = mgEntry D s pc q :=
      mgEntry_congr D s _ hv hp pc
    have e3 : ∀ q, egEntry D (InitPst_body D (InitPst_upto D s n) n 0) pc q
        = egEntry D s pc q := egEntry_congr D s _ hv1 hp1 pc
    have e4 : ∀ q, egEntry D (InitPst_upto D s n) pc q = egEntry D s pc q :=
      egEntry_congr D s _ hv hp pc
    rw [InitPst_body_mg, InitPst_body_mg, InitPst_body_eg, InitPst_body_eg, e1, e2, e3, e4]
    by_cases hq : sq = n
    · subst hq
      have hs : sd = 0 ∨ sd = 1 := by omega
      rcases hs with h | h <;> subst h <;> simp [hpc]
    · have hlt : sq < n := by omega
      have hne : ∀ c, REL_SQ sq sd ≠ REL_SQ n c ∨ sd ≠ c := by
        intro c
        by_cases hc : sd = c
        · subst hc; exact Or.inl (fun h => hq (REL_SQ_inj _ _ _ h))
        · exact Or.inr hc
      have h0 := hne 0
      have h1 := hne 1
      have := hT sd hsd pc hpc sq hlt
      rcases h0 with h0 | h0 <;> rcases h1 with h1 | h1 <;> simp [h0, h1, this]

/-- Closed form of `InitPst`: the parameters are untouched and every entry of
the twelve tables holds the value computed from its template square. -/
theorem InitPst_spec (D : Decls) (s : cParam) (sd : Nat) (hsd : sd < 2) (pc : Nat)
    (hpc : pc ≤ 5) (sq : Nat) (hsq : sq < 64) :
    (InitPst D s).mg_pst sd pc (REL_SQ sq sd) = mgEntry D s pc sq ∧
    (InitPst D s).eg_pst sd pc (REL_SQ sq sd) = egEntry D s pc sq :=
  (InitPst_upto_spec D s 64).2.2 sd hsd pc hpc sq hsq

theorem xor56_lt (sq : Nat) (h : sq < 64) : sq ^^^ 56 < 64 :=
  Nat.xor_lt_two_pow (n := 6) h (by decide)

/-- C2: after `InitPst`, for every square `s` in 0..63 and every piece kind, the
white entry at `s` equals the black entry at `mirror(s) = s XOR 56`, in the
midgame and in the endgame table; `REL_SQ` is the identity for white and the
rank flip `s XOR 56` (again a square of the board) for black. -/
theorem InitPst_side_mirror (D : Decls) (s : cParam) (sq : Nat) (hsq : sq < 64)
    (pc : Nat) (hpc : pc ∈ [P, N, B, R, Q, K]) :
    REL_SQ sq WC = sq ∧ REL_SQ sq BC = sq ^^^ 56 ∧ sq ^^^ 56 < 64 ∧
    (InitPst D s).mg_pst WC pc sq = (InitPst D s).mg_pst BC pc (sq ^^^ 56) ∧
    (InitPst D s).eg_pst WC pc sq = (InitPst D s).eg_pst BC pc (sq ^^^ 56) := by
  have hpc5 : pc ≤ 5 := by
    simp only [P, N, B, R, Q, K, List.mem_cons, List.mem_singleton, List.not_mem_nil,
      or_false] at hpc
    omega
  have hw : REL_SQ sq WC = sq := by simp [REL_SQ, WC]
  have hb : REL_SQ sq BC = sq ^^^ 56 := by simp [REL_SQ, BC]
  have h0 := InitPst_spec D s WC (by decide) pc hpc5 sq hsq
  have h1 := InitPst_spec D s BC (by decide) pc hpc5 sq hsq
  rw [hw] at h0
  rw [hb] at h1
  exact ⟨hw, hb, xor56_lt sq hsq, h0.1.trans h1.1.symm, h0.2.trans h1.2.symm⟩

theorem InitPst_side_mirror_witness :
    REL_SQ 12 WC = 12 ∧ REL_SQ 12 BC = 12 ^^^ 56 ∧ 12 ^^^ 56 < 64 ∧
    (InitPst sampleDecls knightParam).mg_pst WC N 12
      = (InitPst sampleDecls knightParam).mg_pst BC N (12 ^^^ 56) ∧
    (InitPst sampleDecls knightParam).eg_pst WC N 12
      = (InitPst sampleDecls knightParam).eg_pst BC N (12 ^^^ 56) :=
  InitPst_side_mirror sampleDecls knightParam 12 (by decide) N (by decide)

theorem knightParam_values :
    knightParam.values (sampleDecls.idx .N_MID) = 305 ∧
    knightParam.values (sampleDecls.idx .W_MATERIAL) = 98 ∧
    knightParam.values (sampleDecls.idx .W_PST) = 73 ∧
    sampleDecls.pstKnightMg knightParam.pst_style 0 = 0 := by
  decide

/-- C3, counterexample: with the default knight value 305, material weight 98,
piece-square weight 73 and a template entry 0, `InitPst` stores 298 for the
white knight on square 0 (`305 * 98 / 100 = 298.9` truncated), while the formula
with rounding to the nearest integer gives 299. -/
theorem InitPst_round_counterexample :
    (InitPst sampleDecls knightParam).mg_pst WC N (REL_SQ 0 WC) = 298 ∧
    roundPst (knightParam.values (sampleDecls.idx .N_MID))
      (knightParam.values (sampleDecls.idx .W_MATERIAL))
      (sampleDecls.pstKnightMg knightParam.pst_style 0)
      (knightParam.values (sampleDecls.idx .W_PST)) = 299 ∧
    (InitPst sampleDecls knightParam).mg_pst WC N (REL_SQ 0 WC) ≠
      roundPst (knightParam.values (sampleDecls.idx .N_MID))
        (knightParam.values (sampleDecls.idx .W_MATERIAL))
        (sampleDecls.pstKnightMg knightParam.pst_style 0)
        (knightParam.values (sampleDecls.idx .W_PST)) := by
  have hcode : (InitPst sampleDecls knightParam).mg_pst WC N (REL_SQ 0 WC) = 298 := by
    rw [(InitPst_spec sampleDecls knightParam WC (by decide) N (by decide) 0 (by decide)).1]
    decide
  have hspec : roundPst (knightParam.values (sampleDecls.idx .N_MID))
      (knightParam.values (sampleDecls.idx .W_MATERIAL))
      (sampleDecls.pstKnightMg knightParam.pst_style 0)
      (knightParam.values (sampleDecls.idx .W_PST)) = 299 := by
    obtain ⟨h1, h2, h3, h4⟩ := knightParam_values
    rw [h1, h2, h3, h4]
    unfold roundPst
    rw [round_eq, round_eq]
    norm_num [Int.floor_eq_iff]
  refine ⟨hcode, hspec, ?_⟩
  rw [hcode, hspec]
  decide

/-- C3, amended: after `InitPst`, for every square `sq` in 0..63, both sides and
each non-king piece kind, the midgame entry at `REL_SQ(sq, sd)` is
`(baseMid * W_MATERIAL) / 100 + (templateMid[pst_style][sq] * W_PST) / 100` and the
endgame entry is the same expression with the endgame base value and template,
where `/` is C integer division, truncating towards zero (`truncPst`), for all
parameter values and template entries. -/
theorem InitPst_entries_trunc (D : Decls) (s : cParam) (sd : Nat) (hsd : sd < 2)
    (sq : Nat) (hsq : sq < 64) :
    (InitPst D s).mg_pst sd P (REL_SQ sq sd) = truncPst (s.values (D.idx .P_MID))
      (s.values (D.idx .W_MATERIAL)) (D.pstPawnMg s.pst_style sq) (s.values (D.idx .W_PST)) ∧
    (InitPst D s).eg_pst sd P (REL_SQ sq sd) = truncPst (s.values (D.idx .P_END))
      (s.values (D.idx .W_MATERIAL)) (D.pstPawnEg s.pst_style sq) (s.values (D.idx .W_PST)) ∧
    (InitPst D s).mg_pst sd N (REL_SQ sq sd) = truncPst (s.values (D.idx .N_MID))
      (s.values (D.idx .W_MATERIAL)) (D.pstKnightMg s.pst_style sq) (s.values (D.idx .W_PST)) ∧
    (InitPst D s).eg_pst sd N (REL_SQ sq sd) = truncPst (s.values (D.idx .N_END))
      (s.values (D.idx .W_MATERIAL)) (D.pstKnightEg s.pst_style sq) (s.values (D.idx .W_PST)) ∧
    (InitPst D s).mg_pst sd B (REL_SQ sq sd) = truncPst (s.values (D.idx .B_MID))
      (s.values (D.idx .W_MATERIAL)) (D.pstBishopMg s.pst_style sq) (s.values (D.idx .W_PST)) ∧
    (InitPst D s).eg_pst sd B (REL_SQ sq sd) = truncPst (s.values (D.idx .B_END))
      (s.values (D.idx .W_MATERIAL)) (D.pstBishopEg s.pst_style sq) (s.values (D.idx .W_PST)) ∧
    (InitPst D s).mg_pst sd R (REL_SQ sq sd) = truncPst (s.values (D.idx .R_MID))
      (s.values (D.idx .W_MATERIAL)) (D.pstRookMg s.pst_style sq) (s.values (D.idx .W_PST)) ∧
    (InitPst D s).eg_pst sd R (REL_SQ sq sd) = truncPst (s.values (D.idx .R_END))
      (s.values (D.idx .W_MATERIAL)) (D.pstRookEg s.pst_style sq) (s.values (D.idx .W_PST)) ∧
    (InitPst D s).mg_pst sd Q (REL_SQ sq sd) = truncPst (s.values (D.idx .Q_MID))
      (s.values (D.idx .W_MATERIAL)) (D.pstQueenMg s.pst_style sq) (s.values (D.idx .W_PST)) ∧
    (InitPst D s).eg_pst sd Q (REL_SQ sq sd) = truncPst (s.values (D.idx .Q_END))
      (s.values (D.idx .W_MATERIAL)) (D.pstQueenEg s.pst_style sq) (s.values (D.idx .W_PST)) := by
  have h := fun pc hpc => InitPst_spec D s sd hsd pc hpc sq hsq
  exact ⟨(h P (by decide)).1, (h P (by decide)).2, (h N (by decide)).1, (h N (by decide)).2,
    (h B (by decide)).1, (h B (by decide)).2, (h R (by decide)).1, (h R (by decide)).2,
    (h Q (by decide)).1, (h Q (by decide)).2⟩

theorem InitPst_entries_trunc_witness :
    (InitPst sampleDecls knightParam).mg_pst 1 N (REL_SQ 9 1) = truncPst 305 98 0 73 :=
  (InitPst_entries_trunc sampleDecls knightParam 1 (by decide) 9 (by decide)).2.2.1

/-! ### Mobility tables -/

theorem foldl_range_succ {σ : Type} (f : σ → Nat → σ) (s : σ) (n : Nat) :
    (List.range (n + 1)).foldl f s = f ((List.range n).foldl f s) n := by
  simp [List.range_succ, List.foldl_append]

/-- A property kept by every round of a counting loop holds after the loop. -/
theorem foldl_range_inv {σ : Type} (f : σ → Nat → σ) (p : σ → Prop)
    (hf : ∀ t i, p t → p (f t i)) (s : σ) (hs : p s) (n : Nat) :
    p ((List.range n).foldl f s) := by
  induction n with
  | zero => exact hs
  | succ n ih => rw [foldl_range_succ]; exact hf _ _ ih

/-- A loop whose round `i` stores `val i` at index `i` of an array fills the
indices below the bound and leaves the others. -/
theorem foldl_range_fill {σ α : Type} (f : σ → Nat → σ) (get : σ → Nat → α)
    (val : Nat → α) (p : σ → Prop) (hf : ∀ t i, p t → p (f t i))
    (hget : ∀ t i j, p t → get (f t i) j = if j = i then val i else get t j)
    (s : σ) (hs : p s) (n j : Nat) :
    get ((List.range n).foldl f s) j = if j < n then val j else get s j := by
  induction n with
  | zero => simp
  | succ n ih =>
    rw [foldl_range_succ, hget _ _ _ (foldl_range_inv f p hf s hs n), ih]
    by_cases h1 : j = n
    · subst h1; simp
    · by_cases h2 : j < n
      · have : j < n + 1 := by omega
        simp [h1, h2, this]
      · have : ¬ j < n + 1 := by omega
        simp [h1, h2, this]

theorem mob_n_loop (D : Decls) (s : cParam) (n : Nat) :
    ((List.range n).foldl (mob_n_body D) s).values = s.values ∧
    ((List.range n).foldl (mob_n_body D) s).mob_style = s.mob_style :=
  foldl_range_inv (mob_n_body D) (fun t => t.values = s.values ∧ t.mob_style = s.mob_style)
    (fun _ _ h => h) s ⟨rfl, rfl⟩ n

theorem mob_b_loop (D : Decls) (s : cParam) (n : Nat) :
    ((List.range n).foldl (mob_b_body D) s).values = s.values ∧
    ((List.range n).foldl (mob_b_body D) s).mob_style = s.mob_style ∧
    ((List.range n).foldl (mob_b_body D) s).n_mob_mg = s.n_mob_mg ∧
    ((List.range n).foldl (mob_b_body D) s).n_mob_eg = s.n_mob_eg :=
  foldl_range_inv (mob_b_body D) (fun t => t.values = s.values ∧ t.mob_style = s.mob_style ∧
    t.n_mob_mg = s.n_mob_mg ∧ t.n_mob_eg = s.n_mob_eg) (fun _ _ h => h) s ⟨rfl, rfl, rfl, rfl⟩ n

theorem mob_r_loop (D : Decls) (s : cParam) (n : Nat) :
    ((List.range n).foldl (mob_r_body D) s).values = s.values ∧
    ((List.range n).foldl (mob_r_body D) s).mob_style = s.mob_style ∧
    ((List.range n).foldl (mob_r_body D) s).n_mob_mg = s.n_mob_mg ∧
    ((List.range n).foldl (mob_r_body D) s).n_mob_eg = s.n_mob_eg ∧
    ((List.range n).foldl (mob_r_body D) s).b_mob_mg = s.b_mob_mg ∧
    ((List.range n).foldl (mob_r_body D) s).b_mob_eg = s.b_mob_eg :=
  foldl_range_inv (mob_r_body D) (fun t => t.values = s.values ∧ t.mob_style = s.mob_style ∧
    t.n_mob_mg = s.n_mob_mg ∧ t.n_mob_eg = s.n_mob_eg ∧ t.b_mob_mg = s.b_mob_mg ∧
    t.b_mob_eg = s.b_mob_eg) (fun _ _ h => h) s ⟨rfl, rfl, rfl, rfl, rfl, rfl⟩ n

theorem mob_q_loop (s : cParam) (n : Nat) :
    ((List.range n).foldl mob_q_body s).values = s.values ∧
    ((List.range n).foldl mob_q_body s).mob_style = s.mob_style ∧
    ((List.range n).foldl mob_q_body s).n_mob_mg = s.n_mob_mg ∧
    ((List.range n).foldl mob_q_body s).n_mob_eg = s.n_mob_eg ∧
    ((List.range n).foldl mob_q_body s).b_mob_mg = s.b_mob_mg ∧
    ((List.range n).foldl mob_q_body s).b_mob_eg = s.b_mob_eg ∧
    ((List.range n).foldl mob_q_body s).r_mob_mg = s.r_mob_mg ∧
    ((List.range n).foldl mob_q_body s).r_mob_eg = s.r_mob_eg :=
  foldl_range_inv mob_q_body (fun t => t.values = s.values ∧ t.mob_style = s.mob_style ∧
    t.n_mob_mg = s.n_mob_mg ∧ t.n_mob_eg = s.n_mob_eg ∧ t.b_mob_mg = s.b_mob_mg ∧
    t.b_mob_eg = s.b_mob_eg ∧ t.r_mob_mg = s.r_mob_mg ∧ t.r_mob_eg = s.r_mob_eg)
    (fun _ _ h => h) s ⟨rfl, rfl, rfl, rfl, rfl, rfl, rfl, rfl⟩ n

theorem InitMobility_n (D : Decls) (s : cParam) (i : Nat) (hi : i < 9) :
    (InitMobility D s).n_mob_mg i =
      (if s.mob_style = 0 then 4 * ((i : Int) - 4) else s.values (D.idx .NMG0 + i)) ∧
    (InitMobility D s).n_mob_eg i =
      (if s.mob_style = 0 then 4 * ((i : Int) - 4) else s.values (D.idx .NEG0 + i)) := by
  unfold InitMobility
  simp only [(mob_q_loop _ 28).2.2.1, (mob_q_loop _ 28).2.2.2.1, (mob_r_loop D _ 15).2.2.1,
    (mob_r_loop D _ 15).2.2.2.1, (mob_b_loop D _ 14).2.2.1, (mob_b_loop D _ 14).2.2.2]
  constructor
  · rw [foldl_range_fill (mob_n_body D) (fun t => t.n_mob_mg)
      (fun i => if s.mob_style = 0 then 4 * ((i : Int) - 4) else s.values (D.idx .NMG0 + i))
      (fun t => t.values = s.values ∧ t.mob_style = s.mob_style) (fun _ _ h => h)
      (fun t i j h => by simp only [mob_n_body, upd, h.1, h.2]) s ⟨rfl, rfl⟩ 9 i]
    simp [hi]
  · rw [foldl_range_fill (mob_n_body D) (fun t => t.n_mob_eg)
      (fun i => if s.mob_style = 0 then 4 * ((i : Int) - 4) else s.values (D.idx .NEG0 + i))
      (fun t => t.values = s.values ∧ t.mob_style = s.mob_style) (fun _ _ h => h)
      (fun t i j h => by simp only [mob_n_body, upd, h.1, h.2]) s ⟨rfl, rfl⟩ 9 i]
    simp [hi]

theorem InitMobility_b (D : Decls) (s : cParam) (i : Nat) (hi : i < 14) :
    (InitMobility D s).b_mob_mg i =
      (if s.mob_style = 0 then 5 * ((i : Int) - 6) else s.values (D.idx .BMG0 + i)) ∧
    (InitMobility D s).b_mob_eg i =
      (if s.mob_style = 0 then 5 * ((i : Int) - 6) else s.values (D.idx .BEG0 + i)) := by
  unfold InitMobility
  simp only [(mob_q_loop _ 28).2.2.2.2.1, (mob_q_loop _ 28).2.2.2.2.2.1,
    (mob_r_loop D _ 15).2.2.2.2.1, (mob_r_loop D _ 15).2.2.2.2.2]
  obtain ⟨hv, hm⟩ := mob_n_loop D s 9
  generalize (List.range 9).foldl (mob_n_body D) s = s1 at hv hm
  constructor
  · rw [foldl_range_fill (mob_b_body D) (fun t => t.b_mob_mg)
      (fun i => if s.mob_style = 0 then 5 * ((i : Int) - 6) else s.values (D.idx .BMG0 + i))
      (fun t => t.values = s.values ∧ t.mob_style = s.mob_style) (fun _ _ h => h)
      (fun t i j h => by simp only [mob_b_body, upd, h.1, h.2]) s1 ⟨hv, hm⟩ 14 i]
    simp [hi]
  · rw [foldl_range_fill (mob_b_body D) (fun t => t.b_mob_eg)
      (fun i => if s.mob_style = 0 then 5 * ((i : Int) - 6) else s.values (D.idx .BEG0 + i))
      (fun t => t.values = s.values ∧ t.mob_style = s.mob_style) (fun _ _ h => h)
      (fun t i j h => by simp only [mob_b_body, upd, h.1, h.2]) s1 ⟨hv, hm⟩ 14 i]
    simp [hi]

theorem InitMobility_r (D : Decls) (s : cParam) (i : Nat) (hi : i < 15) :
    (InitMobility D s).r_mob_mg i =
      (if s.mob_style = 0 then 2 * ((i : Int) - 7) else s.values (D.idx .RMG0 + i)) ∧
    (InitMobility D s).r_mob_eg i =
      (if s.mob_style = 0 then 4 * ((i : Int) - 7) else s.values (D.idx .REG0 + i)) := by
  unfold InitMobility
  simp only [(mob_q_loop _ 28).2.2.2.2.2.2.1, (mob_q_loop _ 28).2.2.2.2.2.2.2]
  obtain ⟨hv, hm⟩ := mob_n_loop D s 9
  generalize (List.range 9).foldl (mob_n_body D) s = s1 at hv hm
  have hv2 := (mob_b_loop D s1 14).1.trans hv
  have hm2 := (mob_b_loop D s1 14).2.1.trans hm
  generalize (List.range 14).foldl (mob_b_body D) s1 = s2 at hv2 hm2
  constructor
  · rw [foldl_range_fill (mob_r_body D) (fun t => t.r_mob_mg)
      (fun i => if s.mob_style = 0 then 2 * ((i : Int) - 7) else s.values (D.idx .RMG0 + i))
      (fun t => t.values = s.values ∧ t.mob_style = s.mob_style) (fun _ _ h => h)
      (fun t i j h => by simp only [mob_r_body, upd, h.1, h.2]) s2 ⟨hv2, hm2⟩ 15 i]
    simp [hi]
  · rw [foldl_range_fill (mob_r_body D) (fun t => t.r_mob_eg)
      (fun i => if s.mob_style = 0 then 4 * ((i : Int) - 7) else s.values (D.idx .REG0 + i))
      (fun t => t.values = s.values ∧ t.mob_style = s.mob_style) (fun _ _ h => h)
      (fun t i j h => by simp only [mob_r_body, upd, h.1, h.2]) s2 ⟨hv2, hm2⟩ 15 i]
    simp [hi]

theorem InitMobility_q (D : Decls) (s : cParam) (i : Nat) (hi : i < 28) :
    (InitMobility D s).q_mob_mg i = 1 * ((i : Int) - 14) ∧
    (InitMobility D s).q_mob_eg i = 2 * ((i : Int) - 14) := by
  simp only [InitMobility]
  generalize (List.range 15).foldl (mob_r_body D) _ = s3
  constructor
  · rw [foldl_range_fill mob_q_body (fun t => t.q_mob_mg)
      (fun i => 1 * ((i : Int) - 14)) (fun _ => True) (fun _ _ h => h)
      (fun t i j _ => by simp only [mob_q_body, upd, ite_self]) s3 trivial 28 i]
    simp [hi]
  · rw [foldl_range_fill mob_q_body (fun t => t.q_mob_eg)
      (fun i => 2 * ((i : Int) - 14)) (fun _ => True) (fun _ _ h => h)
      (fun t i j _ => by simp only [mob_q_body, upd, ite_self]) s3 trivial 28 i]
    simp [hi]

/-- C5: with `mob_style = 0`, after `InitMobility` the tables are exactly affine
whatever the parameter values are: `n_mob_mg[i] = n_mob_eg[i] = 4*(i-4)` for
`i` in 0..8, `b_mob_mg[i] = b_mob_eg[i] = 5*(i-6)` for `i` in 0..13,
`r_mob_mg[i] = 2*(i-7)` and `r_mob_eg[i] = 4*(i-7)` for `i` in 0..14,
`q_mob_mg[i] = i-14` and `q_mob_eg[i] = 2*(i-14)` for `i` in 0..27. -/
theorem InitMobility_style0_affine (D : Decls) (s : cParam) (h : s.mob_style = 0) :
    (∀ i : Nat, i < 9 → (InitMobility D s).n_mob_mg i = 4 * ((i : Int) - 4) ∧
      (InitMobility D s).n_mob_eg i = 4 * ((i : Int) - 4)) ∧
    (∀ i : Nat, i < 14 → (InitMobility D s).b_mob_mg i = 5 * ((i : Int) - 6) ∧
      (InitMobility D s).b_mob_eg i = 5 * ((i : Int) - 6)) ∧
    (∀ i : Nat, i < 15 → (InitMobility D s).r_mob_mg i = 2 * ((i : Int) - 7) ∧
      (InitMobility D s).r_mob_eg i = 4 * ((i : Int) - 7)) ∧
    (∀ i : Nat, i < 28 → (InitMobility D s).q_mob_mg i = (i : Int) - 14 ∧
      (InitMobility D s).q_mob_eg i = 2 * ((i : Int) - 14)) := by
  refine ⟨fun i hi => ?_, fun i hi => ?_, fun i hi => ?_, fun i hi => ?_⟩
  · have := InitMobility_n D s i hi
    simpa [h] using this
  · have := InitMobility_b D s i hi
    simpa [h] using this
  · have := InitMobility_r D s i hi
    simpa [h] using this
  · have := InitMobility_q D s i hi
    simpa [h] using this

theorem InitMobility_style0_affine_witness :
    (InitMobility sampleDecls zeroParam).n_mob_mg 0 = -16 ∧
    (InitMobility sampleDecls zeroParam).r_mob_mg 14 = 14 ∧
    (InitMobility sampleDecls zeroParam).q_mob_eg 27 = 26 :=
  ⟨((InitMobility_style0_affine sampleDecls zeroParam rfl).1 0 (by decide)).1,
   ((InitMobility_style0_affine sampleDecls zeroParam rfl).2.2.1 14 (by decide)).1,
   ((InitMobility_style0_affine sampleDecls zeroParam rfl).2.2.2 27 (by decide)).2⟩

/-- C6: with `mob_style = 1`, after `InitMobility` every knight, bishop and rook
entry is the tuned value of the Parameter Store for that piece kind and count
(`n_mob_mg[i] = values[NMG0+i]`, `n_mob_eg[i] = values[NEG0+i]` for `i` in 0..8;
`b_mob_mg[i] = values[BMG0+i]`, `b_mob_eg[i] = values[BEG0+i]` for `i` in 0..13;
`r_mob_mg[i] = values[RMG0+i]`, `r_mob_eg[i] = values[REG0+i]` for `i` in 0..14),
while the queen tables are as under style 0: `q_mob_mg[i] = i-14` and
`q_mob_eg[i] = 2*(i-14)` for `i` in 0..27. -/
theorem InitMobility_style1_tuned (D : Decls) (s : cParam) (h : s.mob_style = 1) :
    (∀ i : Nat, i < 9 → (InitMobility D s).n_mob_mg i = s.values (D.idx .NMG0 + i) ∧
      (InitMobility D s).n_mob_eg i = s.values (D.idx .NEG0 + i)) ∧
    (∀ i : Nat, i < 14 → (InitMobility D s).b_mob_mg i = s.values (D.idx .BMG0 + i) ∧
      (InitMobility D s).b_mob_eg i = s.values (D.idx .BEG0 + i)) ∧
    (∀ i : Nat, i < 15 → (InitMobility D s).r_mob_mg i = s.values (D.idx .RMG0 + i) ∧
      (InitMobility D s).r_mob_eg i = s.values (D.idx .REG0 + i)) ∧
    (∀ i : Nat, i < 28 → (InitMobility D s).q_mob_mg i = (i : Int) - 14 ∧
      (InitMobility D s).q_mob_eg i = 2 * ((i : Int) - 14)) := by
  refine ⟨fun i hi => ?_, fun i hi => ?_, fun i hi => ?_, fun i hi => ?_⟩
  · have := InitMobility_n D s i hi
    simpa [h] using this
  · have := InitMobility_b D s i hi
    simpa [h] using this
  · have := InitMobility_r D s i hi
    simpa [h] using this
  · have := InitMobility_q D s i hi
    simpa [h] using this

theorem InitMobility_style1_tuned_witness :
    (InitMobility sampleDecls tunedParam).n_mob_mg 0
      = tunedParam.values (sampleDecls.idx .NMG0 + 0) ∧
    (InitMobility sampleDecls tunedParam).q_mob_mg 3 = ((3 : Nat) : Int) - 14 :=
  ⟨((InitMobility_style1_tuned sampleDecls tunedParam rfl).1 0 (by decide)).1,
   ((InitMobility_style1_tuned sampleDecls tunedParam rfl).2.2.2 3 (by decide)).1⟩

/-! ### Passed pawns -/

theorem InitPassers_mg (D : Decls) (s : cParam) :
    (InitPassers D s).passed_bonus_mg = fun sd r =>
      if sd = 1 ∧ r = 0 then 0 else if sd = 0 ∧ r = 7 then 0
      else if sd = 1 ∧ r = 1 then s.values (D.idx .PMG7)
      else if sd = 0 ∧ r = 6 then s.values (D.idx .PMG7)
      else if sd = 1 ∧ r = 2 then s.values (D.idx .PMG6)
      else if sd = 0 ∧ r = 5 then s.values (D.idx .PMG6)
      else if sd = 1 ∧ r = 3 then s.values (D.idx .PMG5)
      else if sd = 0 ∧ r = 4 then s.values (D.idx .PMG5)
      else if sd = 1 ∧ r = 4 then s.values (D.idx .PMG4)
      else if sd = 0 ∧ r = 3 then s.values (D.idx .PMG4)
      else if sd = 1 ∧ r = 5 then s.values (D.idx .PMG3)
      else if sd = 0 ∧ r = 2 then s.values (D.idx .PMG3)
      else if sd = 1 ∧ r = 6 then s.values (D.idx .PMG2)
      else if sd = 0 ∧ r = 1 then s.values (D.idx .PMG2)
      else if sd = 1 ∧ r = 7 then 0 else if sd = 0 ∧ r = 0 then 0
      else s.passed_bonus_mg sd r := by
  simp only [InitPassers, set_passed_bonus_mg, set_passed_bonus_eg, WC, BC]
  rfl

theorem InitPassers_eg (D : Decls) (s : cParam) :
    (InitPassers D s).passed_bonus_eg = fun sd r =>
      if sd = 1 ∧ r = 0 then 0 else if sd = 0 ∧ r = 7 then 0
      else if sd = 1 ∧ r = 1 then s.values (D.idx .PEG7)
      else if sd = 0 ∧ r = 6 then s.values (D.idx .PEG7)
      else if sd = 1 ∧ r = 2 then s.values (D.idx .PEG6)
      else if sd = 0 ∧ r = 5 then s.values (D.idx .PEG6)
      else if sd = 1 ∧ r = 3 then s.values (D.idx .PEG5)
      else if sd = 0 ∧ r = 4 then s.values (D.idx .PEG5)
      else if sd = 1 ∧ r = 4 then s.values (D.idx .PEG4)
      else if sd = 0 ∧ r = 3 then s.values (D.idx .PEG4)
      else if sd = 1 ∧ r = 5 then s.values (D.idx .PEG3)
      else if sd = 0 ∧ r = 2 then s.values (D.idx .PEG3)
      else if sd = 1 ∧ r = 6 then s.values (D.idx .PEG2)
      else if sd = 0 ∧ r = 1 then s.values (D.idx .PEG2)
      else if sd = 1 ∧ r = 7 then 0 else if sd = 0 ∧ r = 0 then 0
      else s.passed_bonus_eg sd r := by
  simp only [InitPassers, set_passed_bonus_mg, set_passed_bonus_eg, WC, BC]
  rfl

/-- C7: after `InitPassers`, for the midgame and the endgame passed-pawn table and
for all parameter values, the white entries at rank index 0 and 7 are 0, the
white entries at rank indices 1..6 are `values[PMG2..PMG7]` (respectively
`values[PEG2..PEG7]`), and `black[r] = white[7-r]` for every rank index `r` in
0..7. -/
theorem InitPassers_table (D : Decls) (s : cParam) :
    ((InitPassers D s).passed_bonus_mg WC 0 = 0 ∧
     (InitPassers D s).passed_bonus_mg WC 1 = s.values (D.idx .PMG2) ∧
     (InitPassers D s).passed_bonus_mg WC 2 = s.values (D.idx .PMG3) ∧
     (InitPassers D s).passed_bonus_mg WC 3 = s.values (D.idx .PMG4) ∧
     (InitPassers D s).passed_bonus_mg WC 4 = s.values (D.idx .PMG5) ∧
     (InitPassers D s).passed_bonus_mg WC 5 = s.values (D.idx .PMG6) ∧
     (InitPassers D s).passed_bonus_mg WC 6 = s.values (D.idx .PMG7) ∧
     (InitPassers D s).passed_bonus_mg WC 7 = 0) ∧
    ((InitPassers D s).passed_bonus_eg WC 0 = 0 ∧
     (InitPassers D s).passed_bonus_eg WC 1 = s.values (D.idx .PEG2) ∧
     (InitPassers D s).passed_bonus_eg WC 2 = s.values (D.idx .PEG3) ∧
     (InitPassers D s).passed_bonus_eg WC 3 = s.values (D.idx .PEG4) ∧
     (InitPassers D s).passed_bonus_eg WC 4 = s.values (D.idx .PEG5) ∧
     (InitPassers D s).passed_bonus_eg WC 5 = s.values (D.idx .PEG6) ∧
     (InitPassers D s).passed_bonus_eg WC 6 = s.values (D.idx .PEG7) ∧
     (InitPassers D s).passed_bonus_eg WC 7 = 0) ∧
    (∀ r : Nat, r ≤ 7 →
      (InitPassers D s).passed_bonus_mg BC r = (InitPassers D s).passed_bonus_mg WC (7 - r) ∧
      (InitPassers D s).passed_bonus_eg BC r = (InitPassers D s).passed_bonus_eg WC (7 - r)) := by
  rw [InitPassers_mg, InitPassers_eg]
  refine ⟨by simp [WC], by simp [WC], ?_⟩
  intro r hr
  interval_cases r <;> simp [WC, BC]

theorem InitPassers_table_witness :
    (InitPassers sampleDecls tunedParam).passed_bonus_mg BC 2
      = (InitPassers sampleDecls tunedParam).passed_bonus_mg WC (7 - 2) ∧
    (InitPassers sampleDecls tunedParam).passed_bonus_eg BC 2
      = (InitPassers sampleDecls tunedParam).passed_bonus_eg WC (7 - 2) :=
  (InitPassers_table sampleDecls tunedParam).2.2 2 (by decide)

/-! ### King-danger table -/

theorem InitTables_upto_succ (s : cParam) (n : Nat) :
    InitTables_upto s (n + 1) = InitTables_body (InitTables_upto s n) (n + 1) := by
  simp [InitTables_upto, List.range'_1_concat, List.foldl_append, Nat.add_comm]

/-- Loop invariant of `InitTables`: after `n` rounds the accumulator is
`danger_t n`, the entries `1 .. n` are computed from the accumulator of their
round and the other entries are untouched. -/
theorem InitTables_upto_spec (s : cParam) (n : Nat) :
    (InitTables_upto s n).1 = danger_t n ∧
    ∀ j, (InitTables_upto s n).2.danger j =
      if 1 ≤ j ∧ j ≤ n then ((danger_t j : Int) * 100).tdiv 256 else s.danger j := by
  induction n with
  | zero =>
    refine ⟨rfl, fun j => ?_⟩
    have : ¬ (1 ≤ j ∧ j ≤ 0) := by omega
    rw [if_neg this]
    rfl
  | succ n ih =>
    obtain ⟨ht, hd⟩ := ih
    rw [InitTables_upto_succ]
    refine ⟨?_, fun j => ?_⟩
    · simp only [InitTables_body, ht, danger_t]
    · simp only [InitTables_body, upd, ht, hd]
      by_cases h1 : j = n + 1
      · subst h1; simp [danger_t]
      · by_cases h2 : 1 ≤ j ∧ j ≤ n
        · have : 1 ≤ j ∧ j ≤ n + 1 := ⟨h2.1, by omega⟩
          simp [h1, h2, this]
        · have : ¬ (1 ≤ j ∧ j ≤ n + 1) := by omega
          simp [h1, h2, this]

theorem InitTables_danger (s : cParam) (j : Nat) (h1 : 1 ≤ j) (h2 : j ≤ 510) :
    (InitTables s).danger j = ((danger_t j * 100 / 256 : Nat) : Int) := by
  have h := (InitTables_upto_spec s 510).2 j
  simp only [h1, h2, and_self, if_true] at h
  rw [InitTables, h, Int.ofNat_tdiv]
  rfl

/-- The double literal: `d0_027 / 2^58` is within half a unit in the last place
of `27/1000` and has a 53-bit significand. -/
theorem d0_027_nearest :
    2 ^ 52 ≤ d0_027 ∧ d0_027 < 2 ^ 53 ∧
    2 * (27 * 2 ^ 58 - 1000 * d0_027) < 1000 ∧ 1000 * d0_027 ≤ 27 * 2 ^ 58 := by
  decide

theorem steps_ok_sound (p : Nat → Nat → Nat → Bool) (n : Nat) :
    ∀ i, steps_ok p n i (danger_t i) = true →
      ∀ k, k < n → p (i + k + 1) (danger_t (i + k)) (danger_t (i + k + 1)) = true := by
  induction n with
  | zero => intro i _ k hk; exact absurd hk (Nat.not_lt_zero k)
  | succ n ih =>
    intro i h k hk
    simp only [steps_ok, Bool.and_eq_true] at h
    cases k with
    | zero => exact h.1
    | succ k =>
      have := ih (i + 1) h.2 k (by omega)
      have e1 : i + (k + 1) = i + 1 + k := by omega
      rw [e1]
      exact this

/-- One run of the 510 rounds: every entry is at least its predecessor and at
most 500, it is 500 from index 235 on, the accumulator grows by at most 8, and it
takes the value of the recurrence in exact arithmetic. -/
theorem danger_rounds (k : Nat) (hk : k < 510) :
    danger_t k * 100 / 256 ≤ danger_t (k + 1) * 100 / 256 ∧
    danger_t (k + 1) * 100 / 256 ≤ 500 ∧
    (235 ≤ k + 1 → danger_t (k + 1) * 100 / 256 = 500) ∧
    danger_t (k + 1) ≤ danger_t k + 8 ∧
    danger_t (k + 1) = min 1280 (min (27 * (k + 1) * (k + 1) / 1000) (danger_t k + 8)) := by
  have h := steps_ok_sound (fun i t t2 => decide (t * 100 / 256 ≤ t2 * 100 / 256 ∧
    t2 * 100 / 256 ≤ 500 ∧ (235 ≤ i → t2 * 100 / 256 = 500) ∧ t2 ≤ t + 8 ∧
    t2 = min 1280 (min (27 * i * i / 1000) (t + 8)))) 510 0 (by decide!) k hk
  simp only [decide_eq_true_eq, Nat.zero_add] at h
  exact h

theorem danger_t_exact (i : Nat) (hi : i ≤ 510) : danger_t i = exact_t i := by
  induction i with
  | zero => rfl
  | succ i ih =>
    rw [(danger_rounds i (by omega)).2.2.2.2, ih (by omega)]
    rfl

theorem trunc_t_eq_exact_t (i : Nat) : trunc_t i = (exact_t i : Int) := by
  induction i with
  | zero => rfl
  | succ i ih =>
    have hq : ((27 / 1000 : ℚ) * (i + 1 : ℕ) * (i + 1 : ℕ))
        = ((27 * (i + 1) * (i + 1) : ℕ) : ℚ) / ((1000 : ℕ) : ℚ) := by
      push_cast; ring
    have h8 : ((trunc_t i : ℚ) + 8) = (((exact_t i + 8 : ℕ) : ℤ) : ℚ) := by
      rw [ih]; push_cast; ring
    have h1280 : (1280 : ℚ) = (((1280 : ℕ) : ℤ) : ℚ) := by norm_num
    have fm : ∀ a b : ℚ, ⌊min a b⌋ = min ⌊a⌋ ⌊b⌋ := fun a b =>
      (Int.floor_mono : Monotone (Int.floor : ℚ → ℤ)).map_min
    rw [trunc_t, exact_t, fm, fm, hq, h8, h1280,
      Rat.floor_natCast_div_natCast, Int.floor_intCast, Int.floor_intCast]
    push_cast
    rfl

/-- C8: after `InitTables` the king-danger table is non-decreasing and bounded:
`danger[i] ≤ danger[i+1]` for every `i` in 1..509, `danger[510] ≤ 500`, and
`0 ≤ danger[i] ≤ 500` for every `i` in 1..510. -/
theorem InitTables_nondecreasing_bounded (s : cParam) :
    (∀ i, 1 ≤ i → i ≤ 509 → (InitTables s).danger i ≤ (InitTables s).danger (i + 1)) ∧
    (InitTables s).danger 510 ≤ 500 ∧
    (∀ i, 1 ≤ i → i ≤ 510 →
      0 ≤ (InitTables s).danger i ∧ (InitTables s).danger i ≤ 500) := by
  have hb : ∀ i, 1 ≤ i → i ≤ 510 →
      0 ≤ (InitTables s).danger i ∧ (InitTables s).danger i ≤ 500 := by
    intro i h1 h2
    rw [InitTables_danger s i h1 h2]
    obtain ⟨k, rfl⟩ : ∃ k, i = k + 1 := ⟨i - 1, by omega⟩
    have := (danger_rounds k (by omega)).2.1
    exact ⟨Int.ofNat_nonneg _, by exact_mod_cast this⟩
  refine ⟨?_, (hb 510 (by decide) (by decide)).2, hb⟩
  intro i h1 h2
  rw [InitTables_danger s i h1 (by omega), InitTables_danger s (i + 1) (by omega) (by omega)]
  exact_mod_cast (danger_rounds i (by omega)).1

theorem InitTables_nondecreasing_bounded_witness :
    (InitTables zeroParam).danger 100 ≤ (InitTables zeroParam).danger (100 + 1) ∧
    0 ≤ (InitTables zeroParam).danger 100 ∧ (InitTables zeroParam).danger 100 ≤ 500 :=
  ⟨(InitTables_nondecreasing_bounded zeroParam).1 100 (by decide) (by decide),
   (InitTables_nondecreasing_bounded zeroParam).2.2 100 (by decide) (by decide)⟩

/-- C9, counterexample: in round 1 the recurrence with the maximum gives
`t = min(1280, max(0.027, 8)) = 8` and the entry `round(800/256) = 3`, while
`InitTables` takes the minimum, `t = (int)0.027 = 0`, and stores 0. -/
theorem InitTables_max_counterexample :
    (InitTables zeroParam).danger 1 = 0 ∧ spec_danger 1 = 3 ∧
    (InitTables zeroParam).danger 1 ≠ spec_danger 1 := by
  have hcode : (InitTables zeroParam).danger 1 = 0 := by
    rw [InitTables_danger zeroParam 1 (by decide) (by decide)]
    decide!
  have hspec : spec_danger 1 = 3 := by
    simp only [spec_danger, spec_t]
    rw [round_eq]
    norm_num [Int.floor_eq_iff]
  refine ⟨hcode, hspec, ?_⟩
  rw [hcode, hspec]
  decide

/-- C9, amended: the table built by `InitTables` follows the recurrence with
the minimum and with truncation: with the `int` accumulator `t` starting at 0,
for every `i` from 1 to 510, `t` becomes
`floor(min(1280, min(0.027*i*i, t+8)))` (`0.027` read as `27/1000`; the double
arithmetic of the code gives the same integers) and
`danger[i] = (t * 100) / 256` with C integer division. -/
theorem InitTables_min_recurrence (s : cParam) (i : Nat) (h1 : 1 ≤ i) (h2 : i ≤ 510) :
    ((InitTables_upto s i).1 : Int) = trunc_t i ∧
    (InitTables s).danger i = (trunc_t i * 100).tdiv 256 := by
  have ht : ((InitTables_upto s i).1 : Int) = trunc_t i := by
    rw [(InitTables_upto_spec s i).1, trunc_t_eq_exact_t, danger_t_exact i h2]
  refine ⟨ht, ?_⟩
  rw [InitTables_danger s i h1 h2, trunc_t_eq_exact_t, ← danger_t_exact i h2, Int.ofNat_tdiv]
  rfl

theorem InitTables_min_recurrence_witness :
    ((InitTables_upto zeroParam 100).1 : Int) = trunc_t 100 ∧
    (InitTables zeroParam).danger 100 = (trunc_t 100 * 100).tdiv 256 :=
  InitTables_min_recurrence zeroParam 100 (by decide) (by decide)

theorem danger_t_last : danger_t 510 = 1280 := by
  obtain ⟨_, _, h5, _, he⟩ := danger_rounds 509 (by decide)
  have e : 509 + 1 = 510 := rfl
  rw [e] at h5 he
  have h500 := h5 (by decide)
  have hle : danger_t 510 ≤ 1280 := by
    rw [he]; exact Nat.min_le_left _ _
  omega

/-- C10: the king-danger curve built by `InitTables` saturates at 500
centipawns: there is an index `k < 510` (namely 235) with `danger[i] = 500` for
every `i` with `k ≤ i ≤ 510`, in particular `danger[510] = 1280*100/256 = 500`
with the accumulator at 1280, and the accumulator never grows by more than 8
from one round to the next. -/
theorem InitTables_saturates (s : cParam) :
    (∃ k, k < 510 ∧ ∀ i, k ≤ i → i ≤ 510 → (InitTables s).danger i = 500) ∧
    (InitTables_upto s 510).1 = 1280 ∧
    (InitTables s).danger 510 = ((1280 : Int) * 100).tdiv 256 ∧
    ((1280 : Int) * 100).tdiv 256 = 500 ∧
    (∀ n, n < 510 → (InitTables_upto s (n + 1)).1 ≤ (InitTables_upto s n).1 + 8) := by
  have hsat : ∀ i, 235 ≤ i → i ≤ 510 → (InitTables s).danger i = 500 := by
    intro i h1 h2
    rw [InitTables_danger s i (by omega) h2]
    obtain ⟨k, rfl⟩ : ∃ k, i = k + 1 := ⟨i - 1, by omega⟩
    exact_mod_cast (danger_rounds k (by omega)).2.2.1 h1
  refine ⟨⟨235, by decide, hsat⟩, ?_, ?_, by decide, ?_⟩
  · rw [(InitTables_upto_spec s 510).1, danger_t_last]
  · rw [hsat 510 (by decide) (by decide)]
    decide
  · intro n hn
    rw [(InitTables_upto_spec s (n + 1)).1, (InitTables_upto_spec s n).1]
    exact (danger_rounds n hn).2.2.2.1

theorem InitTables_saturates_witness :
    (InitTables_upto zeroParam (148 + 1)).1 ≤ (InitTables_upto zeroParam 148).1 + 8 :=
  (InitTables_saturates zeroParam).2.2.2.2 148 (by decide)

/-! ### Frames of the builders -/

/-- A loop whose rounds do not change the view `r` of the state does not
change it. -/
theorem foldl_range_frame {σ τ : Type} (f : σ → Nat → σ) (r : σ → τ)
    (h : ∀ t i, r (f t i) = r t) (s : σ) (n : Nat) :
    r ((List.range n).foldl f s) = r s :=
  foldl_range_inv f (fun t => r t = r s) (fun t i ht => (h t i).trans ht) s rfl n

theorem InitMobility_frame (D : Decls) (s b : cParam) :
    restore_mobility (InitMobility D s) b = restore_mobility s b := by
  simp only [InitMobility]
  rw [foldl_range_frame mob_q_body (fun t => restore_mobility t b) (fun _ _ => rfl),
    foldl_range_frame (mob_r_body D) (fun t => restore_mobility t b) (fun _ _ => rfl),
    foldl_range_frame (mob_b_body D) (fun t => restore_mobility t b) (fun _ _ => rfl),
    foldl_range_frame (mob_n_body D) (fun t => restore_mobility t b) (fun _ _ => rfl)]

theorem restore_material_ite (c : Prop) [Decidable c] (t b : cParam) (i j : Nat) (v : Int) :
    restore_material (if c then set_imbalance t i j v else t) b = restore_material t b := by
  split <;> rfl

theorem imbalance_cell_frame (D : Decls) (t b : cParam) (i j : Nat) :
    restore_material (imbalance_cell D t i j) b = restore_material t b := by
  simp only [imbalance_cell, restore_material_ite]
  rfl

theorem InitMaterialTweaks_frame (D : Decls) (s b : cParam) :
    restore_material (InitMaterialTweaks D s) b = restore_material s b := by
  simp only [InitMaterialTweaks]
  rw [foldl_range_frame _ (fun t => restore_material t b)
      (fun t i => foldl_range_frame _ (fun t => restore_material t b)
        (fun t j => imbalance_cell_frame D t b i j) t 9),
    foldl_range_frame (pawn_adj_body D) (fun t => restore_material t b) (fun _ _ => rfl)]

theorem InitBackward_frame (D : Decls) (s b : cParam) :
    restore_backward (InitBackward D s) b = restore_backward s b := by
  simp only [InitBackward, set_backward_malus_mg, restore_backward]

theorem InitPassers_frame (D : Decls) (s b : cParam) :
    restore_passers (InitPassers D s) b = restore_passers s b := by
  simp only [InitPassers, set_passed_bonus_mg, set_passed_bonus_eg, restore_passers]

theorem InitMobility_keeps (D : Decls) (s : cParam) :
    (InitMobility D s).values = s.values ∧ (InitMobility D s).pst_style = s.pst_style ∧
    (InitMobility D s).mg_pst = s.mg_pst := by
  have h := InitMobility_frame D s s
  generalize InitMobility D s = t at h ⊢
  have h1 := congrArg cParam.values h
  have h2 := congrArg cParam.pst_style h
  have h3 := congrArg cParam.mg_pst h
  exact ⟨h1, h2, h3⟩

theorem InitMaterialTweaks_keeps (D : Decls) (s : cParam) :
    (InitMaterialTweaks D s).values = s.values ∧
    (InitMaterialTweaks D s).pst_style = s.pst_style ∧
    (InitMaterialTweaks D s).mg_pst = s.mg_pst := by
  have h := InitMaterialTweaks_frame D s s
  generalize InitMaterialTweaks D s = t at h ⊢
  have h1 := congrArg cParam.values h
  have h2 := congrArg cParam.pst_style h
  have h3 := congrArg cParam.mg_pst h
  exact ⟨h1, h2, h3⟩

theorem InitBackward_keeps (D : Decls) (s : cParam) :
    (InitBackward D s).values = s.values ∧ (InitBackward D s).pst_style = s.pst_style ∧
    (InitBackward D s).mg_pst = s.mg_pst := by
  have h := InitBackward_frame D s s
  generalize InitBackward D s = t at h ⊢
  have h1 := congrArg cParam.values h
  have h2 := congrArg cParam.pst_style h
  have h3 := congrArg cParam.mg_pst h
  exact ⟨h1, h2, h3⟩

theorem InitPassers_keeps (D : Decls) (s : cParam) :
    (InitPassers D s).values = s.values ∧ (InitPassers D s).pst_style = s.pst_style ∧
    (InitPassers D s).mg_pst = s.mg_pst := by
  have h := InitPassers_frame D s s
  generalize InitPassers D s = t at h ⊢
  have h1 := congrArg cParam.values h
  have h2 := congrArg cParam.pst_style h
  have h3 := congrArg cParam.mg_pst h
  exact ⟨h1, h2, h3⟩

/-- The builders after `InitPst` leave the parameters and the midgame
piece-square table as `InitPst` left them. -/
theorem profile_builders_pst (D : Decls) (s : cParam) :
    (profile_builders D s).values = s.values ∧
    (profile_builders D s).pst_style = s.pst_style ∧
    (profile_builders D s).mg_pst = (InitPst D s).mg_pst := by
  unfold profile_builders
  obtain ⟨a1, a2, a3⟩ := InitPassers_keeps D (InitBackward D (InitMaterialTweaks D
    (InitMobility D (InitPst D s))))
  obtain ⟨b1, b2, b3⟩ := InitBackward_keeps D (InitMaterialTweaks D (InitMobility D
    (InitPst D s)))
  obtain ⟨c1, c2, c3⟩ := InitMaterialTweaks_keeps D (InitMobility D (InitPst D s))
  obtain ⟨d1, d2, d3⟩ := InitMobility_keeps D (InitPst D s)
  have hv : (InitPst D s).values = s.values := (InitPst_upto_spec D s 64).1
  have hp : (InitPst D s).pst_style = s.pst_style := (InitPst_upto_spec D s 64).2.1
  rw [a1, a2, a3, b1, b2, b3, c1, c2, c3, d1, d2, d3, hv, hp]
  exact ⟨rfl, rfl, rfl⟩

/-! ### The default profile -/

theorem SetVal_values (D : Decls) (s : cParam) (slot : Nat) (v lo hi : Int) (tune : Bool) :
    (SetVal D s slot v lo hi tune).values = upd s.values slot v := by
  unfold SetVal; split <;> rfl

theorem SetVal_styles (D : Decls) (s : cParam) (slot : Nat) (v lo hi : Int) (tune : Bool) :
    (SetVal D s slot v lo hi tune).pst_style = s.pst_style ∧
    (SetVal D s slot v lo hi tune).mob_style = s.mob_style := by
  unfold SetVal; split <;> exact ⟨rfl, rfl⟩

theorem SetVals_styles (D : Decls) (l : List SetValCall) :
    ∀ s, (SetVals D s l).pst_style = s.pst_style ∧ (SetVals D s l).mob_style = s.mob_style := by
  induction l with
  | nil => intro s; exact ⟨rfl, rfl⟩
  | cons c l ih =>
    intro s
    have h := ih (SetVal D s (D.idx c.slot) c.val c.min c.max c.tune)
    have h2 := SetVal_styles D s (D.idx c.slot) c.val c.min c.max c.tune
    exact ⟨h.1.trans h2.1, h.2.trans h2.2⟩

/-- After a sequence of `SetVal` calls a slot holds the value of the last call
that names it, provided distinct enumerators have distinct values. -/
theorem SetVals_values (D : Decls) (hinj : Function.Injective D.idx) (l : List SetValCall)
    (p : ParamName) :
    ∀ s, (SetVals D s l).values (D.idx p) = lastVal l p (s.values (D.idx p)) := by
  induction l with
  | nil => intro s; rfl
  | cons c l ih =>
    intro s
    have h := ih (SetVal D s (D.idx c.slot) c.val c.min c.max c.tune)
    rw [SetVal_values] at h
    have e : upd s.values (D.idx c.slot) c.val (D.idx p)
        = if c.slot = p then c.val else s.values (D.idx p) := by
      unfold upd
      by_cases hc : c.slot = p
      · rw [if_pos hc, if_pos (congrArg D.idx hc).symm]
      · rw [if_neg hc, if_neg (fun h => hc (hinj h).symm)]
    rw [e] at h
    exact h

theorem DefaultWeights_params_values (D : Decls) (hinj : Function.Injective D.idx)
    (s : cParam) (p : ParamName) :
    (DefaultWeights_params D s).values (D.idx p) =
      lastVal DefaultWeights_rook_mobility p (lastVal DefaultWeights_minor_mobility p
        (lastVal DefaultWeights_pieces p (lastVal DefaultWeights_pawns p
          (lastVal DefaultWeights_weights p (lastVal DefaultWeights_material p
            (lastVal DefaultWeights_piece_values p (s.values (D.idx p)))))))) := by
  have e0 : ∀ t, (profile_draw t).values = t.values := fun _ => rfl
  have e1 : ∀ t a b, (set_styles t a b).values = t.values := fun _ _ _ => rfl
  have e2 : ∀ t, (profile_keep_pc t).values = t.values := fun _ => rfl
  have e3 : ∀ t, (profile_head t).values = t.values := fun _ => rfl
  simp only [DefaultWeights_params, SetVals_values D hinj, e0, e1, e2, e3]

theorem DefaultWeights_params_pst_style (D : Decls) (s : cParam) :
    (DefaultWeights_params D s).pst_style = 0 := by
  have e0 : ∀ t, (profile_draw t).pst_style = t.pst_style := fun _ => rfl
  have e1 : ∀ t a b, (set_styles t a b).pst_style = a := fun _ _ _ => rfl
  simp only [DefaultWeights_params, (SetVals_styles D _ _).1, e0, e1]

set_option maxRecDepth 20000 in
/-- The values the calls of `DefaultWeights` leave in the three slots of the
pawn scenario, whatever they held before. -/
theorem DefaultWeights_lastVals (d : Int) :
    lastVal DefaultWeights_rook_mobility .P_MID (lastVal DefaultWeights_minor_mobility .P_MID
      (lastVal DefaultWeights_pieces .P_MID (lastVal DefaultWeights_pawns .P_MID
        (lastVal DefaultWeights_weights .P_MID (lastVal DefaultWeights_material .P_MID
          (lastVal DefaultWeights_piece_values .P_MID d)))))) = 91 ∧
    lastVal DefaultWeights_rook_mobility .W_MATERIAL
      (lastVal DefaultWeights_minor_mobility .W_MATERIAL
      (lastVal DefaultWeights_pieces .W_MATERIAL (lastVal DefaultWeights_pawns .W_MATERIAL
        (lastVal DefaultWeights_weights .W_MATERIAL (lastVal DefaultWeights_material .W_MATERIAL
          (lastVal DefaultWeights_piece_values .W_MATERIAL d)))))) = 98 ∧
    lastVal DefaultWeights_rook_mobility .W_PST (lastVal DefaultWeights_minor_mobility .W_PST
      (lastVal DefaultWeights_pieces .W_PST (lastVal DefaultWeights_pawns .W_PST
        (lastVal DefaultWeights_weights .W_PST (lastVal DefaultWeights_material .W_PST
          (lastVal DefaultWeights_piece_values .W_PST d)))))) = 73 :=
  ⟨rfl, rfl, rfl⟩

theorem sampleDecls_idx_injective : Function.Injective sampleDecls.idx := by
  intro x y h
  have h2 := congrArg ParamName.ofNat h
  simp only [sampleDecls] at h2
  rwa [ParamName.ofNat_toCtorIdx, ParamName.ofNat_toCtorIdx] at h2

/-- C4: after `DefaultWeights`, `values[P_MID] = 91`, `values[W_MATERIAL] = 98`,
`values[W_PST] = 73` and `pst_style = 0`, and for every square whose style-0
pawn midgame template entry is 0 the white pawn midgame piece-square value at
that square is exactly 89 (distinct enumerators of the slot `enum` having
distinct values). -/
theorem DefaultWeights_pawn_scenario (D : Decls) (hinj : Function.Injective D.idx)
    (s : cParam) :
    (DefaultWeights D s).values (D.idx .P_MID) = 91 ∧
    (DefaultWeights D s).values (D.idx .W_MATERIAL) = 98 ∧
    (DefaultWeights D s).values (D.idx .W_PST) = 73 ∧
    (DefaultWeights D s).pst_style = 0 ∧
    ∀ sq, sq < 64 → D.pstPawnMg 0 sq = 0 → (DefaultWeights D s).mg_pst WC P sq = 89 := by
  obtain ⟨hv, hp, hm⟩ := profile_builders_pst D (DefaultWeights_params D s)
  have v1 : (DefaultWeights_params D s).values (D.idx .P_MID) = 91 := by
    rw [DefaultWeights_params_values D hinj]; exact (DefaultWeights_lastVals _).1
  have v2 : (DefaultWeights_params D s).values (D.idx .W_MATERIAL) = 98 := by
    rw [DefaultWeights_params_values D hinj]; exact (DefaultWeights_lastVals _).2.1
  have v3 : (DefaultWeights_params D s).values (D.idx .W_PST) = 73 := by
    rw [DefaultWeights_params_values D hinj]; exact (DefaultWeights_lastVals _).2.2
  have v4 := DefaultWeights_params_pst_style D s
  have f1 : (DefaultWeights D s).values = (DefaultWeights_params D s).values := hv
  have f2 : (DefaultWeights D s).pst_style = (DefaultWeights_params D s).pst_style := hp
  have f3 : (DefaultWeights D s).mg_pst = (InitPst D (DefaultWeights_params D s)).mg_pst := hm
  refine ⟨by rw [f1, v1], by rw [f1, v2], by rw [f1, v3], by rw [f2, v4], ?_⟩
  intro sq hsq htempl
  have h := (InitPst_spec D (DefaultWeights_params D s) WC (by decide) P (by decide) sq hsq).1
  have hw : REL_SQ sq WC = sq := by simp [REL_SQ, WC]
  rw [hw] at h
  rw [f3, h]
  simp only [mgEntry, P, v1, v2, v3, v4, htempl]
  decide

theorem DefaultWeights_pawn_scenario_witness :
    (DefaultWeights sampleDecls zeroParam).values (sampleDecls.idx .P_MID) = 91 ∧
    (DefaultWeights sampleDecls zeroParam).pst_style = 0 ∧
    (DefaultWeights sampleDecls zeroParam).mg_pst WC P 8 = 89 :=
  ⟨(DefaultWeights_pawn_scenario sampleDecls sampleDecls_idx_injective zeroParam).1,
   (DefaultWeights_pawn_scenario sampleDecls sampleDecls_idx_injective zeroParam).2.2.2.1,
   (DefaultWeights_pawn_scenario sampleDecls sampleDecls_idx_injective zeroParam).2.2.2.2 8
     (by decide) rfl⟩

/-! ### Distance tables -/

/-- Two nested counting loops whose round `(i, j)` stores `val i j` at index
`(i, j)` of a two-dimensional array fill the indices below the bounds and
leave the others. -/
theorem foldl_range_fill2 {σ α : Type} (f : σ → Nat → Nat → σ) (get : σ → Nat → Nat → α)
    (val : Nat → Nat → α) (p : σ → Prop) (hf : ∀ t i j, p t → p (f t i j))
    (hget : ∀ t i j a b, p t →
      get (f t i j) a b = if a = i ∧ b = j then val i j else get t a b)
    (s : σ) (hs : p s) (n m a b : Nat) :
    get ((List.range n).foldl (fun t i => (List.range m).foldl (fun t j => f t i j) t) s) a b
      = if a < n ∧ b < m then val a b else get s a b := by
  have hin : ∀ t i, p t → p ((List.range m).foldl (fun t j => f t i j) t) :=
    fun t i ht => foldl_range_inv (fun t j => f t i j) p (fun u j hu => hf u i j hu) t ht m
  have hrow : ∀ t i, p t → ∀ k,
      get ((List.range k).foldl (fun t j => f t i j) t) a b
        = if a = i ∧ b < k then val i b else get t a b := by
    intro t i ht k
    induction k with
    | zero => simp
    | succ k ih =>
      rw [foldl_range_succ,
        hget _ _ _ _ _ (foldl_range_inv (fun t j => f t i j) p (fun u j hu => hf u i j hu) t ht k),
        ih]
      by_cases h1 : a = i
      · by_cases h2 : b = k
        · subst h1; subst h2; simp
        · by_cases h3 : b < k
          · have : b < k + 1 := by omega
            simp [h1, h2, h3, this]
          · have : ¬ b < k + 1 := by omega
            simp [h1, h2, h3, this]
      · simp [h1]
  induction n with
  | zero => simp
  | succ n ih =>
    rw [foldl_range_succ,
      hrow _ n (foldl_range_inv _ p (fun u i hu => hin u i hu) s hs n) m, ih]
    by_cases h1 : a = n
    · by_cases h2 : b < m
      · subst h1; simp [h2]
      · simp [h1, h2]
    · by_cases h3 : a < n
      · have : a < n + 1 := by omega
        simp [h1, h3, this]
      · have : ¬ a < n + 1 := by omega
        simp [h1, h3, this]

theorem Abs_eq_abs (x : Int) : Abs x = |x| := by
  unfold Abs
  split
  · rw [abs_of_pos (by assumption)]
  · rw [abs_of_nonpos (by omega)]

theorem Max_eq_max (x y : Int) : Max x y = max x y := by
  unfold Max
  split
  · rw [max_eq_left (by omega)]
  · rw [max_eq_right (by omega)]

theorem cDistance_Init_entries (d : cDistance) (a b : Nat) :
    (cDistance.Init d).bonus a b =
      (if a < 64 ∧ b < 64 then 14 - (|Rank a - Rank b| + |File a - File b|)
       else d.bonus a b) ∧
    (cDistance.Init d).metric a b =
      (if a < 64 ∧ b < 64 then max |Rank a - Rank b| |File a - File b|
       else d.metric a b) := by
  constructor
  · exact foldl_range_fill2 cDistance.Init_body (fun t => t.bonus)
      (fun i j => 14 - (|Rank i - Rank j| + |File i - File j|)) (fun _ => True)
      (fun _ _ _ h => h)
      (fun t i j a b _ => by simp only [cDistance.Init_body, upd2, Abs_eq_abs]) d trivial 64 64 a b
  · exact foldl_range_fill2 cDistance.Init_body (fun t => t.metric)
      (fun i j => max |Rank i - Rank j| |File i - File j|) (fun _ => True)
      (fun _ _ _ h => h)
      (fun t i j a b _ => by simp only [cDistance.Init_body, upd2, Abs_eq_abs, Max_eq_max])
      d trivial 64 64 a b

theorem Rank_File_range (a : Nat) (h : a < 64) :
    0 ≤ Rank a ∧ Rank a ≤ 7 ∧ 0 ≤ File a ∧ File a ≤ 7 := by
  have h1 : ∀ x, x < 64 → x >>> 3 ≤ 7 ∧ x &&& 7 ≤ 7 := by decide
  have := h1 a h
  unfold Rank File
  omega

/-- C11: after `cDistance::Init`, for all squares `a`, `b` in 0..63,
`bonus[a][b] = 14 - (|rank(a)-rank(b)| + |file(a)-file(b)|)` and
`metric[a][b] = max(|rank(a)-rank(b)|, |file(a)-file(b)|)`; hence
`bonus[a][a] = 14`, `metric[a][a] = 0`, and both tables are symmetric. -/
theorem cDistance_Init_tables (d : cDistance) (a b : Nat) (ha : a < 64) (hb : b < 64) :
    (cDistance.Init d).bonus a b = 14 - (|Rank a - Rank b| + |File a - File b|) ∧
    (cDistance.Init d).metric a b = max |Rank a - Rank b| |File a - File b| ∧
    (cDistance.Init d).bonus a a = 14 ∧
    (cDistance.Init d).metric a a = 0 ∧
    (cDistance.Init d).bonus a b = (cDistance.Init d).bonus b a ∧
    (cDistance.Init d).metric a b = (cDistance.Init d).metric b a := by
  have e1 := cDistance_Init_entries d a b
  have e2 := cDistance_Init_entries d b a
  have e3 := cDistance_Init_entries d a a
  simp only [ha, hb, and_self, if_true] at e1 e2 e3
  refine ⟨e1.1, e1.2, ?_, ?_, ?_, ?_⟩
  · rw [e3.1]; simp
  · rw [e3.2]; simp
  · rw [e1.1, e2.1, abs_sub_comm (Rank a), abs_sub_comm (File a)]
  · rw [e1.2, e2.2, abs_sub_comm (Rank a), abs_sub_comm (File a)]

theorem cDistance_Init_tables_witness :
    (cDistance.Init zeroDistance).bonus 0 63 = 14 - (|Rank 0 - Rank 63| + |File 0 - File 63|) ∧
    (cDistance.Init zeroDistance).bonus 0 63 = (cDistance.Init zeroDistance).bonus 63 0 :=
  ⟨(cDistance_Init_tables zeroDistance 0 63 (by decide) (by decide)).1,
   (cDistance_Init_tables zeroDistance 0 63 (by decide) (by decide)).2.2.2.2.1⟩

theorem cDistance_bonus_range (d : cDistance) (a b : Nat) (ha : a < 64) (hb : b < 64) :
    0 ≤ (cDistance.Init d).bonus a b ∧ (cDistance.Init d).bonus a b ≤ 14 := by
  have e1 := (cDistance_Init_entries d a b).1
  simp only [ha, hb, and_self, if_true] at e1
  have ra := Rank_File_range a ha
  have rb := Rank_File_range b hb
  have h1 : |Rank a - Rank b| ≤ 7 := abs_le.mpr ⟨by omega, by omega⟩
  have h2 : |File a - File b| ≤ 7 := abs_le.mpr ⟨by omega, by omega⟩
  have h3 := abs_nonneg (Rank a - Rank b)
  have h4 := abs_nonneg (File a - File b)
  rw [e1]
  omega

/-- C12, counterexample: no pair of squares has a negative tropism bonus after
`cDistance::Init`, whatever the tables held before: two squares are at most 7
ranks and 7 files apart. -/
theorem cDistance_bonus_negative_counterexample :
    ¬ ∃ (d : cDistance) (a b : Nat), a < 64 ∧ b < 64 ∧ (cDistance.Init d).bonus a b < 0 := by
  rintro ⟨d, a, b, ha, hb, h⟩
  have := (cDistance_bonus_range d a b ha hb).1
  omega

/-- C12, amended: the tropism bonus is never negative: after `cDistance::Init`,
`0 ≤ bonus[a][b] ≤ 14` for all squares `a`, `b` in 0..63, and the minimum 0 is
taken for the far corners, `bonus[0][63] = 0`. -/
theorem cDistance_bonus_nonneg (d : cDistance) (a b : Nat) (ha : a < 64) (hb : b < 64) :
    0 ≤ (cDistance.Init d).bonus a b ∧ (cDistance.Init d).bonus a b ≤ 14 ∧
    (cDistance.Init d).bonus 0 63 = 0 := by
  refine ⟨(cDistance_bonus_range d a b ha hb).1, (cDistance_bonus_range d a b ha hb).2, ?_⟩
  have e1 := (cDistance_Init_entries d 0 63).1
  rw [e1, if_pos (by decide)]
  decide

theorem cDistance_bonus_nonneg_witness :
    0 ≤ (cDistance.Init zeroDistance).bonus 7 56 ∧
    (cDistance.Init zeroDistance).bonus 7 56 ≤ 14 ∧
    (cDistance.Init zeroDistance).bonus 0 63 = 0 :=
  cDistance_bonus_nonneg zeroDistance 7 56 (by decide) (by decide)

/-! ### Strength scaling -/

/-- C13: for every integer `elo`, `EloToBlur(elo) = (1500 - elo) / 4` when
`elo < 1500` and 0 otherwise (the dividend is positive there, so truncating and
flooring division agree); `EloToBlur(1200) = 75`, `EloToBlur(1600) = 0`, and the
result is never negative. -/
theorem EloToBlur_ramp (elo : Int) :
    EloToBlur elo = (if elo < 1500 then (1500 - elo).tdiv 4 else 0) ∧
    EloToBlur elo = (if elo < 1500 then (1500 - elo) / 4 else 0) ∧
    EloToBlur 1200 = 75 ∧ EloToBlur 1600 = 0 ∧ 0 ≤ EloToBlur elo := by
  have h : EloToBlur elo = (if elo < 1500 then (1500 - elo) / 4 else 0) := by
    unfold EloToBlur
    split
    · rw [Int.tdiv_eq_ediv (by omega) (by decide)]
    · rfl
  refine ⟨rfl, h, by decide, by decide, ?_⟩
  rw [h]
  split <;> omega

/-- C14: `EloToBookDepth(700) = 0`, `EloToBookDepth(2000) = 256`, and
`EloToBookDepth` is monotonic non-decreasing on `[700, 2000]`: for all integers
`700 ≤ a ≤ b` (whether or not `b ≤ 2000`), `EloToBookDepth(a) ≤ EloToBookDepth(b)`. -/
theorem EloToBookDepth_monotone (a b : Int) (h1 : 700 ≤ a) (h2 : a ≤ b) :
    EloToBookDepth 700 = 0 ∧ EloToBookDepth 2000 = 256 ∧
    EloToBookDepth a ≤ EloToBookDepth b := by
  refine ⟨by decide, by decide, ?_⟩
  unfold EloToBookDepth
  by_cases hb : b < 2000
  · have ha : a < 2000 := by omega
    rw [if_pos ha, if_pos hb, Int.tdiv_eq_ediv (by omega) (by decide),
      Int.tdiv_eq_ediv (by omega) (by decide)]
    omega
  · rw [if_neg hb]
    by_cases ha : a < 2000
    · rw [if_pos ha, Int.tdiv_eq_ediv (by omega) (by decide)]
      omega
    · rw [if_neg ha]

theorem EloToBookDepth_monotone_witness :
    EloToBookDepth 700 = 0 ∧ EloToBookDepth 2000 = 256 ∧
    EloToBookDepth 1150 ≤ EloToBookDepth 1999 :=
  EloToBookDepth_monotone 1150 1999 (by decide) (by decide)

theorem SetSpeed_off (pow128 : Int → Int) (r : Nat) (s : cParam) (elo : Int)
    (h : s.fl_weakening = false) :
    (SetSpeed pow128 r s elo).nps_limit = 0 ∧ (SetSpeed pow128 r s elo).eval_blur = 0 ∧
    (SetSpeed pow128 r s elo).book_depth = s.book_depth := by
  simp [SetSpeed, h]

/-- C15: evaluation of the code at the failing input.  In the store left by
`SetSpeed(1000)` under weakening, with weakening then switched off,
`book_depth` is 3; `SetSpeed(2800)` resets `nps_limit` and `eval_blur` to 0 and
leaves `book_depth` at 3, not at 256. -/
theorem SetSpeed_stale_book_depth :
    staleParam.fl_weakening = false ∧ staleParam.book_depth = 3 ∧
    (SetSpeed (fun _ => 0) 0 staleParam 2800).nps_limit = 0 ∧
    (SetSpeed (fun _ => 0) 0 staleParam 2800).eval_blur = 0 ∧
    (SetSpeed (fun _ => 0) 0 staleParam 2800).book_depth = 3 ∧
    (SetSpeed (fun _ => 0) 0 staleParam 2800).book_depth ≠ 256 := by
  decide

/-- C16: when weakening is enabled, `SetSpeed(elo)` computes all three knobs from
`elo`: afterwards `eval_blur = EloToBlur(elo)`, `book_depth = EloToBookDepth(elo)`
and `nps_limit` is the value `EloToSpeed(elo)` returns for the random draw `r`
taken, for every `elo` and every prior state. -/
theorem SetSpeed_weakening_on (pow128 : Int → Int) (r : Nat) (s : cParam) (elo : Int)
    (h : s.fl_weakening = true) :
    (SetSpeed pow128 r s elo).eval_blur = EloToBlur elo ∧
    (SetSpeed pow128 r s elo).book_depth = EloToBookDepth elo ∧
    (SetSpeed pow128 r s elo).nps_limit = EloToSpeed pow128 r elo := by
  simp [SetSpeed, h]

theorem SetSpeed_weakening_on_witness :
    (SetSpeed (fun e => e) 7 weakParam 1000).eval_blur = EloToBlur 1000 ∧
    (SetSpeed (fun e => e) 7 weakParam 1000).book_depth = EloToBookDepth 1000 ∧
    (SetSpeed (fun e => e) 7 weakParam 1000).nps_limit = EloToSpeed (fun e => e) 7 1000 :=
  SetSpeed_weakening_on (fun e => e) 7 weakParam 1000 rfl

/-! ### Material tables -/

theorem set_imbalance_twice (t : cParam) (i j : Nat) (x v : Int) :
    set_imbalance (set_imbalance t i j x) i j v = set_imbalance t i j v := by
  have h : upd2 (upd2 t.imbalance i j x) i j v = upd2 t.imbalance i j v := by
    funext a b
    unfold upd2
    by_cases h : a = i ∧ b = j <;> simp [h]
  simp only [set_imbalance, h]

theorem set_imbalance_ite (c : Prop) [Decidable c] (t : cParam) (i j : Nat) (x v : Int) :
    (if c then set_imbalance (set_imbalance t i j x) i j v else set_imbalance t i j x)
      = set_imbalance t i j (if c then v else x) := by
  split
  · exact set_imbalance_twice t i j x v
  · rfl

theorem imbalance_cell_eq (D : Decls) (t : cParam) (i j : Nat) :
    imbalance_cell D t i j = set_imbalance t i j (imbalance_value D t i j) := by
  simp only [imbalance_cell, set_imbalance_ite, imbalance_value]

theorem imbalance_value_congr (D : Decls) (s t : cParam) (h : t.values = s.values)
    (i j : Nat) : imbalance_value D t i j = imbalance_value D s i j := by
  unfold imbalance_value; rw [h]

theorem pawn_adj_loop (D : Decls) (s : cParam) (n : Nat) :
    ((List.range n).foldl (pawn_adj_body D) s).values = s.values ∧
    ((List.range n).foldl (pawn_adj_body D) s).imbalance = s.imbalance :=
  foldl_range_inv (pawn_adj_body D) (fun t => t.values = s.values ∧ t.imbalance = s.imbalance)
    (fun _ _ h => h) s ⟨rfl, rfl⟩ n

/-- Closed form of the imbalance table after `InitMaterialTweaks`. -/
theorem InitMaterialTweaks_imbalance_eq (D : Decls) (s : cParam) (a b : Nat) :
    (InitMaterialTweaks D s).imbalance a b =
      if a < 9 ∧ b < 9 then imbalance_value D s a b else s.imbalance a b := by
  simp only [InitMaterialTweaks]
  obtain ⟨hv, hi⟩ := pawn_adj_loop D s 9
  generalize (List.range 9).foldl (pawn_adj_body D) s = s1 at hv hi
  rw [foldl_range_fill2 (fun t i j => imbalance_cell D t i j) (fun t => t.imbalance)
    (imbalance_value D s) (fun t => t.values = s.values)
    (fun t i j h => by
      show (imbalance_cell D t i j).values = s.values
      rw [imbalance_cell_eq]; exact h)
    (fun t i j a b h => by
      show (imbalance_cell D t i j).imbalance a b = _
      rw [imbalance_cell_eq, imbalance_value_congr D s t h]; rfl)
    s1 hv 9 9 a b, hi]

/-- C17: after `InitMaterialTweaks`, for every cell `(i, j)` of the 9x9 imbalance
table and each of the five category slots `c` (enumerators with distinct values,
none of them zero): if the template cell equals `c` the built cell is
`values[c]`, if it equals `-c` the built cell is `-values[c]`, and if the
template cell matches none of the ten sentinels the built cell is the literal
template value. -/
theorem InitMaterialTweaks_imbalance (D : Decls) (hinj : Function.Injective D.idx)
    (hnz : ∀ c ∈ sentinels, D.idx c ≠ 0) (s : cParam) (i j : Nat) (hi : i < 9) (hj : j < 9) :
    (∀ c ∈ sentinels,
      (D.imbalance_data i j = (D.idx c : Int) →
        (InitMaterialTweaks D s).imbalance i j = s.values (D.idx c)) ∧
      (D.imbalance_data i j = -(D.idx c : Int) →
        (InitMaterialTweaks D s).imbalance i j = -s.values (D.idx c))) ∧
    ((∀ c ∈ sentinels, D.imbalance_data i j ≠ (D.idx c : Int) ∧
        D.imbalance_data i j ≠ -(D.idx c : Int)) →
      (InitMaterialTweaks D s).imbalance i j = D.imbalance_data i j) := by
  rw [InitMaterialTweaks_imbalance_eq, if_pos ⟨hi, hj⟩]
  have n1 := hnz .A_EXC (by decide)
  have n2 := hnz .A_MIN (by decide)
  have n3 := hnz .A_MAJ (by decide)
  have n4 := hnz .A_TWO (by decide)
  have n5 := hnz .A_ALL (by decide)
  have d12 : D.idx .A_EXC ≠ D.idx .A_MIN := fun h => absurd (hinj h) (by decide)
  have d13 : D.idx .A_EXC ≠ D.idx .A_MAJ := fun h => absurd (hinj h) (by decide)
  have d14 : D.idx .A_EXC ≠ D.idx .A_TWO := fun h => absurd (hinj h) (by decide)
  have d15 : D.idx .A_EXC ≠ D.idx .A_ALL := fun h => absurd (hinj h) (by decide)
  have d23 : D.idx .A_MIN ≠ D.idx .A_MAJ := fun h => absurd (hinj h) (by decide)
  have d24 : D.idx .A_MIN ≠ D.idx .A_TWO := fun h => absurd (hinj h) (by decide)
  have d25 : D.idx .A_MIN ≠ D.idx .A_ALL := fun h => absurd (hinj h) (by decide)
  have d34 : D.idx .A_MAJ ≠ D.idx .A_TWO := fun h => absurd (hinj h) (by decide)
  have d35 : D.idx .A_MAJ ≠ D.idx .A_ALL := fun h => absurd (hinj h) (by decide)
  have d45 : D.idx .A_TWO ≠ D.idx .A_ALL := fun h => absurd (hinj h) (by decide)
  simp only [imbalance_value]
  generalize D.imbalance_data i j = d
  refine ⟨?_, ?_⟩
  · intro c hc
    simp only [sentinels, List.mem_cons, List.mem_singleton, List.not_mem_nil, or_false] at hc
    rcases hc with rfl | rfl | rfl | rfl | rfl <;> constructor <;> intro h <;> subst h <;>
      repeat (first | rw [if_pos rfl] | rw [if_neg (by omega)])
  · intro h
    have h1 := h .A_EXC (by decide)
    have h2 := h .A_MIN (by decide)
    have h3 := h .A_MAJ (by decide)
    have h4 := h .A_TWO (by decide)
    have h5 := h .A_ALL (by decide)
    rw [if_neg h1.1, if_neg h1.2, if_neg h2.1, if_neg h2.2, if_neg h3.1, if_neg h3.2,
      if_neg h4.1, if_neg h4.2, if_neg h5.1, if_neg h5.2]

theorem sentinelDecls_idx_injective : Function.Injective sentinelDecls.idx :=
  sampleDecls_idx_injective

theorem InitMaterialTweaks_imbalance_witness :
    (InitMaterialTweaks sentinelDecls knightParam).imbalance 1 0
      = knightParam.values (sentinelDecls.idx .A_EXC) ∧
    (InitMaterialTweaks sentinelDecls knightParam).imbalance 0 1
      = -knightParam.values (sentinelDecls.idx .A_EXC) ∧
    (InitMaterialTweaks sentinelDecls knightParam).imbalance 2 2
      = sentinelDecls.imbalance_data 2 2 :=
  ⟨((InitMaterialTweaks_imbalance sentinelDecls sentinelDecls_idx_injective (by decide)
      knightParam 1 0 (by decide) (by decide)).1 .A_EXC (by decide)).1 (by decide),
   ((InitMaterialTweaks_imbalance sentinelDecls sentinelDecls_idx_injective (by decide)
      knightParam 0 1 (by decide) (by decide)).1 .A_EXC (by decide)).2 (by decide),
   (InitMaterialTweaks_imbalance sentinelDecls sentinelDecls_idx_injective (by decide)
      knightParam 2 2 (by decide) (by decide)).2 (by decide)⟩

theorem imbalance_loop_keeps (D : Decls) (s : cParam) (n m : Nat) :
    ((List.range n).foldl (fun t i =>
      (List.range m).foldl (fun t j => imbalance_cell D t i j) t) s).np_table = s.np_table ∧
    ((List.range n).foldl (fun t i =>
      (List.range m).foldl (fun t j => imbalance_cell D t i j) t) s).rp_table = s.rp_table := by
  have h := foldl_range_frame (fun t i =>
      (List.range m).foldl (fun t j => imbalance_cell D t i j) t)
    (fun t => (t.np_table, t.rp_table))
    (fun t i => foldl_range_frame (fun t j => imbalance_cell D t i j)
      (fun t => (t.np_table, t.rp_table))
      (fun t j => by
        show ((imbalance_cell D t i j).np_table, (imbalance_cell D t i j).rp_table) = _
        rw [imbalance_cell_eq]; rfl) t m) s n
  exact ⟨congrArg Prod.fst h, congrArg Prod.snd h⟩

/-- Closed form of the pawn-count tables after `InitMaterialTweaks`. -/
theorem InitMaterialTweaks_pawn_eq (D : Decls) (s : cParam) (i : Nat) :
    (InitMaterialTweaks D s).np_table i =
      (if i < 9 then D.adj i * s.values (D.idx .N_CL) else s.np_table i) ∧
    (InitMaterialTweaks D s).rp_table i =
      (if i < 9 then D.adj i * s.values (D.idx .R_OP) else s.rp_table i) := by
  simp only [InitMaterialTweaks]
  rw [(imbalance_loop_keeps D _ 9 9).1, (imbalance_loop_keeps D _ 9 9).2]
  constructor
  · exact foldl_range_fill (pawn_adj_body D) (fun t => t.np_table)
      (fun i => D.adj i * s.values (D.idx .N_CL)) (fun t => t.values = s.values)
      (fun _ _ h => h) (fun t i j h => by simp only [pawn_adj_body, upd, h]) s rfl 9 i
  · exact foldl_range_fill (pawn_adj_body D) (fun t => t.rp_table)
      (fun i => D.adj i * s.values (D.idx .R_OP)) (fun t => t.values = s.values)
      (fun _ _ h => h) (fun t i j h => by simp only [pawn_adj_body, upd, h]) s rfl 9 i

set_option maxRecDepth 20000 in
/-- The value the calls of `DefaultWeights` leave in the slot `R_OP`. -/
theorem DefaultWeights_lastVal_R_OP (d : Int) :
    lastVal DefaultWeights_rook_mobility .R_OP (lastVal DefaultWeights_minor_mobility .R_OP
      (lastVal DefaultWeights_pieces .R_OP (lastVal DefaultWeights_pawns .R_OP
        (lastVal DefaultWeights_weights .R_OP (lastVal DefaultWeights_material .R_OP
          (lastVal DefaultWeights_piece_values .R_OP d)))))) = 0 :=
  rfl

theorem InitBackward_keeps_rp (D : Decls) (s : cParam) :
    (InitBackward D s).rp_table = s.rp_table := by
  have h := InitBackward_frame D s s
  generalize InitBackward D s = t at h ⊢
  have h1 := congrArg cParam.rp_table h
  exact h1

theorem InitPassers_keeps_rp (D : Decls) (s : cParam) :
    (InitPassers D s).rp_table = s.rp_table := by
  have h := InitPassers_frame D s s
  generalize InitPassers D s = t at h ⊢
  have h1 := congrArg cParam.rp_table h
  exact h1

theorem DefaultWeights_rp_table (D : Decls) (hinj : Function.Injective D.idx) (s : cParam)
    (i : Nat) (hi : i < 9) :
    (DefaultWeights_params D s).values (D.idx .R_OP) = 0 ∧
    (DefaultWeights D s).rp_table i = 0 := by
  have v : (DefaultWeights_params D s).values (D.idx .R_OP) = 0 := by
    rw [DefaultWeights_params_values D hinj]; exact DefaultWeights_lastVal_R_OP _
  refine ⟨v, ?_⟩
  have hv : (InitMobility D (InitPst D (DefaultWeights_params D s))).values
      = (DefaultWeights_params D s).values :=
    (InitMobility_keeps D _).1.trans (InitPst_upto_spec D _ 64).1
  have h3 := (InitMaterialTweaks_pawn_eq D
    (InitMobility D (InitPst D (DefaultWeights_params D s))) i).2
  rw [if_pos hi, hv, v, Int.mul_zero] at h3
  have e : (DefaultWeights D s).rp_table
      = (InitMaterialTweaks D (InitMobility D (InitPst D (DefaultWeights_params D s)))).rp_table := by
    have e0 : ∀ t, (profile_hist t).rp_table = t.rp_table := fun _ => rfl
    unfold DefaultWeights profile_builders
    rw [e0, InitPassers_keeps_rp, InitBackward_keeps_rp]
  rw [e, h3]

/-- C19: after `InitMaterialTweaks`, for every own-pawn count `i` in 0..8,
`np_table[i] = adj[i] * values[N_CL]` and `rp_table[i] = adj[i] * values[R_OP]`;
a zero delta gives a zero entry, and so the default profile, which sets
`R_OP = 0`, ends with `rp_table[i] = 0` (distinct enumerators having distinct
values). -/
theorem InitMaterialTweaks_pawn_tables (D : Decls) (s : cParam) (i : Nat) (hi : i < 9) :
    (InitMaterialTweaks D s).np_table i = D.adj i * s.values (D.idx .N_CL) ∧
    (InitMaterialTweaks D s).rp_table i = D.adj i * s.values (D.idx .R_OP) ∧
    (s.values (D.idx .N_CL) = 0 → (InitMaterialTweaks D s).np_table i = 0) ∧
    (s.values (D.idx .R_OP) = 0 → (InitMaterialTweaks D s).rp_table i = 0) ∧
    (Function.Injective D.idx → ∀ s0, (DefaultWeights D s0).rp_table i = 0) := by
  obtain ⟨h1, h2⟩ := InitMaterialTweaks_pawn_eq D s i
  rw [if_pos hi] at h1 h2
  refine ⟨h1, h2, fun h => ?_, fun h => ?_, fun hinj s0 => ?_⟩
  · rw [h1, h, Int.mul_zero]
  · rw [h2, h, Int.mul_zero]
  · exact (DefaultWeights_rp_table D hinj s0 i hi).2

theorem InitMaterialTweaks_pawn_tables_witness :
    (InitMaterialTweaks sampleDecls knightParam).np_table 4
      = sampleDecls.adj 4 * knightParam.values (sampleDecls.idx .N_CL) ∧
    (DefaultWeights sampleDecls zeroParam).rp_table 4 = 0 :=
  ⟨(InitMaterialTweaks_pawn_tables sampleDecls knightParam 4 (by decide)).1,
   (InitMaterialTweaks_pawn_tables sampleDecls knightParam 4 (by decide)).2.2.2.2
     sampleDecls_idx_injective zeroParam⟩

/-! ### Backward pawns -/

theorem InitBackward_eq (D : Decls) (s : cParam) :
    (InitBackward D s).backward_malus_mg =
      upd (upd (upd (upd (upd (upd (upd (upd s.backward_malus_mg
        0 (s.values (D.idx .BK_MID) + 3)) 1 (s.values (D.idx .BK_MID) + 1))
        2 (s.values (D.idx .BK_MID) - 1)) 3 (s.values (D.idx .BK_MID) - 3))
        4 (s.values (D.idx .BK_MID) - 3)) 5 (s.values (D.idx .BK_MID) - 1))
        6 (s.values (D.idx .BK_MID) + 1)) 7 (s.values (D.idx .BK_MID) + 3) := by
  simp only [InitBackward, set_backward_malus_mg, FILE_A, FILE_B, FILE_C, FILE_D, FILE_E,
    FILE_F, FILE_G, FILE_H]

/-- C18: after `InitBackward`, for every value of the base penalty
`values[BK_MID]`, the penalty for the files A..H is `values[BK_MID]` plus
`+3, +1, -1, -3, -3, -1, +1, +3` respectively; hence file `f` and file `7-f` get
the same penalty, and a file at least as far from the edge as another never has
a larger value. -/
theorem InitBackward_table (D : Decls) (s : cParam) :
    ((InitBackward D s).backward_malus_mg FILE_A = s.values (D.idx .BK_MID) + 3 ∧
     (InitBackward D s).backward_malus_mg FILE_B = s.values (D.idx .BK_MID) + 1 ∧
     (InitBackward D s).backward_malus_mg FILE_C = s.values (D.idx .BK_MID) - 1 ∧
     (InitBackward D s).backward_malus_mg FILE_D = s.values (D.idx .BK_MID) - 3 ∧
     (InitBackward D s).backward_malus_mg FILE_E = s.values (D.idx .BK_MID) - 3 ∧
     (InitBackward D s).backward_malus_mg FILE_F = s.values (D.idx .BK_MID) - 1 ∧
     (InitBackward D s).backward_malus_mg FILE_G = s.values (D.idx .BK_MID) + 1 ∧
     (InitBackward D s).backward_malus_mg FILE_H = s.values (D.idx .BK_MID) + 3) ∧
    (∀ f : Nat, f ≤ 7 →
      (InitBackward D s).backward_malus_mg f = (InitBackward D s).backward_malus_mg (7 - f)) ∧
    (∀ f g : Nat, f ≤ 7 → g ≤ 7 → min f (7 - f) ≤ min g (7 - g) →
      (InitBackward D s).backward_malus_mg g ≤ (InitBackward D s).backward_malus_mg f) := by
  rw [InitBackward_eq]
  refine ⟨by simp [upd, FILE_A, FILE_B, FILE_C, FILE_D, FILE_E, FILE_F, FILE_G, FILE_H], ?_, ?_⟩
  · intro f hf
    interval_cases f <;> simp [upd]
  · intro f g hf hg h
    interval_cases f <;> interval_cases g <;> simp [upd] at h ⊢ <;> omega

theorem InitBackward_table_witness :
    (InitBackward sampleDecls knightParam).backward_malus_mg 2
      = (InitBackward sampleDecls knightParam).backward_malus_mg (7 - 2) ∧
    (InitBackward sampleDecls knightParam).backward_malus_mg 3
      ≤ (InitBackward sampleDecls knightParam).backward_malus_mg 1 :=
  ⟨(InitBackward_table sampleDecls knightParam).2.1 2 (by decide),
   (InitBackward_table sampleDecls knightParam).2.2 1 3 (by decide) (by decide) (by decide)⟩

/-! ### The invariant of the store -/

/-- C20, counterexample: the zero store has no tunable slot and satisfies the
invariant; after `SetVal(P_MID, 200, 50, 150, true)` the slot is tunable and
holds 200, above its upper bound 150, so the invariant fails. -/
theorem SetVal_invariant_counterexample :
    boundsInv sampleDecls zeroParam ∧
    ¬ boundsInv sampleDecls
      (SetVal sampleDecls zeroParam (sampleDecls.idx .P_MID) 200 50 150 true) := by
  constructor
  · intro slot _ h
    exact (Bool.false_ne_true h).elim
  · intro h
    have := h (sampleDecls.idx .P_MID) (by decide) (by decide)
    exact absurd this.2 (by decide)

theorem SetVal_members (D : Decls) (s : cParam) (slot : Nat) (v lo hi : Int) (tune : Bool) :
    (SetVal D s slot v lo hi tune).values = upd s.values slot v ∧
    (SetVal D s slot v lo hi tune).min_val = upd s.min_val slot lo ∧
    (SetVal D s slot v lo hi tune).max_val = upd s.max_val slot hi ∧
    (SetVal D s slot v lo hi tune).tunable = upd s.tunable slot tune := by
  unfold SetVal; split <;> exact ⟨rfl, rfl, rfl, rfl⟩

/-- C20, amended: for every store state in which every tunable slot is within
its bounds and every call `SetVal(slot, v, lo, hi, tune)` on a slot of the
store, the resulting state satisfies the invariant if and only if `tune` is
false or `lo ≤ v ≤ hi`: a call with a value within its bounds (or on a slot
declared non-tunable) preserves the invariant, a tunable call with a value out
of its bounds breaks it. -/
theorem SetVal_invariant_iff (D : Decls) (s : cParam) (slot : Nat) (v lo hi : Int)
    (tune : Bool) (hs : boundsInv D s) (hslot : slot < D.N_OF_VAL) :
    boundsInv D (SetVal D s slot v lo hi tune) ↔ (tune = true → lo ≤ v ∧ v ≤ hi) := by
  obtain ⟨e1, e2, e3, e4⟩ := SetVal_members D s slot v lo hi tune
  constructor
  · intro h ht
    have hk := h slot hslot
    rw [e1, e2, e3, e4] at hk
    unfold upd at hk
    rw [if_pos rfl, if_pos rfl, if_pos rfl, if_pos rfl] at hk
    exact hk ht
  · intro hv k hk ht
    rw [e4] at ht
    rw [e1, e2, e3]
    unfold upd at ht ⊢
    by_cases hks : k = slot
    · rw [if_pos hks] at ht
      rw [if_pos hks, if_pos hks, if_pos hks]
      exact hv ht
    · rw [if_neg hks] at ht
      rw [if_neg hks, if_neg hks, if_neg hks]
      exact hs k hk ht

theorem SetVal_invariant_iff_witness :
    boundsInv sampleDecls
      (SetVal sampleDecls zeroParam (sampleDecls.idx .P_MID) 91 50 150 true) :=
  (SetVal_invariant_iff sampleDecls zeroParam (sampleDecls.idx .P_MID) 91 50 150 true
    (fun _ _ h => (Bool.false_ne_true h).elim) (by decide)).2 (fun _ => by decide)

/-! ### Book depth below 2000 -/

theorem EloToBookDepth_below (elo : Int) (h : elo < 2000) :
    (700 ≤ elo → EloToBookDepth elo = (elo - 700) / 100) ∧
    (elo < 700 → EloToBookDepth elo = -((700 - elo) / 100)) := by
  unfold EloToBookDepth
  rw [if_pos h]
  constructor
  · intro h7
    rw [Int.tdiv_eq_ediv (by omega) (by decide)]
  · intro h7
    have e : elo - 700 = -(700 - elo) := by omega
    rw [e, Int.neg_tdiv, Int.tdiv_eq_ediv (by omega) (by decide)]

/-- C27: for every integer `elo < 2000`, `EloToBookDepth(elo) ≥ 0` if and only
if `elo ≥ 601` (C division truncates towards zero, so 601..799 all map to 0 and
every `elo ≤ 600` yields a negative book depth); for every `elo` the result is
at most 256, and on 601..1999 it lies in 0..12. -/
theorem EloToBookDepth_sign (elo : Int) :
    (elo < 2000 → (0 ≤ EloToBookDepth elo ↔ 601 ≤ elo)) ∧
    (601 ≤ elo → elo ≤ 799 → EloToBookDepth elo = 0) ∧
    (elo ≤ 600 → EloToBookDepth elo < 0) ∧
    EloToBookDepth elo ≤ 256 ∧
    (601 ≤ elo → elo ≤ 1999 → 0 ≤ EloToBookDepth elo ∧ EloToBookDepth elo ≤ 12) := by
  by_cases h : elo < 2000
  · obtain ⟨h1, h2⟩ := EloToBookDepth_below elo h
    by_cases h7 : 700 ≤ elo
    · have e := h1 h7
      refine ⟨fun _ => ?_, ?_, ?_, ?_, ?_⟩ <;> omega
    · have e := h2 (by omega)
      refine ⟨fun _ => ?_, ?_, ?_, ?_, ?_⟩ <;> omega
  · have e : EloToBookDepth elo = 256 := by unfold EloToBookDepth; rw [if_neg h]
    refine ⟨fun h2 => absurd h2 h, ?_, ?_, ?_, ?_⟩ <;> omega

theorem EloToBookDepth_sign_witness :
    (0 ≤ EloToBookDepth 650 ↔ (601 : Int) ≤ 650) ∧ EloToBookDepth 650 = 0 ∧
    EloToBookDepth 600 < 0 :=
  ⟨(EloToBookDepth_sign 650).1 (by decide), (EloToBookDepth_sign 650).2.1 (by decide) (by decide),
   (EloToBookDepth_sign 600).2.2.1 (by decide)⟩

/-! ### Frames of `InitPst` and `InitTables` -/

theorem InitPst_frame (D : Decls) (s b : cParam) :
    restore_pst (InitPst D s) b = restore_pst s b := by
  unfold InitPst InitPst_upto
  exact foldl_range_frame _ (fun t => restore_pst t b)
    (fun t sq => foldl_range_frame (fun t sd => InitPst_body D t sq sd)
      (fun t => restore_pst t b)
      (fun t sd => by
        show restore_pst (InitPst_body D t sq sd) b = restore_pst t b
        simp only [InitPst_body, set_mg_pst, set_eg_pst, set_sp_pst, restore_pst]) t 2) s 64

theorem InitTables_body_frame (p : Nat × cParam) (b : cParam) (i : Nat) :
    restore_danger (InitTables_body p i).2 b = restore_danger p.2 b := by
  simp only [InitTables_body, restore_danger]

theorem InitTables_upto_frame (s b : cParam) (n : Nat) :
    restore_danger (InitTables_upto s n).2 b = restore_danger s b := by
  induction n with
  | zero => simp only [InitTables_upto, List.range'_zero, List.foldl_nil]
  | succ n ih => rw [InitTables_upto_succ, InitTables_body_frame, ih]

theorem InitTables_frame (s b : cParam) :
    restore_danger (InitTables s) b = restore_danger s b := by
  rw [InitTables]
  exact InitTables_upto_frame s b 510

/-- C26: `InitTables` writes exactly the entries `danger[1..510]`: every entry
with an index in 1..510 gets the value computed in its round, and `danger[0]`
(like every index above 510) keeps the value it had before the call. -/
theorem InitTables_written_entries (s : cParam) :
    (∀ j, (InitTables s).danger j =
      if 1 ≤ j ∧ j ≤ 510 then ((danger_t j : Int) * 100).tdiv 256 else s.danger j) ∧
    (InitTables s).danger 0 = s.danger 0 ∧
    (∀ x : Int, (InitTables { s with danger := upd s.danger 0 x }).danger 0 = x) := by
  have h : ∀ t j, (InitTables t).danger j =
      if 1 ≤ j ∧ j ≤ 510 then ((danger_t j : Int) * 100).tdiv 256 else t.danger j := by
    intro t j
    rw [InitTables]
    exact (InitTables_upto_spec t 510).2 j
  have h0 : ∀ t, (InitTables t).danger 0 = t.danger 0 := by
    intro t
    rw [h t 0, if_neg (by decide)]
  refine ⟨h s, h0 s, fun x => ?_⟩
  rw [h0]
  simp only [upd, if_true]

theorem sameParams_of_pst (t s : cParam) (h : restore_pst t s = s) : sameParams t s := by
  have h1 := congrArg cParam.values h
  have h2 := congrArg cParam.min_val h
  have h3 := congrArg cParam.max_val h
  have h4 := congrArg cParam.tunable h
  have h5 := congrArg cParam.pst_style h
  have h6 := congrArg cParam.mob_style h
  exact ⟨h1, h2, h3, h4, h5, h6⟩

theorem sameParams_of_mobility (t s : cParam) (h : restore_mobility t s = s) :
    sameParams t s := by
  have h1 := congrArg cParam.values h
  have h2 := congrArg cParam.min_val h
  have h3 := congrArg cParam.max_val h
  have h4 := congrArg cParam.tunable h
  have h5 := congrArg cParam.pst_style h
  have h6 := congrArg cParam.mob_style h
  exact ⟨h1, h2, h3, h4, h5, h6⟩

theorem sameParams_of_material (t s : cParam) (h : restore_material t s = s) :
    sameParams t s := by
  have h1 := congrArg cParam.values h
  have h2 := congrArg cParam.min_val h
  have h3 := congrArg cParam.max_val h
  have h4 := congrArg cParam.tunable h
  have h5 := congrArg cParam.pst_style h
  have h6 := congrArg cParam.mob_style h
  exact ⟨h1, h2, h3, h4, h5, h6⟩

theorem sameParams_of_backward (t s : cParam) (h : restore_backward t s = s) :
    sameParams t s := by
  have h1 := congrArg cParam.values h
  have h2 := congrArg cParam.min_val h
  have h3 := congrArg cParam.max_val h
  have h4 := congrArg cParam.tunable h
  have h5 := congrArg cParam.pst_style h
  have h6 := congrArg cParam.mob_style h
  exact ⟨h1, h2, h3, h4, h5, h6⟩

theorem sameParams_of_passers (t s : cParam) (h : restore_passers t s = s) :
    sameParams t s := by
  have h1 := congrArg cParam.values h
  have h2 := congrArg cParam.min_val h
  have h3 := congrArg cParam.max_val h
  have h4 := congrArg cParam.tunable h
  have h5 := congrArg cParam.pst_style h
  have h6 := congrArg cParam.mob_style h
  exact ⟨h1, h2, h3, h4, h5, h6⟩

theorem sameParams_of_danger (t s : cParam) (h : restore_danger t s = s) : sameParams t s := by
  have h1 := congrArg cParam.values h
  have h2 := congrArg cParam.min_val h
  have h3 := congrArg cParam.max_val h
  have h4 := congrArg cParam.tunable h
  have h5 := congrArg cParam.pst_style h
  have h6 := congrArg cParam.mob_style h
  exact ⟨h1, h2, h3, h4, h5, h6⟩

/-- C24: no builder touches the parameters or another builder's tables.  For each
of `InitPst`, `InitMobility`, `InitMaterialTweaks`, `InitBackward`, `InitPassers`
and `InitTables`, putting the builder's own tables back to what they were gives
the store before the call (so every other member, derived table or not, is
unchanged), and in particular `values`, `min_val`, `max_val`, `tunable`,
`pst_style` and `mob_style` are unchanged. -/
theorem builders_frame (D : Decls) (s : cParam) :
    (restore_pst (InitPst D s) s = s ∧ sameParams (InitPst D s) s) ∧
    (restore_mobility (InitMobility D s) s = s ∧ sameParams (InitMobility D s) s) ∧
    (restore_material (InitMaterialTweaks D s) s = s ∧
      sameParams (InitMaterialTweaks D s) s) ∧
    (restore_backward (InitBackward D s) s = s ∧ sameParams (InitBackward D s) s) ∧
    (restore_passers (InitPassers D s) s = s ∧ sameParams (InitPassers D s) s) ∧
    (restore_danger (InitTables s) s = s ∧ sameParams (InitTables s) s) := by
  have a1 : restore_pst (InitPst D s) s = s := InitPst_frame D s s
  have a2 : restore_mobility (InitMobility D s) s = s := InitMobility_frame D s s
  have a3 : restore_material (InitMaterialTweaks D s) s = s := InitMaterialTweaks_frame D s s
  have a4 : restore_backward (InitBackward D s) s = s := InitBackward_frame D s s
  have a5 : restore_passers (InitPassers D s) s = s := InitPassers_frame D s s
  have a6 : restore_danger (InitTables s) s = s := InitTables_frame s s
  exact ⟨⟨a1, sameParams_of_pst _ _ a1⟩, ⟨a2, sameParams_of_mobility _ _ a2⟩,
    ⟨a3, sameParams_of_material _ _ a3⟩, ⟨a4, sameParams_of_backward _ _ a4⟩,
    ⟨a5, sameParams_of_passers _ _ a5⟩, ⟨a6, sameParams_of_danger _ _ a6⟩⟩

/-! ### Closed forms of the piece-square tables -/

theorem InitPst_body_sp (D : Decls) (s : cParam) (sq sd sd2 key k : Nat) :
    (InitPst_body D s sq sd).sp_pst sd2 key k =
      if sd2 = sd ∧ k = REL_SQ sq sd ∧ key ∈ spKeys D then spEntry D key sq
      else s.sp_pst sd2 key k := by
  simp only [InitPst_body, set_mg_pst, set_eg_pst, set_sp_pst, upd3, spKeys, spEntry,
    List.mem_cons, List.mem_singleton, List.not_mem_nil, or_false]
  by_cases h1 : sd2 = sd <;> by_cases h2 : k = REL_SQ sq sd <;> simp only [h1, h2, true_and,
    false_and, and_true, and_false, if_false]
  split_ifs <;> simp_all

theorem REL_SQ_REL_SQ (k sd : Nat) : REL_SQ (REL_SQ k sd) sd = k := by
  unfold REL_SQ
  rw [Nat.xor_assoc, Nat.xor_self, Nat.xor_zero]

theorem REL_SQ_lt (k sd : Nat) (hsd : sd < 2) : REL_SQ k sd < 64 ↔ k < 64 := by
  have h : ∀ x, x < 64 → REL_SQ x sd < 64 := by
    intro x hx
    unfold REL_SQ
    exact Nat.xor_lt_two_pow (n := 6) hx (by interval_cases sd <;> decide)
  constructor
  · intro hk
    have := h _ hk
    rwa [REL_SQ_REL_SQ] at this
  · exact h k

/-- Two nested loops over `sq` and `sd` whose round stores `val sq` at the
index `(sd, REL_SQ sq sd)` of a two-dimensional table fill the two sides of
the board and leave the other entries. -/
theorem InitPst_fill (D : Decls) (s : cParam) (get : cParam → Nat → Nat → Int)
    (val : Nat → Int)
    (hget : ∀ t sq sd sd2 k, t.values = s.values ∧ t.pst_style = s.pst_style →
      get (InitPst_body D t sq sd) sd2 k =
        if sd2 = sd ∧ k = REL_SQ sq sd then val sq else get t sd2 k)
    (sd k : Nat) :
    get (InitPst D s) sd k = if sd < 2 ∧ k < 64 then val (REL_SQ k sd) else get s sd k := by
  have h := foldl_range_fill2 (fun t sq sd => InitPst_body D t sq sd)
    (fun t a b => get t b (REL_SQ a b)) (fun i _ => val i)
    (fun t => t.values = s.values ∧ t.pst_style = s.pst_style)
    (fun t i j ht => ⟨(InitPst_body_values D t i j).1.trans ht.1,
      (InitPst_body_values D t i j).2.trans ht.2⟩)
    (fun t i j a b ht => by
      show get (InitPst_body D t i j) b (REL_SQ a b) = _
      rw [hget t i j b (REL_SQ a b) ht]
      by_cases hb : b = j
      · subst hb
        by_cases ha : a = i
        · subst ha; simp
        · have : REL_SQ a b ≠ REL_SQ i b := fun h => ha (REL_SQ_inj _ _ _ h)
          simp [ha, this]
      · simp [hb])
    s ⟨rfl, rfl⟩ 64 2 (REL_SQ k sd) sd
  simp only [REL_SQ_REL_SQ] at h
  have e : InitPst D s = (List.range 64).foldl (fun t i =>
      (List.range 2).foldl (fun t j => InitPst_body D t i j) t) s := rfl
  rw [e, h]
  by_cases hsd : sd < 2
  · simp only [REL_SQ_lt k sd hsd, hsd, and_true, true_and]
  · simp only [hsd, and_false, false_and]

theorem InitPst_keeps_table (D : Decls) (s : cParam) (get : cParam → Int)
    (h : ∀ t sq sd, get (InitPst_body D t sq sd) = get t) :
    get (InitPst D s) = get s := by
  have e : InitPst D s = (List.range 64).foldl (fun t i =>
      (List.range 2).foldl (fun t j => InitPst_body D t i j) t) s := rfl
  rw [e]
  exact foldl_range_frame _ get
    (fun t sq => foldl_range_frame (fun t sd => InitPst_body D t sq sd) get
      (fun t sd => h t sq sd) t 2) s 64

theorem InitPst_mg_eq (D : Decls) (s : cParam) (sd pc k : Nat) :
    (InitPst D s).mg_pst sd pc k =
      if sd < 2 ∧ k < 64 ∧ pc ≤ 5 then mgEntry D s pc (REL_SQ k sd) else s.mg_pst sd pc k := by
  by_cases hpc : pc ≤ 5
  · have h := InitPst_fill D s (fun t sd k => t.mg_pst sd pc k) (fun sq => mgEntry D s pc sq)
      (fun t sq sd sd2 k ht => by
        show (InitPst_body D t sq sd).mg_pst sd2 pc k = _
        rw [InitPst_body_mg, mgEntry_congr D s t ht.1 ht.2]
        simp only [hpc, and_true]) sd k
    simp only [hpc, and_true]
    exact h
  · have h := InitPst_keeps_table D s (fun t => t.mg_pst sd pc k)
      (fun t sq sd2 => by
        show (InitPst_body D t sq sd2).mg_pst sd pc k = _
        rw [InitPst_body_mg]
        simp only [hpc, and_false, if_false])
    simp only [hpc, and_false, if_false]
    exact h

theorem InitPst_eg_eq (D : Decls) (s : cParam) (sd pc k : Nat) :
    (InitPst D s).eg_pst sd pc k =
      if sd < 2 ∧ k < 64 ∧ pc ≤ 5 then egEntry D s pc (REL_SQ k sd) else s.eg_pst sd pc k := by
  by_cases hpc : pc ≤ 5
  · have h := InitPst_fill D s (fun t sd k => t.eg_pst sd pc k) (fun sq => egEntry D s pc sq)
      (fun t sq sd sd2 k ht => by
        show (InitPst_body D t sq sd).eg_pst sd2 pc k = _
        rw [InitPst_body_eg, egEntry_congr D s t ht.1 ht.2]
        simp only [hpc, and_true]) sd k
    simp only [hpc, and_true]
    exact h
  · have h := InitPst_keeps_table D s (fun t => t.eg_pst sd pc k)
      (fun t sq sd2 => by
        show (InitPst_body D t sq sd2).eg_pst sd pc k = _
        rw [InitPst_body_eg]
        simp only [hpc, and_false, if_false])
    simp only [hpc, and_false, if_false]
    exact h

theorem InitPst_sp_eq (D : Decls) (s : cParam) (sd key k : Nat) :
    (InitPst D s).sp_pst sd key k =
      if sd < 2 ∧ k < 64 ∧ key ∈ spKeys D then spEntry D key (REL_SQ k sd)
      else s.sp_pst sd key k := by
  by_cases hkey : key ∈ spKeys D
  · have h := InitPst_fill D s (fun t sd k => t.sp_pst sd key k) (fun sq => spEntry D key sq)
      (fun t sq sd sd2 k _ => by
        show (InitPst_body D t sq sd).sp_pst sd2 key k = _
        rw [InitPst_body_sp]
        simp only [hkey, and_true]) sd k
    simp only [hkey, and_true]
    exact h
  · have h := InitPst_keeps_table D s (fun t => t.sp_pst sd key k)
      (fun t sq sd2 => by
        show (InitPst_body D t sq sd2).sp_pst sd key k = _
        rw [InitPst_body_sp]
        simp only [hkey, and_false, if_false])
    simp only [hkey, and_false, if_false]
    exact h

/-! ### Closed forms of the mobility tables -/

theorem InitMobility_n_eq (D : Decls) (s : cParam) (i : Nat) :
    (InitMobility D s).n_mob_mg i = (if i < 9 then
      (if s.mob_style = 0 then 4 * ((i : Int) - 4) else s.values (D.idx .NMG0 + i))
      else s.n_mob_mg i) ∧
    (InitMobility D s).n_mob_eg i = (if i < 9 then
      (if s.mob_style = 0 then 4 * ((i : Int) - 4) else s.values (D.idx .NEG0 + i))
      else s.n_mob_eg i) := by
  unfold InitMobility
  simp only [(mob_q_loop _ 28).2.2.1, (mob_q_loop _ 28).2.2.2.1, (mob_r_loop D _ 15).2.2.1,
    (mob_r_loop D _ 15).2.2.2.1, (mob_b_loop D _ 14).2.2.1, (mob_b_loop D _ 14).2.2.2]
  constructor
  · exact foldl_range_fill (mob_n_body D) (fun t => t.n_mob_mg)
      (fun i => if s.mob_style = 0 then 4 * ((i : Int) - 4) else s.values (D.idx .NMG0 + i))
      (fun t => t.values = s.values ∧ t.mob_style = s.mob_style) (fun _ _ h => h)
      (fun t i j h => by simp only [mob_n_body, upd, h.1, h.2]) s ⟨rfl, rfl⟩ 9 i
  · exact foldl_range_fill (mob_n_body D) (fun t => t.n_mob_eg)
      (fun i => if s.mob_style = 0 then 4 * ((i : Int) - 4) else s.values (D.idx .NEG0 + i))
      (fun t => t.values = s.values ∧ t.mob_style = s.mob_style) (fun _ _ h => h)
      (fun t i j h => by simp only [mob_n_body, upd, h.1, h.2]) s ⟨rfl, rfl⟩ 9 i

theorem mob_n_loop_keeps (D : Decls) (s : cParam) (n : Nat) :
    ((List.range n).foldl (mob_n_body D) s).b_mob_mg = s.b_mob_mg ∧
    ((List.range n).foldl (mob_n_body D) s).b_mob_eg = s.b_mob_eg ∧
    ((List.range n).foldl (mob_n_body D) s).r_mob_mg = s.r_mob_mg ∧
    ((List.range n).foldl (mob_n_body D) s).r_mob_eg = s.r_mob_eg ∧
    ((List.range n).foldl (mob_n_body D) s).q_mob_mg = s.q_mob_mg ∧
    ((List.range n).foldl (mob_n_body D) s).q_mob_eg = s.q_mob_eg :=
  foldl_range_inv (mob_n_body D) (fun t => t.b_mob_mg = s.b_mob_mg ∧ t.b_mob_eg = s.b_mob_eg ∧
    t.r_mob_mg = s.r_mob_mg ∧ t.r_mob_eg = s.r_mob_eg ∧ t.q_mob_mg = s.q_mob_mg ∧
    t.q_mob_eg = s.q_mob_eg) (fun _ _ h => h) s ⟨rfl, rfl, rfl, rfl, rfl, rfl⟩ n

theorem mob_b_loop_keeps (D : Decls) (s : cParam) (n : Nat) :
    ((List.range n).foldl (mob_b_body D) s).r_mob_mg = s.r_mob_mg ∧
    ((List.range n).foldl (mob_b_body D) s).r_mob_eg = s.r_mob_eg ∧
    ((List.range n).foldl (mob_b_body D) s).q_mob_mg = s.q_mob_mg ∧
    ((List.range n).foldl (mob_b_body D) s).q_mob_eg = s.q_mob_eg :=
  foldl_range_inv (mob_b_body D) (fun t => t.r_mob_mg = s.r_mob_mg ∧ t.r_mob_eg = s.r_mob_eg ∧
    t.q_mob_mg = s.q_mob_mg ∧ t.q_mob_eg = s.q_mob_eg) (fun _ _ h => h) s
    ⟨rfl, rfl, rfl, rfl⟩ n

theorem mob_r_loop_keeps (D : Decls) (s : cParam) (n : Nat) :
    ((List.range n).foldl (mob_r_body D) s).q_mob_mg = s.q_mob_mg ∧
    ((List.range n).foldl (mob_r_body D) s).q_mob_eg = s.q_mob_eg :=
  foldl_range_inv (mob_r_body D) (fun t => t.q_mob_mg = s.q_mob_mg ∧ t.q_mob_eg = s.q_mob_eg)
    (fun _ _ h => h) s ⟨rfl, rfl⟩ n

theorem InitMobility_b_eq (D : Decls) (s : cParam) (i : Nat) :
    (InitMobility D s).b_mob_mg i = (if i < 14 then
      (if s.mob_style = 0 then 5 * ((i : Int) - 6) else s.values (D.idx .BMG0 + i))
      else s.b_mob_mg i) ∧
    (InitMobility D s).b_mob_eg i = (if i < 14 then
      (if s.mob_style = 0 then 5 * ((i : Int) - 6) else s.values (D.idx .BEG0 + i))
      else s.b_mob_eg i) := by
  unfold InitMobility
  simp only [(mob_q_loop _ 28).2.2.2.2.1, (mob_q_loop _ 28).2.2.2.2.2.1,
    (mob_r_loop D _ 15).2.2.2.2.1, (mob_r_loop D _ 15).2.2.2.2.2]
  obtain ⟨hv, hm⟩ := mob_n_loop D s 9
  obtain ⟨k1, k2, _⟩ := mob_n_loop_keeps D s 9
  generalize (List.range 9).foldl (mob_n_body D) s = s1 at hv hm k1 k2
  constructor
  · rw [foldl_range_fill (mob_b_body D) (fun t => t.b_mob_mg)
      (fun i => if s.mob_style = 0 then 5 * ((i : Int) - 6) else s.values (D.idx .BMG0 + i))
      (fun t => t.values = s.values ∧ t.mob_style = s.mob_style) (fun _ _ h => h)
      (fun t i j h => by simp only [mob_b_body, upd, h.1, h.2]) s1 ⟨hv, hm⟩ 14 i, k1]
  · rw [foldl_range_fill (mob_b_body D) (fun t => t.b_mob_eg)
      (fun i => if s.mob_style = 0 then 5 * ((i : Int) - 6) else s.values (D.idx .BEG0 + i))
      (fun t => t.values = s.values ∧ t.mob_style = s.mob_style) (fun _ _ h => h)
      (fun t i j h => by simp only [mob_b_body, upd, h.1, h.2]) s1 ⟨hv, hm⟩ 14 i, k2]

theorem InitMobility_r_eq (D : Decls) (s : cParam) (i : Nat) :
    (InitMobility D s).r_mob_mg i = (if i < 15 then
      (if s.mob_style = 0 then 2 * ((i : Int) - 7) else s.values (D.idx .RMG0 + i))
      else s.r_mob_mg i) ∧
    (InitMobility D s).r_mob_eg i = (if i < 15 then
      (if s.mob_style = 0 then 4 * ((i : Int) - 7) else s.values (D.idx .REG0 + i))
      else s.r_mob_eg i) := by
  unfold InitMobility
  simp only [(mob_q_loop _ 28).2.2.2.2.2.2.1, (mob_q_loop _ 28).2.2.2.2.2.2.2]
  obtain ⟨hv, hm⟩ := mob_n_loop D s 9
  obtain ⟨_, _, k1, k2, _⟩ := mob_n_loop_keeps D s 9
  generalize (List.range 9).foldl (mob_n_body D) s = s1 at hv hm k1 k2
  have hv2 := (mob_b_loop D s1 14).1.trans hv
  have hm2 := (mob_b_loop D s1 14).2.1.trans hm
  have k12 := (mob_b_loop_keeps D s1 14).1.trans k1
  have k22 := (mob_b_loop_keeps D s1 14).2.1.trans k2
  generalize (List.range 14).foldl (mob_b_body D) s1 = s2 at hv2 hm2 k12 k22
  constructor
  · rw [foldl_range_fill (mob_r_body D) (fun t => t.r_mob_mg)
      (fun i => if s.mob_style = 0 then 2 * ((i : Int) - 7) else s.values (D.idx .RMG0 + i))
      (fun t => t.values = s.values ∧ t.mob_style = s.mob_style) (fun _ _ h => h)
      (fun t i j h => by simp only [mob_r_body, upd, h.1, h.2]) s2 ⟨hv2, hm2⟩ 15 i, k12]
  · rw [foldl_range_fill (mob_r_body D) (fun t => t.r_mob_eg)
      (fun i => if s.mob_style = 0 then 4 * ((i : Int) - 7) else s.values (D.idx .REG0 + i))
      (fun t => t.values = s.values ∧ t.mob_style = s.mob_style) (fun _ _ h => h)
      (fun t i j h => by simp only [mob_r_body, upd, h.1, h.2]) s2 ⟨hv2, hm2⟩ 15 i, k22]

theorem InitMobility_q_eq (D : Decls) (s : cParam) (i : Nat) :
    (InitMobility D s).q_mob_mg i = (if i < 28 then 1 * ((i : Int) - 14) else s.q_mob_mg i) ∧
    (InitMobility D s).q_mob_eg i = (if i < 28 then 2 * ((i : Int) - 14) else s.q_mob_eg i) := by
  simp only [InitMobility]
  obtain ⟨_, _, _, _, k1, k2⟩ := mob_n_loop_keeps D s 9
  generalize (List.range 9).foldl (mob_n_body D) s = s1 at k1 k2
  have k12 := (mob_b_loop_keeps D s1 14).2.2.1.trans k1
  have k22 := (mob_b_loop_keeps D s1 14).2.2.2.trans k2
  generalize (List.range 14).foldl (mob_b_body D) s1 = s2 at k12 k22
  have k13 := (mob_r_loop_keeps D s2 15).1.trans k12
  have k23 := (mob_r_loop_keeps D s2 15).2.trans k22
  generalize (List.range 15).foldl (mob_r_body D) s2 = s3 at k13 k23
  constructor
  · rw [foldl_range_fill mob_q_body (fun t => t.q_mob_mg)
      (fun i => 1 * ((i : Int) - 14)) (fun _ => True) (fun _ _ h => h)
      (fun t i j _ => by simp only [mob_q_body, upd, ite_self]) s3 trivial 28 i, k13]
  · rw [foldl_range_fill mob_q_body (fun t => t.q_mob_eg)
      (fun i => 2 * ((i : Int) - 14)) (fun _ => True) (fun _ _ h => h)
      (fun t i j _ => by simp only [mob_q_body, upd, ite_self]) s3 trivial 28 i, k23]

/-! ### Determinism and idempotence of the builders -/

theorem eq_of_restore_pst (a a2 b : cParam) (hr : restore_pst a b = restore_pst a2 b)
    (h1 : a.mg_pst = a2.mg_pst) (h2 : a.eg_pst = a2.eg_pst) (h3 : a.sp_pst = a2.sp_pst) :
    a = a2 := by
  have e : ∀ x : cParam, x = { restore_pst x b with
      mg_pst := x.mg_pst, eg_pst := x.eg_pst, sp_pst := x.sp_pst } := fun _ => rfl
  rw [e a, e a2, hr, h1, h2, h3]

theorem eq_of_restore_mobility (a a2 b : cParam)
    (hr : restore_mobility a b = restore_mobility a2 b)
    (h1 : a.n_mob_mg = a2.n_mob_mg) (h2 : a.n_mob_eg = a2.n_mob_eg)
    (h3 : a.b_mob_mg = a2.b_mob_mg) (h4 : a.b_mob_eg = a2.b_mob_eg)
    (h5 : a.r_mob_mg = a2.r_mob_mg) (h6 : a.r_mob_eg = a2.r_mob_eg)
    (h7 : a.q_mob_mg = a2.q_mob_mg) (h8 : a.q_mob_eg = a2.q_mob_eg) : a = a2 := by
  have e : ∀ x : cParam, x = { restore_mobility x b with
      n_mob_mg := x.n_mob_mg, n_mob_eg := x.n_mob_eg, b_mob_mg := x.b_mob_mg,
      b_mob_eg := x.b_mob_eg, r_mob_mg := x.r_mob_mg, r_mob_eg := x.r_mob_eg,
      q_mob_mg := x.q_mob_mg, q_mob_eg := x.q_mob_eg } := fun _ => rfl
  rw [e a, e a2, hr, h1, h2, h3, h4, h5, h6, h7, h8]

theorem eq_of_restore_material (a a2 b : cParam)
    (hr : restore_material a b = restore_material a2 b)
    (h1 : a.np_table = a2.np_table) (h2 : a.rp_table = a2.rp_table)
    (h3 : a.imbalance = a2.imbalance) : a = a2 := by
  have e : ∀ x : cParam, x = { restore_material x b with
      np_table := x.np_table, rp_table := x.rp_table, imbalance := x.imbalance } :=
    fun _ => rfl
  rw [e a, e a2, hr, h1, h2, h3]

theorem eq_of_restore_backward (a a2 b : cParam)
    (hr : restore_backward a b = restore_backward a2 b)
    (h1 : a.backward_malus_mg = a2.backward_malus_mg) : a = a2 := by
  have e : ∀ x : cParam, x = { restore_backward x b with
      backward_malus_mg := x.backward_malus_mg } := fun _ => rfl
  rw [e a, e a2, hr, h1]

theorem eq_of_restore_passers (a a2 b : cParam)
    (hr : restore_passers a b = restore_passers a2 b)
    (h1 : a.passed_bonus_mg = a2.passed_bonus_mg)
    (h2 : a.passed_bonus_eg = a2.passed_bonus_eg) : a = a2 := by
  have e : ∀ x : cParam, x = { restore_passers x b with
      passed_bonus_mg := x.passed_bonus_mg, passed_bonus_eg := x.passed_bonus_eg } :=
    fun _ => rfl
  rw [e a, e a2, hr, h1, h2]

theorem InitPst_idem (D : Decls) (s : cParam) : InitPst D (InitPst D s) = InitPst D s := by
  have hv : (InitPst D s).values = s.values := (InitPst_upto_spec D s 64).1
  have hp : (InitPst D s).pst_style = s.pst_style := (InitPst_upto_spec D s 64).2.1
  refine eq_of_restore_pst _ _ s (InitPst_frame D (InitPst D s) s) ?_ ?_ ?_
  · funext sd pc k
    rw [InitPst_mg_eq D (InitPst D s), InitPst_mg_eq D s, mgEntry_congr D s _ hv hp]
    split <;> rfl
  · funext sd pc k
    rw [InitPst_eg_eq D (InitPst D s), InitPst_eg_eq D s, egEntry_congr D s _ hv hp]
    split <;> rfl
  · funext sd key k
    rw [InitPst_sp_eq D (InitPst D s), InitPst_sp_eq D s]
    split <;> rfl

theorem InitMobility_idem (D : Decls) (s : cParam) :
    InitMobility D (InitMobility D s) = InitMobility D s := by
  obtain ⟨hv, _, _, _, _, hm⟩ := sameParams_of_mobility _ _
    (show restore_mobility (InitMobility D s) s = s from InitMobility_frame D s s)
  refine eq_of_restore_mobility _ _ s (InitMobility_frame D (InitMobility D s) s)
    ?_ ?_ ?_ ?_ ?_ ?_ ?_ ?_ <;> funext i
  · rw [(InitMobility_n_eq D (InitMobility D s) i).1, (InitMobility_n_eq D s i).1, hv, hm]
    split <;> rfl
  · rw [(InitMobility_n_eq D (InitMobility D s) i).2, (InitMobility_n_eq D s i).2, hv, hm]
    split <;> rfl
  · rw [(InitMobility_b_eq D (InitMobility D s) i).1, (InitMobility_b_eq D s i).1, hv, hm]
    split <;> rfl
  · rw [(InitMobility_b_eq D (InitMobility D s) i).2, (InitMobility_b_eq D s i).2, hv, hm]
    split <;> rfl
  · rw [(InitMobility_r_eq D (InitMobility D s) i).1, (InitMobility_r_eq D s i).1, hv, hm]
    split <;> rfl
  · rw [(InitMobility_r_eq D (InitMobility D s) i).2, (InitMobility_r_eq D s i).2, hv, hm]
    split <;> rfl
  · rw [(InitMobility_q_eq D (InitMobility D s) i).1, (InitMobility_q_eq D s i).1]
    split <;> rfl
  · rw [(InitMobility_q_eq D (InitMobility D s) i).2, (InitMobility_q_eq D s i).2]
    split <;> rfl

theorem InitMaterialTweaks_idem (D : Decls) (s : cParam) :
    InitMaterialTweaks D (InitMaterialTweaks D s) = InitMaterialTweaks D s := by
  have hv : (InitMaterialTweaks D s).values = s.values := (InitMaterialTweaks_keeps D s).1
  refine eq_of_restore_material _ _ s (InitMaterialTweaks_frame D (InitMaterialTweaks D s) s)
    ?_ ?_ ?_
  · funext i
    rw [(InitMaterialTweaks_pawn_eq D (InitMaterialTweaks D s) i).1,
      (InitMaterialTweaks_pawn_eq D s i).1, hv]
    split <;> rfl
  · funext i
    rw [(InitMaterialTweaks_pawn_eq D (InitMaterialTweaks D s) i).2,
      (InitMaterialTweaks_pawn_eq D s i).2, hv]
    split <;> rfl
  · funext i j
    rw [InitMaterialTweaks_imbalance_eq D (InitMaterialTweaks D s),
      InitMaterialTweaks_imbalance_eq D s, imbalance_value_congr D s _ hv]
    split <;> rfl

theorem InitBackward_idem (D : Decls) (s : cParam) :
    InitBackward D (InitBackward D s) = InitBackward D s := by
  have hv : (InitBackward D s).values = s.values := (InitBackward_keeps D s).1
  refine eq_of_restore_backward _ _ s (InitBackward_frame D (InitBackward D s) s) ?_
  rw [InitBackward_eq D (InitBackward D s), InitBackward_eq D s, hv]
  funext f
  simp only [upd]
  split_ifs <;> rfl

theorem InitPassers_mg_eq (D : Decls) (s : cParam) (sd r : Nat) :
    (InitPassers D s).passed_bonus_mg sd r =
      if sd < 2 ∧ r < 8 then passed_mg_value D s sd r else s.passed_bonus_mg sd r := by
  rw [InitPassers_mg]
  by_cases h : sd < 2 ∧ r < 8
  · obtain ⟨h1, h2⟩ := h
    interval_cases sd <;> interval_cases r <;> simp [passed_mg_value]
  · rw [if_neg h]
    by_cases h1 : sd < 2
    · have h2 : 8 ≤ r := by omega
      have e0 : r ≠ 0 := by omega
      have e1 : r ≠ 1 := by omega
      have e2 : r ≠ 2 := by omega
      have e3 : r ≠ 3 := by omega
      have e4 : r ≠ 4 := by omega
      have e5 : r ≠ 5 := by omega
      have e6 : r ≠ 6 := by omega
      have e7 : r ≠ 7 := by omega
      simp only [e0, e1, e2, e3, e4, e5, e6, e7, and_false, if_false]
    · have e0 : sd ≠ 0 := by omega
      have e1 : sd ≠ 1 := by omega
      simp only [e0, e1, false_and, if_false]

theorem InitPassers_eg_eq (D : Decls) (s : cParam) (sd r : Nat) :
    (InitPassers D s).passed_bonus_eg sd r =
      if sd < 2 ∧ r < 8 then passed_eg_value D s sd r else s.passed_bonus_eg sd r := by
  rw [InitPassers_eg]
  by_cases h : sd < 2 ∧ r < 8
  · obtain ⟨h1, h2⟩ := h
    interval_cases sd <;> interval_cases r <;> simp [passed_eg_value]
  · rw [if_neg h]
    by_cases h1 : sd < 2
    · have h2 : 8 ≤ r := by omega
      have e0 : r ≠ 0 := by omega
      have e1 : r ≠ 1 := by omega
      have e2 : r ≠ 2 := by omega
      have e3 : r ≠ 3 := by omega
      have e4 : r ≠ 4 := by omega
      have e5 : r ≠ 5 := by omega
      have e6 : r ≠ 6 := by omega
      have e7 : r ≠ 7 := by omega
      simp only [e0, e1, e2, e3, e4, e5, e6, e7, and_false, if_false]
    · have e0 : sd ≠ 0 := by omega
      have e1 : sd ≠ 1 := by omega
      simp only [e0, e1, false_and, if_false]

theorem passed_value_congr (D : Decls) (s t : cParam) (h : t.values = s.values) (sd r : Nat) :
    passed_mg_value D t sd r = passed_mg_value D s sd r ∧
    passed_eg_value D t sd r = passed_eg_value D s sd r := by
  unfold passed_mg_value passed_eg_value
  rw [h]
  exact ⟨rfl, rfl⟩

theorem InitPassers_idem (D : Decls) (s : cParam) :
    InitPassers D (InitPassers D s) = InitPassers D s := by
  have hv : (InitPassers D s).values = s.values := (InitPassers_keeps D s).1
  refine eq_of_restore_passers _ _ s (InitPassers_frame D (InitPassers D s) s) ?_ ?_
  · funext sd r
    rw [InitPassers_mg_eq D (InitPassers D s), InitPassers_mg_eq D s,
      (passed_value_congr D s _ hv sd r).1]
    split <;> rfl
  · funext sd r
    rw [InitPassers_eg_eq D (InitPassers D s), InitPassers_eg_eq D s,
      (passed_value_congr D s _ hv sd r).2]
    split <;> rfl


/-- C25: the tables produced by `InitPst`, `InitMobility`, `InitMaterialTweaks`,
`InitBackward` and `InitPassers` depend only on `values`, the style selectors and
the static templates, never on the previous contents of the tables: for two
stores that agree on `values`, `pst_style` and `mob_style`, the same builder
yields the same entry at every index it covers (the 64 squares of each side for
every piece kind and every special key, every mobility count, every pawn count
and imbalance cell, every file, every rank of each side), and running a builder
twice gives the same store as running it once. -/
theorem builders_deterministic (D : Decls) (s t : cParam) (h : sameInputs t s) :
    (∀ sd pc sq, sd < 2 → pc ≤ 5 → sq < 64 →
      (InitPst D t).mg_pst sd pc sq = (InitPst D s).mg_pst sd pc sq ∧
      (InitPst D t).eg_pst sd pc sq = (InitPst D s).eg_pst sd pc sq) ∧
    (∀ sd key sq, sd < 2 → key ∈ spKeys D → sq < 64 →
      (InitPst D t).sp_pst sd key sq = (InitPst D s).sp_pst sd key sq) ∧
    (∀ i, i < 9 →
      (InitMobility D t).n_mob_mg i = (InitMobility D s).n_mob_mg i ∧
      (InitMobility D t).n_mob_eg i = (InitMobility D s).n_mob_eg i) ∧
    (∀ i, i < 14 →
      (InitMobility D t).b_mob_mg i = (InitMobility D s).b_mob_mg i ∧
      (InitMobility D t).b_mob_eg i = (InitMobility D s).b_mob_eg i) ∧
    (∀ i, i < 15 →
      (InitMobility D t).r_mob_mg i = (InitMobility D s).r_mob_mg i ∧
      (InitMobility D t).r_mob_eg i = (InitMobility D s).r_mob_eg i) ∧
    (∀ i, i < 28 →
      (InitMobility D t).q_mob_mg i = (InitMobility D s).q_mob_mg i ∧
      (InitMobility D t).q_mob_eg i = (InitMobility D s).q_mob_eg i) ∧
    (∀ i, i < 9 →
      (InitMaterialTweaks D t).np_table i = (InitMaterialTweaks D s).np_table i ∧
      (InitMaterialTweaks D t).rp_table i = (InitMaterialTweaks D s).rp_table i) ∧
    (∀ i j, i < 9 → j < 9 →
      (InitMaterialTweaks D t).imbalance i j = (InitMaterialTweaks D s).imbalance i j) ∧
    (∀ f, f < 8 →
      (InitBackward D t).backward_malus_mg f = (InitBackward D s).backward_malus_mg f) ∧
    (∀ sd r, sd < 2 → r < 8 →
      (InitPassers D t).passed_bonus_mg sd r = (InitPassers D s).passed_bonus_mg sd r ∧
      (InitPassers D t).passed_bonus_eg sd r = (InitPassers D s).passed_bonus_eg sd r) ∧
    (InitPst D (InitPst D s) = InitPst D s ∧
     InitMobility D (InitMobility D s) = InitMobility D s ∧
     InitMaterialTweaks D (InitMaterialTweaks D s) = InitMaterialTweaks D s ∧
     InitBackward D (InitBackward D s) = InitBackward D s ∧
     InitPassers D (InitPassers D s) = InitPassers D s) := by
  obtain ⟨hv, hp, hm⟩ := h
  refine ⟨?_, ?_, ?_, ?_, ?_, ?_, ?_, ?_, ?_, ?_, InitPst_idem D s, InitMobility_idem D s,
    InitMaterialTweaks_idem D s, InitBackward_idem D s, InitPassers_idem D s⟩
  · intro sd pc sq h1 h2 h3
    rw [InitPst_mg_eq D t, InitPst_mg_eq D s, InitPst_eg_eq D t, InitPst_eg_eq D s,
      if_pos ⟨h1, h3, h2⟩, if_pos ⟨h1, h3, h2⟩, if_pos ⟨h1, h3, h2⟩, if_pos ⟨h1, h3, h2⟩,
      mgEntry_congr D s t hv hp, egEntry_congr D s t hv hp]
    exact ⟨rfl, rfl⟩
  · intro sd key sq h1 h2 h3
    rw [InitPst_sp_eq D t, InitPst_sp_eq D s, if_pos ⟨h1, h3, h2⟩, if_pos ⟨h1, h3, h2⟩]
  · intro i hi
    rw [(InitMobility_n_eq D t i).1, (InitMobility_n_eq D s i).1, (InitMobility_n_eq D t i).2,
      (InitMobility_n_eq D s i).2, if_pos hi, if_pos hi, if_pos hi, if_pos hi, hv, hm]
    exact ⟨rfl, rfl⟩
  · intro i hi
    rw [(InitMobility_b_eq D t i).1, (InitMobility_b_eq D s i).1, (InitMobility_b_eq D t i).2,
      (InitMobility_b_eq D s i).2, if_pos hi, if_pos hi, if_pos hi, if_pos hi, hv, hm]
    exact ⟨rfl, rfl⟩
  · intro i hi
    rw [(InitMobility_r_eq D t i).1, (InitMobility_r_eq D s i).1, (InitMobility_r_eq D t i).2,
      (InitMobility_r_eq D s i).2, if_pos hi, if_pos hi, if_pos hi, if_pos hi, hv, hm]
    exact ⟨rfl, rfl⟩
  · intro i hi
    rw [(InitMobility_q_eq D t i).1, (InitMobility_q_eq D s i).1, (InitMobility_q_eq D t i).2,
      (InitMobility_q_eq D s i).2, if_pos hi, if_pos hi, if_pos hi, if_pos hi]
    exact ⟨rfl, rfl⟩
  · intro i hi
    rw [(InitMaterialTweaks_pawn_eq D t i).1, (InitMaterialTweaks_pawn_eq D s i).1,
      (InitMaterialTweaks_pawn_eq D t i).2, (InitMaterialTweaks_pawn_eq D s i).2,
      if_pos hi, if_pos hi, if_pos hi, if_pos hi, hv]
    exact ⟨rfl, rfl⟩
  · intro i j hi hj
    rw [InitMaterialTweaks_imbalance_eq D t, InitMaterialTweaks_imbalance_eq D s,
      if_pos ⟨hi, hj⟩, if_pos ⟨hi, hj⟩, imbalance_value_congr D s t hv]
  · intro f hf
    rw [InitBackward_eq D t, InitBackward_eq D s, hv]
    interval_cases f <;> simp [upd]
  · intro sd r h1 h2
    rw [InitPassers_mg_eq D t, InitPassers_mg_eq D s, InitPassers_eg_eq D t,
      InitPassers_eg_eq D s, if_pos ⟨h1, h2⟩, if_pos ⟨h1, h2⟩, if_pos ⟨h1, h2⟩, if_pos ⟨h1, h2⟩,
      (passed_value_congr D s t hv sd r).1, (passed_value_congr D s t hv sd r).2]
    exact ⟨rfl, rfl⟩

theorem builders_deterministic_witness :
    (InitPst sampleDecls scribbledParam).mg_pst 1 N 9
      = (InitPst sampleDecls knightParam).mg_pst 1 N 9 ∧
    (InitMaterialTweaks sampleDecls scribbledParam).imbalance 8 8
      = (InitMaterialTweaks sampleDecls knightParam).imbalance 8 8 ∧
    InitPassers sampleDecls (InitPassers sampleDecls knightParam)
      = InitPassers sampleDecls knightParam :=
  ⟨((builders_deterministic sampleDecls knightParam scribbledParam ⟨rfl, rfl, rfl⟩).1
      1 N 9 (by decide) (by decide) (by decide)).1,
   (builders_deterministic sampleDecls knightParam scribbledParam
      ⟨rfl, rfl, rfl⟩).2.2.2.2.2.2.2.1 8 8 (by decide) (by decide),
   (builders_deterministic sampleDecls knightParam scribbledParam
      ⟨rfl, rfl, rfl⟩).2.2.2.2.2.2.2.2.2.2.2.2.2.2⟩


/-! ### Printing the tunable values -/

theorem tunableSlots_succ (s : cParam) (n : Nat) :
    tunableSlots s (n + 1) = tunableSlots s n ++ (if s.tunable n = true then [n] else []) := by
  unfold tunableSlots
  rw [List.range_succ, List.filter_append]
  by_cases h : s.tunable n = true <;> simp [h]

/-- Loop invariant of `PrintValues`, for a loop started in the store `s0` with
the output `o`: the counter is the number of tunable slots seen, the output has
grown by the entries of these slots, nothing else has changed. -/
theorem PrintValues_loop (D : Decls) (s0 : cParam) (n : Nat) :
    ((List.range n).foldl (PrintValues_body D) (0, s0)).1 = ((tunableSlots s0 n).length : Int) ∧
    ((List.range n).foldl (PrintValues_body D) (0, s0)).2.out
      = s0.out ++ (tunableSlots s0 n).flatMap (printedFor D s0) ∧
    restore_out ((List.range n).foldl (PrintValues_body D) (0, s0)).2 s0 = s0 := by
  induction n with
  | zero => exact ⟨rfl, by simp [tunableSlots], rfl⟩
  | succ n ih =>
    obtain ⟨h1, h2, h3⟩ := ih
    rw [foldl_range_succ]
    generalize (List.range n).foldl (PrintValues_body D) (0, s0) = p at h1 h2 h3
    have ht0 := congrArg cParam.tunable h3
    have hv0 := congrArg cParam.values h3
    have ht : p.2.tunable = s0.tunable := ht0
    have hv : p.2.values = s0.values := hv0
    have he : valueEntry D p.2 n = valueEntry D s0 n := by unfold valueEntry; rw [hv]
    rw [tunableSlots_succ]
    unfold PrintValues_body
    rw [ht, he]
    by_cases htn : s0.tunable n = true
    · rw [if_pos htn, if_pos htn]
      have hlen : (tunableSlots s0 (n + 1)).length = (tunableSlots s0 n).length + 1 := by
        rw [tunableSlots_succ, if_pos htn, List.length_append]; rfl
      have hmod : ((p.1 + 1).tmod 4 = 0) ↔ ((tunableSlots s0 (n + 1)).length % 4 = 0) := by
        rw [h1, hlen, Int.tmod_eq_emod (by omega) (by decide)]
        omega
      simp only [List.flatMap_append, List.flatMap_cons, List.flatMap_nil, List.append_nil,
        printedFor, List.length_append, List.length_singleton]
      by_cases hm : (tunableSlots s0 (n + 1)).length % 4 = 0
      · rw [if_pos (hmod.mpr hm), if_pos hm]
        refine ⟨by rw [h1]; push_cast; rfl, ?_, h3⟩
        show (p.2.out ++ [valueEntry D s0 n]) ++ ["\n"] = _
        rw [h2]
        simp
      · rw [if_neg (fun h => hm (hmod.mp h)), if_neg hm]
        refine ⟨by rw [h1]; push_cast; rfl, ?_, h3⟩
        show p.2.out ++ [valueEntry D s0 n] = _
        rw [h2]
        simp
    · rw [if_neg htn, if_neg htn]
      simp only [List.append_nil]
      exact ⟨h1, h2, h3⟩

/-- C21: `PrintValues` prints, between the two blank-line strings, one entry
(name and current value) for every slot `i < N_OF_VAL` with `tunable[i]` true, in
increasing slot order, a line break after every fourth entry, and nothing for a
non-tunable slot; apart from standard output the store is unchanged. -/
theorem PrintValues_output (D : Decls) (s : cParam) :
    (PrintValues D s).out =
      s.out ++ ["\n\n"] ++ (tunableSlots s D.N_OF_VAL).flatMap (printedFor D s) ++ ["\n\n"] ∧
    (∀ i, i ∈ tunableSlots s D.N_OF_VAL ↔ i < D.N_OF_VAL ∧ s.tunable i = true) ∧
    List.Pairwise (fun a b => a < b) (tunableSlots s D.N_OF_VAL) ∧
    restore_out (PrintValues D s) s = s := by
  obtain ⟨_, h2, h3⟩ := PrintValues_loop D { s with out := s.out ++ ["\n\n"] } D.N_OF_VAL
  refine ⟨?_, ?_, ?_, ?_⟩
  · show ((List.range D.N_OF_VAL).foldl (PrintValues_body D)
      (0, { s with out := s.out ++ ["\n\n"] })).2.out ++ ["\n\n"] = _
    rw [h2]
    rfl
  · intro i
    simp [tunableSlots]
  · exact List.Pairwise.filter _ (List.pairwise_lt_range _)
  · show restore_out ((List.range D.N_OF_VAL).foldl (PrintValues_body D)
      (0, { s with out := s.out ++ ["\n\n"] })).2 s = s
    generalize ((List.range D.N_OF_VAL).foldl (PrintValues_body D)
      (0, { s with out := s.out ++ ["\n\n"] })).2 = q at h3
    have := congrArg (fun x => restore_out x s) h3
    exact this

/-- The output of `PrintValues` on a store with three slots, of which slots 0
and 2 are tunable: the entries of slot 0 and slot 2, none for slot 1. -/
theorem PrintValues_sample :
    (PrintValues { sampleDecls with N_OF_VAL := 3 } printParam).out =
      ["\n\n", "               :   91     ", "               :  334     ", "\n\n"] := by
  decide

/-! ### The personality profile -/

theorem assignVals_keeps (D : Decls) (l : List (ParamName × Int)) :
    ∀ s, (assignVals D s l).min_val = s.min_val ∧ (assignVals D s l).max_val = s.max_val ∧
      (assignVals D s l).tunable = s.tunable := by
  induction l with
  | nil => intro s; exact ⟨rfl, rfl, rfl⟩
  | cons a l ih =>
    intro s
    exact ih { s with values := upd s.values (D.idx a.1) a.2 }

theorem sameBounds_trans {a b c : cParam} (h : sameBounds a b) (k : sameBounds b c) :
    sameBounds a c :=
  ⟨h.1.trans k.1, h.2.1.trans k.2.1, h.2.2.1.trans k.2.2.1, h.2.2.2.1.trans k.2.2.2.1,
    h.2.2.2.2.trans k.2.2.2.2⟩

theorem sameBounds_of_pst (t s : cParam) (h : restore_pst t s = restore_pst s s) :
    sameBounds t s := by
  have h1 := congrArg cParam.values h
  have h2 := congrArg cParam.min_val h
  have h3 := congrArg cParam.max_val h
  have h4 := congrArg cParam.tunable h
  have h5 := congrArg cParam.out h
  exact ⟨h1, h2, h3, h4, h5⟩

theorem sameBounds_of_mobility (t s : cParam)
    (h : restore_mobility t s = restore_mobility s s) : sameBounds t s := by
  have h1 := congrArg cParam.values h
  have h2 := congrArg cParam.min_val h
  have h3 := congrArg cParam.max_val h
  have h4 := congrArg cParam.tunable h
  have h5 := congrArg cParam.out h
  exact ⟨h1, h2, h3, h4, h5⟩

theorem sameBounds_of_material (t s : cParam)
    (h : restore_material t s = restore_material s s) : sameBounds t s := by
  have h1 := congrArg cParam.values h
  have h2 := congrArg cParam.min_val h
  have h3 := congrArg cParam.max_val h
  have h4 := congrArg cParam.tunable h
  have h5 := congrArg cParam.out h
  exact ⟨h1, h2, h3, h4, h5⟩

theorem sameBounds_of_backward (t s : cParam)
    (h : restore_backward t s = restore_backward s s) : sameBounds t s := by
  have h1 := congrArg cParam.values h
  have h2 := congrArg cParam.min_val h
  have h3 := congrArg cParam.max_val h
  have h4 := congrArg cParam.tunable h
  have h5 := congrArg cParam.out h
  exact ⟨h1, h2, h3, h4, h5⟩

theorem sameBounds_of_passers (t s : cParam)
    (h : restore_passers t s = restore_passers s s) : sameBounds t s := by
  have h1 := congrArg cParam.values h
  have h2 := congrArg cParam.min_val h
  have h3 := congrArg cParam.max_val h
  have h4 := congrArg cParam.tunable h
  have h5 := congrArg cParam.out h
  exact ⟨h1, h2, h3, h4, h5⟩

theorem profile_hist_sameBounds (s : cParam) : sameBounds (profile_hist s) s :=
  ⟨rfl, rfl, rfl, rfl, rfl⟩

/-- The five builders of a profile leave the values, the bounds, the tunable
flags and the output as they were. -/
theorem profile_builders_sameBounds (D : Decls) (s : cParam) :
    sameBounds (profile_builders D s) s := by
  unfold profile_builders
  exact sameBounds_trans (sameBounds_of_passers _ _ (InitPassers_frame D _ _))
    (sameBounds_trans (sameBounds_of_backward _ _ (InitBackward_frame D _ _))
      (sameBounds_trans (sameBounds_of_material _ _ (InitMaterialTweaks_frame D _ _))
        (sameBounds_trans (sameBounds_of_mobility _ _ (InitMobility_frame D _ _))
          (sameBounds_of_pst _ _ (InitPst_frame D _ _)))))

theorem InitialPersonalityWeights_params_keeps (D : Decls) (s : cParam) :
    (InitialPersonalityWeights_params D s).min_val = s.min_val ∧
    (InitialPersonalityWeights_params D s).max_val = s.max_val ∧
    (InitialPersonalityWeights_params D s).tunable = s.tunable := by
  have e1 : ∀ t, (profile_draw t).min_val = t.min_val ∧ (profile_draw t).max_val = t.max_val ∧
      (profile_draw t).tunable = t.tunable := fun _ => ⟨rfl, rfl, rfl⟩
  have e2 : ∀ t a b, (set_styles t a b).min_val = t.min_val ∧
      (set_styles t a b).max_val = t.max_val ∧ (set_styles t a b).tunable = t.tunable :=
    fun _ _ _ => ⟨rfl, rfl, rfl⟩
  have e3 : ∀ t, (profile_keep_pc t).min_val = t.min_val ∧
      (profile_keep_pc t).max_val = t.max_val ∧ (profile_keep_pc t).tunable = t.tunable :=
    fun _ => ⟨rfl, rfl, rfl⟩
  have e4 : ∀ t, (profile_head t).min_val = t.min_val ∧
      (profile_head t).max_val = t.max_val ∧ (profile_head t).tunable = t.tunable :=
    fun _ => ⟨rfl, rfl, rfl⟩
  simp only [InitialPersonalityWeights_params, assignVals_keeps, e1, e2, e3, e4, and_self]

/-- C22: the personality profile loader declares no bounds and no tunability:
`InitialPersonalityWeights` leaves `min_val`, `max_val` and `tunable` of every
slot exactly as they were, so on a store in which no slot was tunable
beforehand every slot is non-tunable after loading. -/
theorem InitialPersonalityWeights_declares_nothing (D : Decls) (s : cParam) :
    (InitialPersonalityWeights D s).min_val = s.min_val ∧
    (InitialPersonalityWeights D s).max_val = s.max_val ∧
    (InitialPersonalityWeights D s).tunable = s.tunable ∧
    ((∀ i, s.tunable i = false) → ∀ i, (InitialPersonalityWeights D s).tunable i = false) := by
  have a := sameBounds_trans (profile_hist_sameBounds _)
    (profile_builders_sameBounds D (InitialPersonalityWeights_params D s))
  obtain ⟨k2, k3, k4⟩ := InitialPersonalityWeights_params_keeps D s
  unfold InitialPersonalityWeights
  have e2 := a.2.1.trans k2
  have e3 := a.2.2.1.trans k3
  have e4 := a.2.2.2.1.trans k4
  exact ⟨e2, e3, e4, fun h i => by rw [e4]; exact h i⟩

theorem InitialPersonalityWeights_declares_nothing_witness :
    (InitialPersonalityWeights sampleDecls zeroParam).tunable 0 = false :=
  (InitialPersonalityWeights_declares_nothing sampleDecls zeroParam).2.2.2 (fun _ => rfl) 0

/-! ### The default profile reports no error -/

theorem SetVal_in_range (D : Decls) (s : cParam) (slot : Nat) (v lo hi : Int) (tune : Bool)
    (h : lo ≤ v ∧ v ≤ hi) :
    (SetVal D s slot v lo hi tune).out = s.out ∧
    okAt (SetVal D s slot v lo hi tune) slot ∧
    ∀ k, okAt s k → okAt (SetVal D s slot v lo hi tune) k := by
  obtain ⟨e1, e2, e3, _⟩ := SetVal_members D s slot v lo hi tune
  have hk : ∀ k, (k = slot ∨ okAt s k) → okAt (SetVal D s slot v lo hi tune) k := by
    intro k hk
    unfold okAt
    rw [e1, e2, e3]
    unfold upd
    by_cases hks : k = slot
    · rw [if_pos hks, if_pos hks, if_pos hks]; exact h
    · rw [if_neg hks, if_neg hks, if_neg hks]
      rcases hk with hk | hk
      · exact absurd hk hks
      · exact hk
  refine ⟨?_, hk slot (Or.inl rfl), fun k h => hk k (Or.inr h)⟩
  unfold SetVal
  rw [if_neg (by omega)]

/-- A sequence of `SetVal` calls whose values all lie within their bounds prints
nothing, leaves every slot that was within its bounds within its bounds, and
leaves every slot it names within its bounds. -/
theorem SetVals_in_range (D : Decls) (l : List SetValCall) :
    (∀ c ∈ l, c.min ≤ c.val ∧ c.val ≤ c.max) →
    ∀ s, (SetVals D s l).out = s.out ∧
      (∀ k, okAt s k → okAt (SetVals D s l) k) ∧
      ∀ c ∈ l, okAt (SetVals D s l) (D.idx c.slot) := by
  induction l with
  | nil => intro _ s; exact ⟨rfl, fun _ h => h, fun _ h => absurd h (List.not_mem_nil _)⟩
  | cons c l ih =>
    intro hl s
    obtain ⟨a1, a2, a3⟩ := SetVal_in_range D s (D.idx c.slot) c.val c.min c.max c.tune
      (hl c (List.mem_cons_self _ _))
    obtain ⟨b1, b2, b3⟩ := ih (fun x hx => hl x (List.mem_cons_of_mem _ hx))
      (SetVal D s (D.idx c.slot) c.val c.min c.max c.tune)
    have e : SetVals D s (c :: l) =
        SetVals D (SetVal D s (D.idx c.slot) c.val c.min c.max c.tune) l := rfl
    rw [e]
    refine ⟨b1.trans a1, fun k hk => b2 k (a3 k hk), fun x hx => ?_⟩
    rcases List.mem_cons.1 hx with hx | hx
    · rw [hx]; exact b2 _ a2
    · exact b3 x hx

set_option maxRecDepth 20000 in
theorem DefaultWeights_calls_in_range :
    ∀ c ∈ DefaultWeights_calls, c.min ≤ c.val ∧ c.val ≤ c.max := by
  have h1 : ∀ c ∈ DefaultWeights_piece_values, c.min ≤ c.val ∧ c.val ≤ c.max := by decide
  have h2 : ∀ c ∈ DefaultWeights_material, c.min ≤ c.val ∧ c.val ≤ c.max := by decide
  have h3 : ∀ c ∈ DefaultWeights_weights, c.min ≤ c.val ∧ c.val ≤ c.max := by decide
  have h4 : ∀ c ∈ DefaultWeights_pawns, c.min ≤ c.val ∧ c.val ≤ c.max := by decide
  have h5 : ∀ c ∈ DefaultWeights_pieces, c.min ≤ c.val ∧ c.val ≤ c.max := by decide
  have h6 : ∀ c ∈ DefaultWeights_minor_mobility, c.min ≤ c.val ∧ c.val ≤ c.max := by decide
  have h7 : ∀ c ∈ DefaultWeights_rook_mobility, c.min ≤ c.val ∧ c.val ≤ c.max := by decide
  intro c hc
  simp only [DefaultWeights_calls, List.mem_append] at hc
  rcases hc with (((((hc | hc) | hc) | hc) | hc) | hc) | hc
  · exact h1 c hc
  · exact h2 c hc
  · exact h3 c hc
  · exact h4 c hc
  · exact h5 c hc
  · exact h6 c hc
  · exact h7 c hc

theorem okAt_of_sameBounds {t s : cParam} (h : sameBounds t s) (k : Nat) (hk : okAt s k) :
    okAt t k := by
  obtain ⟨h1, h2, h3, _, _⟩ := h
  unfold okAt
  rw [h1, h2, h3]
  exact hk

/-- The store `DefaultWeights` hands to the builders has printed nothing new and
holds every slot named by a `SetVal` call within its bounds. -/
theorem DefaultWeights_params_in_range (D : Decls) (s : cParam) :
    (DefaultWeights_params D s).out = s.out ∧
    ∀ c ∈ DefaultWeights_calls, okAt (DefaultWeights_params D s) (D.idx c.slot) := by
  have hr := DefaultWeights_calls_in_range
  simp only [DefaultWeights_calls, List.mem_append] at hr
  have g1 : sameBounds (profile_head s) s := ⟨rfl, rfl, rfl, rfl, rfl⟩
  have g2 : ∀ t, sameBounds (profile_keep_pc t) t := fun _ => ⟨rfl, rfl, rfl, rfl, rfl⟩
  have g3 : ∀ t a b, sameBounds (set_styles t a b) t := fun _ _ _ => ⟨rfl, rfl, rfl, rfl, rfl⟩
  have g4 : ∀ t, sameBounds (profile_draw t) t := fun _ => ⟨rfl, rfl, rfl, rfl, rfl⟩
  simp only [DefaultWeights_params]
  obtain ⟨o1, p1, q1⟩ := SetVals_in_range D DefaultWeights_piece_values
    (fun c hc => hr c (by tauto)) (profile_head s)
  generalize SetVals D (profile_head s) DefaultWeights_piece_values = s1 at o1 p1 q1 ⊢
  obtain ⟨o2, p2, q2⟩ := SetVals_in_range D DefaultWeights_material
    (fun c hc => hr c (by tauto)) (profile_keep_pc s1)
  generalize SetVals D (profile_keep_pc s1) DefaultWeights_material = s2 at o2 p2 q2 ⊢
  obtain ⟨o3, p3, q3⟩ := SetVals_in_range D DefaultWeights_weights
    (fun c hc => hr c (by tauto)) (set_styles s2 0 1)
  generalize SetVals D (set_styles s2 0 1) DefaultWeights_weights = s3 at o3 p3 q3 ⊢
  obtain ⟨o4, p4, q4⟩ := SetVals_in_range D DefaultWeights_pawns
    (fun c hc => hr c (by tauto)) s3
  generalize SetVals D s3 DefaultWeights_pawns = s4 at o4 p4 q4 ⊢
  obtain ⟨o5, p5, q5⟩ := SetVals_in_range D DefaultWeights_pieces
    (fun c hc => hr c (by tauto)) s4
  generalize SetVals D s4 DefaultWeights_pieces = s5 at o5 p5 q5 ⊢
  obtain ⟨o6, p6, q6⟩ := SetVals_in_range D DefaultWeights_minor_mobility
    (fun c hc => hr c (by tauto)) s5
  generalize SetVals D s5 DefaultWeights_minor_mobility = s6 at o6 p6 q6 ⊢
  obtain ⟨o7, p7, q7⟩ := SetVals_in_range D DefaultWeights_rook_mobility
    (fun c hc => hr c (by tauto)) s6
  generalize SetVals D s6 DefaultWeights_rook_mobility = s7 at o7 p7 q7 ⊢
  have u2 : ∀ k, okAt s1 k → okAt s2 k := fun k h => p2 k (okAt_of_sameBounds (g2 s1) k h)
  have u3 : ∀ k, okAt s2 k → okAt s3 k := fun k h => p3 k (okAt_of_sameBounds (g3 s2 0 1) k h)
  have u8 : ∀ k, okAt s7 k → okAt (profile_draw s7) k :=
    fun k h => okAt_of_sameBounds (g4 s7) k h
  refine ⟨?_, fun c hc => ?_⟩
  · exact (g4 s7).2.2.2.2.trans (o7.trans (o6.trans (o5.trans (o4.trans (o3.trans
      ((g3 s2 0 1).2.2.2.2.trans (o2.trans ((g2 s1).2.2.2.2.trans
        (o1.trans g1.2.2.2.2)))))))))
  · simp only [DefaultWeights_calls, List.mem_append] at hc
    rcases hc with (((((hc | hc) | hc) | hc) | hc) | hc) | hc
    · exact u8 _ (p7 _ (p6 _ (p5 _ (p4 _ (u3 _ (u2 _ (q1 c hc)))))))
    · exact u8 _ (p7 _ (p6 _ (p5 _ (p4 _ (u3 _ (q2 c hc))))))
    · exact u8 _ (p7 _ (p6 _ (p5 _ (p4 _ (q3 c hc)))))
    · exact u8 _ (p7 _ (p6 _ (p5 _ (q4 c hc))))
    · exact u8 _ (p7 _ (p6 _ (q5 c hc)))
    · exact u8 _ (p7 _ (q6 c hc))
    · exact u8 _ (q7 c hc)

/-- C23: loading the default profile reports no configuration error.  In every
`SetVal` call of `DefaultWeights` the literal value lies within the literal
bounds; hence `DefaultWeights` prints no line (the output is what it was), and
after it every slot named by one of its calls, tunable or not, holds a value
between its recorded `min_val` and `max_val`. -/
theorem DefaultWeights_no_error (D : Decls) (s : cParam) :
    (∀ c ∈ DefaultWeights_calls, c.min ≤ c.val ∧ c.val ≤ c.max) ∧
    (DefaultWeights D s).out = s.out ∧
    (∀ c ∈ DefaultWeights_calls, okAt (DefaultWeights D s) (D.idx c.slot)) := by
  have a := sameBounds_trans (profile_hist_sameBounds _)
    (profile_builders_sameBounds D (DefaultWeights_params D s))
  obtain ⟨b1, b2⟩ := DefaultWeights_params_in_range D s
  unfold DefaultWeights
  exact ⟨DefaultWeights_calls_in_range, a.2.2.2.2.trans b1,
    fun c hc => okAt_of_sameBounds a _ (b2 c hc)⟩

theorem DefaultWeights_no_error_witness :
    okAt (DefaultWeights sampleDecls zeroParam) (sampleDecls.idx .P_MID) :=
  (DefaultWeights_no_error sampleDecls zeroParam).2.2 ⟨.P_MID, 91, 50, 150, true⟩
    (by simp only [DefaultWeights_calls, DefaultWeights_piece_values, List.mem_append,
      List.mem_cons, true_or])

end Rodent
